import Mathlib

/-!
# TaQL GROUPBY support (`tables/TaQL/ExprGroup.cc`)

A shallow embedding of the grouping keys, the key sets and the aggregate
function objects of `ExprGroup.cc`, followed by the properties proved about
them.  C++ exceptions are modelled with `Except`, `vector` with `List`.
-/

namespace Casacore

/-! ## Basic types -/

/-- Exceptions thrown by the embedded code: `TableInvExpr` and the `AipsError`
raised by a failing `AlwaysAssert`. -/
inductive Error where
  | TableInvExpr (msg : String)
  | AipsError (msg : String)
  deriving DecidableEq, Repr

/-- Modelled from the spec: the macro `AlwaysAssert` is defined in `Assert.h`,
outside the sources; it throws the given exception when its condition does not
hold, with a message naming the condition. -/
def assertMsg (cond : String) : String := "Failed AlwaysAssert " ++ cond

/-- Contents of a C++ `String`: a sequence of bytes. -/
abbrev CString := List (Fin 256)

/-- C++ `operator<` on strings: the first differing byte decides, a proper
prefix is smaller. -/
def CString.lt : CString → CString → Bool
  | [], [] => false
  | [], _ :: _ => true
  | _ :: _, [] => false
  | a :: as, b :: bs =>
    if a < b then true else if b < a then false else CString.lt as bs

/-- C++ `operator==` on strings: same length and same bytes. -/
def CString.eq (a b : CString) : Bool := decide (a = b)

/-- An IEEE-754 binary64 value, given by the three fields of its bit
pattern. -/
structure Double where
  sign : Bool
  expo : Fin 2048
  mant : Fin 4503599627370496
  deriving DecidableEq, Repr

namespace Double

/-- Not-a-number: all exponent bits set and a non-zero fraction. -/
def isNaN (d : Double) : Bool := d.expo.val == 2047 && d.mant.val != 0

/-- Positive or negative zero. -/
def isZero (d : Double) : Bool := d.expo.val == 0 && d.mant.val == 0

/-- The bit pattern without its sign bit, read as an unsigned integer; it
grows with the absolute value (infinity is the largest non-NaN). -/
def magnitude (d : Double) : Nat := d.expo.val * 4503599627370496 + d.mant.val

/-- Signed magnitude: the position of a non-NaN value on the number line
(both zeros are at 0). -/
def ord (d : Double) : Int :=
  if d.sign then -(d.magnitude : Int) else (d.magnitude : Int)

/-- C++ `==` on doubles: false when either side is NaN. -/
def eq (a b : Double) : Bool := !a.isNaN && !b.isNaN && decide (a.ord = b.ord)

/-- C++ `<` on doubles: false when either side is NaN. -/
def lt (a b : Double) : Bool := !a.isNaN && !b.isNaN && decide (a.ord < b.ord)

/-- The value `+0.0`. -/
def zero : Double := ⟨false, 0, 0⟩

/-- The value `1.0`. -/
def one : Double := ⟨false, 1023, 0⟩

/-- The value `2.0`. -/
def two : Double := ⟨false, 1024, 0⟩

/-- A quiet NaN. -/
def nan : Double := ⟨false, 2047, 2251799813685248⟩

/-- Number of binary digits of a natural number below `2 ^ fuel`. -/
def bitLength : Nat → Nat → Nat
  | 0, _ => 0
  | fuel + 1, n => if n = 0 then 0 else bitLength fuel (n / 2) + 1

/-- The C++ conversion of an `Int64` to `double`: exact up to 53 significant
bits, rounded to nearest (ties to even) beyond. -/
def ofInt64 (v : Int) : Double :=
  let m := v.natAbs
  if m = 0 then zero
  else
    let e := bitLength 64 m - 1
    if e ≤ 52 then
      ⟨decide (v < 0), Fin.ofNat (e + 1023), Fin.ofNat (m * 2 ^ (52 - e) - 2 ^ 52)⟩
    else
      let sh := e - 52
      let q := m / 2 ^ sh
      let r := m % 2 ^ sh
      let half := 2 ^ (sh - 1)
      let q' := if half < r ∨ (r = half ∧ q % 2 = 1) then q + 1 else q
      if q' = 2 ^ 53 then ⟨decide (v < 0), Fin.ofNat (e + 1024), 0⟩
      else ⟨decide (v < 0), Fin.ofNat (e + 1023), Fin.ofNat (q' - 2 ^ 52)⟩

end Double

/-- Modelled from the spec: the enumeration `TableExprNodeRep::NodeDataType`
(the static data types of an expression node) is declared in `ExprNodeRep.h`,
outside the sources. -/
inductive NodeDataType where
  | NTBool
  | NTInt
  | NTDouble
  | NTComplex
  | NTString
  | NTRegex
  | NTDate
  | NTReal
  | NTDouCom
  | NTNumeric
  | NTAny
  deriving DecidableEq, Repr

/-- Modelled from the spec: the row identifier `TableExprId` is declared in
`TableExprId.h`, outside the sources: a row number, or a negative row number
together with a handle to the data the expression is evaluated on. -/
structure TableExprId where
  rownr : Int
  data : Option Nat := none
  deriving DecidableEq, Repr

/-- Modelled from the spec: the default-constructed `TableExprId` stands for
"no row recorded yet", which `TableExprGroupFirst::apply` tests as a negative
row number; it holds row number -1. -/
def TableExprId.default : TableExprId := ⟨-1, none⟩

/-- Modelled from the spec: the type `DComplex` is declared outside the
sources: a complex number of two doubles. -/
structure DComplex where
  re : Double
  im : Double
  deriving DecidableEq, Repr

/-- Modelled from the spec: the class `MVTime` is declared outside the
sources: a date/time, held as a double (days). -/
structure MVTime where
  days : Double
  deriving DecidableEq, Repr

/-- Modelled from the spec: the array shape `IPosition` is declared outside
the sources: the length of each axis. -/
abbrev IPosition := List Nat

/-- Modelled from the spec: `IPosition::product`, declared outside the sources:
the number of elements of an array of that shape; an empty shape has no
elements. -/
def IPosition.product (s : IPosition) : Nat :=
  if s = [] then 0 else s.foldl (fun a b => a * b) 1

/-- Modelled from the spec: `IPosition::isEqual`, declared outside the sources:
same number of axes and same length on each. -/
def IPosition.isEqual (s t : IPosition) : Bool := decide (s = t)

/-- Modelled from the spec: the class `MArrayBase` (shape and optional mask of
a masked array) is declared in `MArrayBase.h`, outside the sources. -/
structure MArrayBase where
  shape : IPosition := []
  mask : Option (List Bool) := none
  deriving DecidableEq, Repr

/-- Modelled from the spec: `MArrayBase::hasMask`, declared outside the
sources: the array has a mask. -/
def MArrayBase.hasMask (a : MArrayBase) : Bool := a.mask.isSome

/-- Modelled from the spec: `MArrayBase::empty`, declared outside the sources:
the array has no elements. -/
def MArrayBase.empty (a : MArrayBase) : Bool := a.shape.product == 0

/-- Modelled from the spec: the class `MArray<T>` is declared in `MArray.h`,
outside the sources: an `MArrayBase` with the elements in storage order. -/
structure MArray (α : Type) extends MArrayBase where
  data : List α := []
  deriving DecidableEq, Repr

namespace MArray

variable {α : Type}

/-- Modelled from the spec: `MArray<T>::resize (shape, useMask)`, declared
outside the sources: the array gets the given shape, and a mask of that shape
exactly when `useMask` is set; `fill` stands for the content of the newly
allocated elements. -/
def resize (_a : MArray α) (fill : α) (shape : IPosition) (useMask : Bool) : MArray α :=
  { shape := shape
    mask := if useMask then some (List.replicate shape.product false) else none
    data := List.replicate shape.product fill }

/-- Modelled from the spec: the constructor `MArray<T> (const Array<T>&)`,
declared outside the sources, applied to a vector: one axis, no mask. -/
def ofVector (v : List α) : MArray α :=
  { shape := [v.length], mask := none, data := v }

end MArray

/-- Modelled from the spec: the expression node (`TableExprNode`,
`TableExprNodeRep`) is declared outside the sources; the grouping code uses
its static data type and its evaluation at a row identifier through each
typed getter. -/
structure TableExprNode where
  dataType : NodeDataType
  getBool : TableExprId → Bool := fun _ => false
  getInt : TableExprId → Int := fun _ => 0
  getDouble : TableExprId → Double := fun _ => Double.zero
  getDComplex : TableExprId → DComplex := fun _ => ⟨Double.zero, Double.zero⟩
  getDate : TableExprId → MVTime := fun _ => ⟨Double.zero⟩
  getString : TableExprId → CString := fun _ => []
  getArrayBool : TableExprId → MArray Bool := fun _ => {}
  getArrayInt : TableExprId → MArray Int := fun _ => {}
  getArrayDouble : TableExprId → MArray Double := fun _ => {}
  getArrayDComplex : TableExprId → MArray DComplex := fun _ => {}
  getArrayDate : TableExprId → MArray MVTime := fun _ => {}
  getArrayString : TableExprId → MArray CString := fun _ => {}

/-! ## Grouping keys -/

/-- One key of a GROUPBY key set (`TableExprGroupKey`): the data type and one
storage field per representation, as read by `operator==` and `operator<`. -/
structure TableExprGroupKey where
  itsDT : NodeDataType
  itsBool : Bool := false
  itsInt64 : Int := 0
  itsDouble : Double := Double.zero
  itsString : CString := []
  deriving DecidableEq, Repr

namespace TableExprGroupKey

/-- Modelled from the spec: the constructor `TableExprGroupKey (dtype)` is
declared in `ExprGroup.h`, outside the sources: an empty slot of the given data
type; its string is empty and the other fields have not been set yet. -/
def new (dtype : NodeDataType) : TableExprGroupKey := { itsDT := dtype }

/-- Modelled from the spec: `dataType()` of `ExprGroup.h` returns the data
type of the key. -/
def dataType (k : TableExprGroupKey) : NodeDataType := k.itsDT

/-- Modelled from the spec: `set (Bool)` of `ExprGroup.h` stores the value in
`itsBool`. -/
def setBool (k : TableExprGroupKey) (v : Bool) : TableExprGroupKey := { k with itsBool := v }

/-- Modelled from the spec: `set (Int64)` of `ExprGroup.h` stores the value in
`itsInt64`. -/
def setInt (k : TableExprGroupKey) (v : Int) : TableExprGroupKey := { k with itsInt64 := v }

/-- Modelled from the spec: `set (Double)` of `ExprGroup.h` stores the value in
`itsDouble`. -/
def setDouble (k : TableExprGroupKey) (v : Double) : TableExprGroupKey := { k with itsDouble := v }

/-- Modelled from the spec: `set (const String&)` of `ExprGroup.h` stores the value in
`itsString`. -/
def setString (k : TableExprGroupKey) (v : CString) : TableExprGroupKey := { k with itsString := v }

/-- `TableExprGroupKey::operator==`: the switch on the data type of `this`. -/
def opEq (this that : TableExprGroupKey) : Bool :=
  match this.itsDT with
  | .NTBool => this.itsBool == that.itsBool
  | .NTInt => decide (this.itsInt64 = that.itsInt64)
  | .NTDouble => Double.eq this.itsDouble that.itsDouble
  | _ => CString.eq this.itsString that.itsString

/-- `TableExprGroupKey::operator<`: the switch on the data type of `this`. -/
def opLt (this that : TableExprGroupKey) : Bool :=
  match this.itsDT with
  | .NTBool => !this.itsBool && that.itsBool
  | .NTInt => decide (this.itsInt64 < that.itsInt64)
  | .NTDouble => Double.lt this.itsDouble that.itsDouble
  | _ => CString.lt this.itsString that.itsString

end TableExprGroupKey

/-- The key set `TableExprGroupKeySet`: one key per GROUPBY expression. -/
structure TableExprGroupKeySet where
  itsKeys : List TableExprGroupKey := []
  deriving DecidableEq, Repr

namespace TableExprGroupKeySet

/-- Modelled from the spec: `addKey (dtype)` of `ExprGroup.h` allocates one
more slot, typed by the given data type, at the end of the key set. -/
def addKey (s : TableExprGroupKeySet) (dtype : NodeDataType) : TableExprGroupKeySet :=
  { itsKeys := s.itsKeys ++ [TableExprGroupKey.new dtype] }

/-- The constructor `TableExprGroupKeySet (nodes)`: one `addKey` per node, in
order, with the data type of the node. -/
def new (nodes : List TableExprNode) : TableExprGroupKeySet :=
  nodes.foldl (fun s n => s.addKey n.dataType) {}

/-- The switch in the body of the loop of `fill`: the key at one position is
set from its node, by the getter that belongs to the data type of the key. -/
def fillKey (k : TableExprGroupKey) (node : TableExprNode) (id : TableExprId) :
    Except Error TableExprGroupKey :=
  match k.dataType with
  | .NTBool => .ok (k.setBool (node.getBool id))
  | .NTInt => .ok (k.setInt (node.getInt id))
  | .NTDouble => .ok (k.setDouble (node.getDouble id))
  | .NTString => .ok (k.setString (node.getString id))
  | .NTDate => .ok (k.setDouble (node.getDouble id))
  | _ => .error (.TableInvExpr "A GROUPBY key cannot have data type dcomplex")

/-- The loop of `fill` over the positions, front to back; it stops at the
first position that throws. -/
def fillLoop : List TableExprGroupKey → List TableExprNode → TableExprId →
    Except Error (List TableExprGroupKey)
  | k :: ks, n :: ns, id =>
    match fillKey k n id with
    | .ok k' =>
      match fillLoop ks ns id with
      | .ok ks' => .ok (k' :: ks')
      | .error e => .error e
    | .error e => .error e
  | _, _, _ => .ok []

/-- `TableExprGroupKeySet::fill (nodes, id)`. -/
def fill (s : TableExprGroupKeySet) (nodes : List TableExprNode) (id : TableExprId) :
    Except Error TableExprGroupKeySet :=
  if nodes.length = s.itsKeys.length then
    match fillLoop s.itsKeys nodes id with
    | .ok ks => .ok { itsKeys := ks }
    | .error e => .error e
  else .error (.AipsError (assertMsg "nodes.size() == itsKeys.size()"))

/-- The loop of `operator==`: false at the first position whose keys are not
equal, true when the positions are exhausted. -/
def eqLoop : List TableExprGroupKey → List TableExprGroupKey → Bool
  | a :: as, b :: bs => if !(a.opEq b) then false else eqLoop as bs
  | _, _ => true

/-- `TableExprGroupKeySet::operator==`. -/
def opEq (this that : TableExprGroupKeySet) : Except Error Bool :=
  if this.itsKeys.length = that.itsKeys.length then
    .ok (eqLoop this.itsKeys that.itsKeys)
  else .error (.AipsError (assertMsg "itsKeys.size() == that.itsKeys.size()"))

/-- The loop of `operator<`: decided at the first position where one key is
less than the other, false when the positions are exhausted. -/
def ltLoop : List TableExprGroupKey → List TableExprGroupKey → Bool
  | a :: as, b :: bs =>
    if a.opLt b then true else if b.opLt a then false else ltLoop as bs
  | _, _ => false

/-- `TableExprGroupKeySet::operator<`. -/
def opLt (this that : TableExprGroupKeySet) : Except Error Bool :=
  if this.itsKeys.length = that.itsKeys.length then
    .ok (ltLoop this.itsKeys that.itsKeys)
  else .error (.AipsError (assertMsg "itsKeys.size() == that.itsKeys.size()"))

/-- The key set of a row: a key set constructed from the GROUPBY nodes and
filled for the row. -/
def ofRow (nodes : List TableExprNode) (id : TableExprId) : Except Error TableExprGroupKeySet :=
  (new nodes).fill nodes id

end TableExprGroupKeySet

/-! ## Vocabulary of the statements about key sets -/

/-- The value a GROUPBY expression yields at a row, tagged with the data type
of the expression; a date is given by its double representation. -/
inductive KeyValue where
  | bool (v : Bool)
  | int (v : Int)
  | double (v : Double)
  | string (v : CString)
  | date (v : Double)
  | unsupported
  deriving DecidableEq, Repr

/-- The value of a GROUPBY expression at a row. -/
def TableExprNode.keyValue (n : TableExprNode) (id : TableExprId) : KeyValue :=
  match n.dataType with
  | .NTBool => .bool (n.getBool id)
  | .NTInt => .int (n.getInt id)
  | .NTDouble => .double (n.getDouble id)
  | .NTString => .string (n.getString id)
  | .NTDate => .date (n.getDouble id)
  | _ => .unsupported

/-- Two doubles are the same value: the same bit pattern, or the two zeros. -/
def Double.same (a b : Double) : Bool := decide (a = b) || (a.isZero && b.isZero)

/-- Two values of GROUPBY expressions are the same value. -/
def KeyValue.same : KeyValue → KeyValue → Bool
  | .double a, .double b => Double.same a b
  | .date a, .date b => Double.same a b
  | x, y => decide (x = y)

/-- Every expression of the list yields the same value on the two rows. -/
def sameValues (nodes : List TableExprNode) (r1 r2 : TableExprId) : Bool :=
  nodes.all fun n => (n.keyValue r1).same (n.keyValue r2)

/-- The supported key types: bool, int, double, string and date. -/
def supportedKeyType (dt : NodeDataType) : Bool :=
  decide (dt ∈ [NodeDataType.NTBool, .NTInt, .NTDouble, .NTString, .NTDate])

/-- The key types bool, int, double and string. -/
def plainKeyType (dt : NodeDataType) : Bool :=
  decide (dt ∈ [NodeDataType.NTBool, .NTInt, .NTDouble, .NTString])

/-- The key sets of two rows, built from the same GROUPBY nodes, compared
with `operator==`. -/
def TableExprGroupKeySet.sameGroup (nodes : List TableExprNode) (r1 r2 : TableExprId) :
    Except Error Bool :=
  match ofRow nodes r1, ofRow nodes r2 with
  | .ok k1, .ok k2 => k1.opEq k2
  | .error e, _ => .error e
  | _, .error e => .error e

/-- The key is not a double key holding a NaN. -/
def TableExprGroupKey.noNaN (k : TableExprGroupKey) : Bool :=
  !(decide (k.itsDT = NodeDataType.NTDouble) && k.itsDouble.isNaN)

/-- No double key of the set holds a NaN. -/
def TableExprGroupKeySet.noNaN (s : TableExprGroupKeySet) : Bool :=
  s.itsKeys.all TableExprGroupKey.noNaN

/-- Two key sets have the same length and the same data type at every
position. -/
def TableExprGroupKeySet.sameTypes (a b : TableExprGroupKeySet) : Bool :=
  decide (a.itsKeys.map TableExprGroupKey.itsDT = b.itsKeys.map TableExprGroupKey.itsDT)

/-- Exactly one of three answers is true. -/
def exactlyOne (p q r : Bool) : Bool :=
  (p && !q && !r) || (!p && q && !r) || (!p && !q && r)

/-- Position of a key among the keys of its data type: the linear order that
`operator<` and `operator==` follow on keys of one data type, as long as a
double key is not a NaN. -/
def TableExprGroupKey.rank (k : TableExprGroupKey) : Lex (Int × CString) :=
  match k.itsDT with
  | .NTBool => toLex (if k.itsBool then 1 else 0, [])
  | .NTInt => toLex (k.itsInt64, [])
  | .NTDouble => toLex (k.itsDouble.ord, [])
  | _ => toLex (0, k.itsString)

/-- A date expression whose value is 1.0 on row 0 and 2.0 on every other
row. -/
def exampleDateNode : TableExprNode :=
  { dataType := .NTDate
    getDouble := fun id => if id.rownr = 0 then Double.one else Double.two
    getDate := fun id => ⟨if id.rownr = 0 then Double.one else Double.two⟩ }

/-- A double expression whose value is NaN on every row. -/
def exampleNaNNode : TableExprNode :=
  { dataType := .NTDouble, getDouble := fun _ => Double.nan }

/-- A key set of one double key. -/
def exampleDoubleKeySet (d : Double) : TableExprGroupKeySet :=
  { itsKeys := [(TableExprGroupKey.new .NTDouble).setDouble d] }

/-- The key `fill` stores for a node at a row, in a slot allocated for the
data type of the node (the slot itself when `fill` throws). -/
def TableExprGroupKeySet.keyOf (n : TableExprNode) (id : TableExprId) : TableExprGroupKey :=
  match fillKey (TableExprGroupKey.new n.dataType) n id with
  | .ok k => k
  | .error _ => TableExprGroupKey.new n.dataType

/-- An int expression whose value is the row number. -/
def exampleIntNode : TableExprNode :=
  { dataType := .NTInt, getInt := fun id => id.rownr }

/-- A double expression whose value is 1.0 on every row. -/
def exampleDoubleNode : TableExprNode :=
  { dataType := .NTDouble, getDouble := fun _ => Double.one }

/-- A key set of a double key followed by an int key. -/
def exampleDoubleIntKeySet (d : Double) (i : Int) : TableExprGroupKeySet :=
  { itsKeys := [(TableExprGroupKey.new .NTDouble).setDouble d,
      (TableExprGroupKey.new .NTInt).setInt i] }

/-- The row identifier of row `n`. -/
def exampleRow (n : Nat) : TableExprId := { rownr := (n : Int), data := none }

/-! ## Aggregate functions -/

/-- The node an aggregate function object is created for, as far as the
constructor of `TableExprGroupFuncBase` inspects it: a scalar aggregate node
or an array aggregate node with its operand (which can be absent), a
user-defined function node, or any other node. -/
inductive AggrNodeRep where
  | aggrNode (operand : Option TableExprNode)
  | aggrNodeArray (operand : Option TableExprNode)
  | udfNode (isAggregate : Bool)
  | other

/-- The members of `TableExprGroupFuncBase`. -/
structure TableExprGroupFuncBase where
  itsNode : Option AggrNodeRep := none
  itsOperand : Option TableExprNode := none
  itsSeqnr : Nat := 0

/-- The constructor `TableExprGroupFuncBase (node)`: the operand is taken from
an aggregate node; any other node has to be an aggregate user-defined
function. -/
def TableExprGroupFuncBase.new (node : Option AggrNodeRep) :
    Except Error TableExprGroupFuncBase :=
  match node with
  | none => .ok { itsNode := none, itsOperand := none, itsSeqnr := 0 }
  | some (.aggrNode operand) => .ok { itsNode := node, itsOperand := operand, itsSeqnr := 0 }
  | some (.aggrNodeArray operand) => .ok { itsNode := node, itsOperand := operand, itsSeqnr := 0 }
  | some (.udfNode true) => .ok { itsNode := node, itsOperand := none, itsSeqnr := 0 }
  | some _ =>
    .error (.AipsError (assertMsg "unode && unode->isAggregate()"))

/-- The class `TableExprGroupFirst` (and its subclass `TableExprGroupLast`,
which adds no member): the base members and the captured row identifier. -/
structure TableExprGroupFirst extends TableExprGroupFuncBase where
  itsId : TableExprId := TableExprId.default

namespace TableExprGroupFirst

/-- The constructor `TableExprGroupFirst (node)`; `itsId` is
default-constructed. -/
def new (node : Option AggrNodeRep) : Except Error TableExprGroupFirst :=
  match TableExprGroupFuncBase.new node with
  | .ok b => .ok { toTableExprGroupFuncBase := b, itsId := TableExprId.default }
  | .error e => .error e

/-- `TableExprGroupFirst::apply`: keep first one. -/
def apply (f : TableExprGroupFirst) (id : TableExprId) : TableExprGroupFirst :=
  if f.itsId.rownr < 0 then { f with itsId := id } else f

/-- The rows of a group applied in arrival order. -/
def applyAll (f : TableExprGroupFirst) (ids : List TableExprId) : TableExprGroupFirst :=
  ids.foldl apply f

end TableExprGroupFirst

/-- The class `TableExprGroupLast`, derived from `TableExprGroupFirst`. -/
structure TableExprGroupLast extends TableExprGroupFirst

namespace TableExprGroupLast

/-- The constructor `TableExprGroupLast (node)`. -/
def new (node : Option AggrNodeRep) : Except Error TableExprGroupLast :=
  match TableExprGroupFirst.new node with
  | .ok f => .ok { toTableExprGroupFirst := f }
  | .error e => .error e

/-- `TableExprGroupLast::apply`. -/
def apply (f : TableExprGroupLast) (id : TableExprId) : TableExprGroupLast :=
  { f with itsId := id }

/-- The rows of a group applied in arrival order. -/
def applyAll (f : TableExprGroupLast) (ids : List TableExprId) : TableExprGroupLast :=
  ids.foldl apply f

end TableExprGroupLast

/-- The class `TableExprGroupExprId`: the base members and the vector of row
identifiers. -/
structure TableExprGroupExprId extends TableExprGroupFuncBase where
  itsIds : List TableExprId := []

namespace TableExprGroupExprId

/-- The constructor `TableExprGroupExprId (node)`: a new, empty vector. -/
def new (node : Option AggrNodeRep) : Except Error TableExprGroupExprId :=
  match TableExprGroupFuncBase.new node with
  | .ok b => .ok { toTableExprGroupFuncBase := b, itsIds := [] }
  | .error e => .error e

/-- `TableExprGroupExprId::apply`: `push_back`. -/
def apply (f : TableExprGroupExprId) (id : TableExprId) : TableExprGroupExprId :=
  { f with itsIds := f.itsIds ++ [id] }

/-- `TableExprGroupExprId::getIds`. -/
def getIds (f : TableExprGroupExprId) : List TableExprId := f.itsIds

/-- The rows of a group applied in arrival order. -/
def applyAll (f : TableExprGroupExprId) (ids : List TableExprId) : TableExprGroupExprId :=
  ids.foldl apply f

end TableExprGroupExprId

/-- The class `TableExprGroupRowid`: it has the base members only. -/
structure TableExprGroupRowid extends TableExprGroupFuncBase

namespace TableExprGroupRowid

/-- The loop of `getArrayInt`: from position `i` on, element `i` of the
vector is assigned the row number of `ids[i]`. -/
def getArrayIntLoop (ids : List TableExprId) (i : Nat) (rowIds : List Int) : List Int :=
  if h : i < ids.length then
    getArrayIntLoop ids (i + 1) (rowIds.set i (ids.get ⟨i, h⟩).rownr)
  else rowIds
termination_by ids.length - i

/-- `TableExprGroupRowid::getArrayInt (ids)`: a vector of `ids.size()`
elements is allocated, filled by the loop and returned as an array without
mask. -/
def getArrayInt (_f : TableExprGroupRowid) (ids : List TableExprId) : MArray Int :=
  MArray.ofVector (getArrayIntLoop ids 0 (List.replicate ids.length 0))

end TableExprGroupRowid

/-- The body shared, word for word, by the `checkShape` functions of the six
array aggregate classes, on the accumulated `itsValue`: the result of the call
(a value or an exception) and `itsValue` after the call. -/
def checkShapeBody {α : Type} (fill : α) (itsValue : MArray α) (arr : MArrayBase)
    (func : String) : Except Error Bool × MArray α :=
  if itsValue.empty then
    (.ok true, itsValue.resize fill arr.shape arr.hasMask)
  else if !(itsValue.shape.isEqual arr.shape) then
    (.error (.TableInvExpr ("Mismatching array shapes in aggregate function " ++ func)),
      itsValue)
  else if arr.hasMask = itsValue.hasMask then (.ok false, itsValue)
  else
    (.error (.AipsError (assertMsg "arr.hasMask() == itsValue.hasMask()")),
      itsValue)

/-- The class `TableExprGroupFuncArrayBool`. -/
structure TableExprGroupFuncArrayBool extends TableExprGroupFuncBase where
  itsValue : MArray Bool := {}

/-- The class `TableExprGroupFuncArrayInt`. -/
structure TableExprGroupFuncArrayInt extends TableExprGroupFuncBase where
  itsValue : MArray Int := {}

/-- The class `TableExprGroupFuncArrayDouble`. -/
structure TableExprGroupFuncArrayDouble extends TableExprGroupFuncBase where
  itsValue : MArray Double := {}

/-- The class `TableExprGroupFuncArrayDComplex`. -/
structure TableExprGroupFuncArrayDComplex extends TableExprGroupFuncBase where
  itsValue : MArray DComplex := {}

/-- The class `TableExprGroupFuncArrayDate`. -/
structure TableExprGroupFuncArrayDate extends TableExprGroupFuncBase where
  itsValue : MArray MVTime := {}

/-- The class `TableExprGroupFuncArrayString`. -/
structure TableExprGroupFuncArrayString extends TableExprGroupFuncBase where
  itsValue : MArray CString := {}

/-- `TableExprGroupFuncArrayBool::checkShape`. -/
def TableExprGroupFuncArrayBool.checkShape (f : TableExprGroupFuncArrayBool)
    (arr : MArrayBase) (func : String) : Except Error Bool × TableExprGroupFuncArrayBool :=
  let r := checkShapeBody false f.itsValue arr func
  (r.1, { f with itsValue := r.2 })

/-- `TableExprGroupFuncArrayInt::checkShape`. -/
def TableExprGroupFuncArrayInt.checkShape (f : TableExprGroupFuncArrayInt)
    (arr : MArrayBase) (func : String) : Except Error Bool × TableExprGroupFuncArrayInt :=
  let r := checkShapeBody 0 f.itsValue arr func
  (r.1, { f with itsValue := r.2 })

/-- `TableExprGroupFuncArrayDouble::checkShape`. -/
def TableExprGroupFuncArrayDouble.checkShape (f : TableExprGroupFuncArrayDouble)
    (arr : MArrayBase) (func : String) : Except Error Bool × TableExprGroupFuncArrayDouble :=
  let r := checkShapeBody Double.zero f.itsValue arr func
  (r.1, { f with itsValue := r.2 })

/-- `TableExprGroupFuncArrayDComplex::checkShape`. -/
def TableExprGroupFuncArrayDComplex.checkShape (f : TableExprGroupFuncArrayDComplex)
    (arr : MArrayBase) (func : String) : Except Error Bool × TableExprGroupFuncArrayDComplex :=
  let r := checkShapeBody ⟨Double.zero, Double.zero⟩ f.itsValue arr func
  (r.1, { f with itsValue := r.2 })

/-- `TableExprGroupFuncArrayDate::checkShape`. -/
def TableExprGroupFuncArrayDate.checkShape (f : TableExprGroupFuncArrayDate)
    (arr : MArrayBase) (func : String) : Except Error Bool × TableExprGroupFuncArrayDate :=
  let r := checkShapeBody ⟨Double.zero⟩ f.itsValue arr func
  (r.1, { f with itsValue := r.2 })

/-- `TableExprGroupFuncArrayString::checkShape`. -/
def TableExprGroupFuncArrayString.checkShape (f : TableExprGroupFuncArrayString)
    (arr : MArrayBase) (func : String) : Except Error Bool × TableExprGroupFuncArrayString :=
  let r := checkShapeBody [] f.itsValue arr func
  (r.1, { f with itsValue := r.2 })

/-! ## Typed getters of the functions that hold a value -/

/-- The class `TableExprGroupFuncBool`. -/
structure TableExprGroupFuncBool extends TableExprGroupFuncBase where
  itsValue : Bool := false

/-- The class `TableExprGroupFuncInt`. -/
structure TableExprGroupFuncInt extends TableExprGroupFuncBase where
  itsValue : Int := 0

/-- The class `TableExprGroupFuncDouble`. -/
structure TableExprGroupFuncDouble extends TableExprGroupFuncBase where
  itsValue : Double := Double.zero

/-- The class `TableExprGroupFuncDComplex`. -/
structure TableExprGroupFuncDComplex extends TableExprGroupFuncBase where
  itsValue : DComplex := ⟨Double.zero, Double.zero⟩

/-- The class `TableExprGroupFuncString`. -/
structure TableExprGroupFuncString extends TableExprGroupFuncBase where
  itsValue : CString := []

/-- The twelve typed getters of `TableExprGroupFuncBase`. -/
inductive Getter where
  | getBool
  | getInt
  | getDouble
  | getDComplex
  | getDate
  | getString
  | getArrayBool
  | getArrayInt
  | getArrayDouble
  | getArrayDComplex
  | getArrayDate
  | getArrayString
  deriving DecidableEq, Repr

/-- The C++ types the getters return and the functions hold. -/
inductive ValueType where
  | Bool
  | Int64
  | Double
  | DComplex
  | MVTime
  | String
  | ArrayBool
  | ArrayInt64
  | ArrayDouble
  | ArrayDComplex
  | ArrayMVTime
  | ArrayString
  deriving DecidableEq, Repr

/-- A value returned by a typed getter. -/
inductive Value where
  | bool (v : Bool)
  | int (v : Int)
  | double (v : Double)
  | dcomplex (v : DComplex)
  | date (v : MVTime)
  | string (v : CString)
  | arrayBool (v : MArray Bool)
  | arrayInt (v : MArray Int)
  | arrayDouble (v : MArray Double)
  | arrayDComplex (v : MArray DComplex)
  | arrayDate (v : MArray MVTime)
  | arrayString (v : MArray CString)
  deriving DecidableEq, Repr

/-- The name of a getter, as it appears in the exception messages. -/
def Getter.name : Getter → String
  | .getBool => "getBool"
  | .getInt => "getInt"
  | .getDouble => "getDouble"
  | .getDComplex => "getDComplex"
  | .getDate => "getDate"
  | .getString => "getString"
  | .getArrayBool => "getArrayBool"
  | .getArrayInt => "getArrayInt"
  | .getArrayDouble => "getArrayDouble"
  | .getArrayDComplex => "getArrayDComplex"
  | .getArrayDate => "getArrayDate"
  | .getArrayString => "getArrayString"

/-- The return type of a getter. -/
def Getter.returnType : Getter → ValueType
  | .getBool => .Bool
  | .getInt => .Int64
  | .getDouble => .Double
  | .getDComplex => .DComplex
  | .getDate => .MVTime
  | .getString => .String
  | .getArrayBool => .ArrayBool
  | .getArrayInt => .ArrayInt64
  | .getArrayDouble => .ArrayDouble
  | .getArrayDComplex => .ArrayDComplex
  | .getArrayDate => .ArrayMVTime
  | .getArrayString => .ArrayString

/-- The typed getters of `TableExprGroupFuncBase`: each of them throws. -/
def TableExprGroupFuncBase.get (g : Getter) (_ids : List TableExprId) : Except Error Value :=
  .error (.TableInvExpr ("TableExprGroupFuncBase::" ++ g.name ++ " not implemented"))

/-- `TableExprGroupFuncBool::getBool`. -/
def TableExprGroupFuncBool.getBool (f : TableExprGroupFuncBool) (_ids : List TableExprId) :
    Bool := f.itsValue

/-- `TableExprGroupFuncInt::getInt`. -/
def TableExprGroupFuncInt.getInt (f : TableExprGroupFuncInt) (_ids : List TableExprId) :
    Int := f.itsValue

/-- `TableExprGroupFuncInt::getDouble`: the held integer, converted by the
return statement. -/
def TableExprGroupFuncInt.getDouble (f : TableExprGroupFuncInt) (_ids : List TableExprId) :
    Double := Double.ofInt64 f.itsValue

/-- `TableExprGroupFuncDouble::getDouble`. -/
def TableExprGroupFuncDouble.getDouble (f : TableExprGroupFuncDouble)
    (_ids : List TableExprId) : Double := f.itsValue

/-- `TableExprGroupFuncDComplex::getDComplex`. -/
def TableExprGroupFuncDComplex.getDComplex (f : TableExprGroupFuncDComplex)
    (_ids : List TableExprId) : DComplex := f.itsValue

/-- `TableExprGroupFuncString::getString`. -/
def TableExprGroupFuncString.getString (f : TableExprGroupFuncString)
    (_ids : List TableExprId) : CString := f.itsValue

/-- `TableExprGroupFuncArrayBool::getArrayBool`. -/
def TableExprGroupFuncArrayBool.getArrayBool (f : TableExprGroupFuncArrayBool)
    (_ids : List TableExprId) : MArray Bool := f.itsValue

/-- `TableExprGroupFuncArrayInt::getArrayInt`. -/
def TableExprGroupFuncArrayInt.getArrayInt (f : TableExprGroupFuncArrayInt)
    (_ids : List TableExprId) : MArray Int := f.itsValue

/-- `TableExprGroupFuncArrayDouble::getArrayDouble`. -/
def TableExprGroupFuncArrayDouble.getArrayDouble (f : TableExprGroupFuncArrayDouble)
    (_ids : List TableExprId) : MArray Double := f.itsValue

/-- `TableExprGroupFuncArrayDComplex::getArrayDComplex`. -/
def TableExprGroupFuncArrayDComplex.getArrayDComplex (f : TableExprGroupFuncArrayDComplex)
    (_ids : List TableExprId) : MArray DComplex := f.itsValue

/-- `TableExprGroupFuncArrayDate::getArrayDate`. -/
def TableExprGroupFuncArrayDate.getArrayDate (f : TableExprGroupFuncArrayDate)
    (_ids : List TableExprId) : MArray MVTime := f.itsValue

/-- `TableExprGroupFuncArrayString::getArrayString`. -/
def TableExprGroupFuncArrayString.getArrayString (f : TableExprGroupFuncArrayString)
    (_ids : List TableExprId) : MArray CString := f.itsValue

/-- An object of one of the classes that hold a value of one type: the
dynamic type together with the object. -/
inductive ValueFunc where
  | funcBool (f : TableExprGroupFuncBool)
  | funcInt (f : TableExprGroupFuncInt)
  | funcDouble (f : TableExprGroupFuncDouble)
  | funcDComplex (f : TableExprGroupFuncDComplex)
  | funcString (f : TableExprGroupFuncString)
  | funcArrayBool (f : TableExprGroupFuncArrayBool)
  | funcArrayInt (f : TableExprGroupFuncArrayInt)
  | funcArrayDouble (f : TableExprGroupFuncArrayDouble)
  | funcArrayDComplex (f : TableExprGroupFuncArrayDComplex)
  | funcArrayDate (f : TableExprGroupFuncArrayDate)
  | funcArrayString (f : TableExprGroupFuncArrayString)

/-- The type of the value the object holds (the type of `itsValue`). -/
def ValueFunc.valueType : ValueFunc → ValueType
  | .funcBool _ => .Bool
  | .funcInt _ => .Int64
  | .funcDouble _ => .Double
  | .funcDComplex _ => .DComplex
  | .funcString _ => .String
  | .funcArrayBool _ => .ArrayBool
  | .funcArrayInt _ => .ArrayInt64
  | .funcArrayDouble _ => .ArrayDouble
  | .funcArrayDComplex _ => .ArrayDComplex
  | .funcArrayDate _ => .ArrayMVTime
  | .funcArrayString _ => .ArrayString

/-- A call of a typed getter through the virtual function table: the override
of the class when it has one, the function of `TableExprGroupFuncBase`
otherwise. -/
def ValueFunc.get (f : ValueFunc) (g : Getter) (ids : List TableExprId) : Except Error Value :=
  match f, g with
  | .funcBool f, .getBool => .ok (.bool (f.getBool ids))
  | .funcInt f, .getInt => .ok (.int (f.getInt ids))
  | .funcInt f, .getDouble => .ok (.double (f.getDouble ids))
  | .funcDouble f, .getDouble => .ok (.double (f.getDouble ids))
  | .funcDComplex f, .getDComplex => .ok (.dcomplex (f.getDComplex ids))
  | .funcString f, .getString => .ok (.string (f.getString ids))
  | .funcArrayBool f, .getArrayBool => .ok (.arrayBool (f.getArrayBool ids))
  | .funcArrayInt f, .getArrayInt => .ok (.arrayInt (f.getArrayInt ids))
  | .funcArrayDouble f, .getArrayDouble => .ok (.arrayDouble (f.getArrayDouble ids))
  | .funcArrayDComplex f, .getArrayDComplex => .ok (.arrayDComplex (f.getArrayDComplex ids))
  | .funcArrayDate f, .getArrayDate => .ok (.arrayDate (f.getArrayDate ids))
  | .funcArrayString f, .getArrayString => .ok (.arrayString (f.getArrayString ids))
  | _, g => TableExprGroupFuncBase.get g ids

/-- An expression of data type dcomplex. -/
def exampleComplexNode : TableExprNode := { dataType := .NTComplex }

/-- The shape and mask of an array of the given shape without mask. -/
def exampleArray (shape : IPosition) : MArrayBase := { shape := shape, mask := none }

/-! ## Function sets and results -/

/-- The class `TableExprGroupNull`: it has the base members only. -/
structure TableExprGroupNull extends TableExprGroupFuncBase

/-- `TableExprGroupNull::apply`: the exception it throws and the object after
the call. -/
def TableExprGroupNull.apply (f : TableExprGroupNull) (_id : TableExprId) :
    Except Error Unit × TableExprGroupNull :=
  (.error (.TableInvExpr ("TableExprGroupFunc::apply should not be called for " ++
    " lazy aggregation")), f)

/-- `TableExprGroupRowid::apply`: the exception it throws and the object after
the call. -/
def TableExprGroupRowid.apply (f : TableExprGroupRowid) (_id : TableExprId) :
    Except Error Unit × TableExprGroupRowid :=
  (.error (.TableInvExpr "TableExprGroupRowid::apply should not be called"), f)

/-- The class `TableExprGroupAggr`: it has the base members only. -/
structure TableExprGroupAggr extends TableExprGroupFuncBase

/-- `TableExprGroupAggr::apply`: the exception it throws and the object after
the call. -/
def TableExprGroupAggr.apply (f : TableExprGroupAggr) (_id : TableExprId) :
    Except Error Unit × TableExprGroupAggr :=
  (.error (.TableInvExpr "TableExprGroupAggr::apply should not be called"), f)

/-- A function object as a function set holds it, through a pointer to
`TableExprGroupFuncBase`: an object of one of the six concrete classes of
`ExprGroup.cc`, or an object of a class derived elsewhere, given by its base
members, its own members and its `apply` (the result of the call and the
members after it).  The objects of a set are distinct objects. -/
inductive TableExprGroupFunc (S : Type) where
  | null (f : TableExprGroupNull)
  | first (f : TableExprGroupFirst)
  | last (f : TableExprGroupLast)
  | exprId (f : TableExprGroupExprId)
  | rowid (f : TableExprGroupRowid)
  | aggr (f : TableExprGroupAggr)
  | other (base : TableExprGroupFuncBase) (members : S)
      (applyFn : S → TableExprId → Except Error Unit × S)

namespace TableExprGroupFunc

variable {S : Type}

/-- The base members of the object. -/
def toBase : TableExprGroupFunc S → TableExprGroupFuncBase
  | .null f => f.toTableExprGroupFuncBase
  | .first f => f.toTableExprGroupFuncBase
  | .last f => f.toTableExprGroupFuncBase
  | .exprId f => f.toTableExprGroupFuncBase
  | .rowid f => f.toTableExprGroupFuncBase
  | .aggr f => f.toTableExprGroupFuncBase
  | .other b _ _ => b

/-- Modelled from the spec: `seqnr()` of `ExprGroup.h` returns the sequence
number of the function, its position within its owning set. -/
def seqnr (f : TableExprGroupFunc S) : Nat := f.toBase.itsSeqnr

/-- Modelled from the spec: `setSeqnr (seqnr)` of `ExprGroup.h` assigns the
sequence number and nothing else. -/
def setSeqnr : TableExprGroupFunc S → Nat → TableExprGroupFunc S
  | .null f, n => .null { f with itsSeqnr := n }
  | .first f, n => .first { f with itsSeqnr := n }
  | .last f, n => .last { f with itsSeqnr := n }
  | .exprId f, n => .exprId { f with itsSeqnr := n }
  | .rowid f, n => .rowid { f with itsSeqnr := n }
  | .aggr f, n => .aggr { f with itsSeqnr := n }
  | .other b m a, n => .other { b with itsSeqnr := n } m a

/-- The virtual call `apply (id)`: the result of the call and the object after
it. -/
def apply : TableExprGroupFunc S → TableExprId → Except Error Unit × TableExprGroupFunc S
  | .null f, id => ((f.apply id).1, .null (f.apply id).2)
  | .first f, id => (.ok (), .first (f.apply id))
  | .last f, id => (.ok (), .last (f.apply id))
  | .exprId f, id => (.ok (), .exprId (f.apply id))
  | .rowid f, id => ((f.apply id).1, .rowid (f.apply id).2)
  | .aggr f, id => ((f.apply id).1, .aggr (f.apply id).2)
  | .other b m a, id => ((a m id).1, .other b (a m id).2 a)

end TableExprGroupFunc

/-- The element at index `i` of a vector is replaced by its image under `g`
(a call of a modifying member function through `v[i]`). -/
def modifyAt {α : Type} (g : α → α) : List α → Nat → List α
  | [], _ => []
  | x :: xs, 0 => g x :: xs
  | x :: xs, i + 1 => x :: modifyAt g xs i

/-- The class `TableExprGroupFuncSet`: the functions and the identifier of the
last row applied. -/
structure TableExprGroupFuncSet (S : Type) where
  itsFuncs : List (TableExprGroupFunc S) := []
  itsId : TableExprId := { rownr := 0, data := none }

namespace TableExprGroupFuncSet

variable {S N : Type}

/-- The loop of the constructor, at index `i`, over the nodes still to do:
the function the node makes is appended and `itsFuncs[i]` gets sequence number
`i`.  `makeGroupAggrFunc` (implemented by the node classes, outside the
sources) is a parameter; it may throw. -/
def newLoop (makeGroupAggrFunc : N → Except Error (TableExprGroupFunc S)) :
    List N → Nat → List (TableExprGroupFunc S) → Except Error (List (TableExprGroupFunc S))
  | [], _, itsFuncs => .ok itsFuncs
  | node :: nodes, i, itsFuncs =>
    match makeGroupAggrFunc node with
    | .ok f =>
      newLoop makeGroupAggrFunc nodes (i + 1)
        (modifyAt (fun x => x.setSeqnr i) (itsFuncs ++ [f]) i)
    | .error e => .error e

/-- The constructor `TableExprGroupFuncSet (aggrNodes)`; `itsId` is row 0. -/
def new (makeGroupAggrFunc : N → Except Error (TableExprGroupFunc S)) (aggrNodes : List N) :
    Except Error (TableExprGroupFuncSet S) :=
  match newLoop makeGroupAggrFunc aggrNodes 0 [] with
  | .ok funcs => .ok { itsFuncs := funcs, itsId := { rownr := 0, data := none } }
  | .error e => .error e

/-- `TableExprGroupFuncSet::add (func)`. -/
def add (s : TableExprGroupFuncSet S) (func : TableExprGroupFunc S) : TableExprGroupFuncSet S :=
  let seqnr := s.itsFuncs.length
  { s with itsFuncs := modifyAt (fun x => x.setSeqnr seqnr) (s.itsFuncs ++ [func]) seqnr }

/-- The loop of `apply` over the functions, front to back: the result of the
loop and the functions after it; it stops at the first call that throws. -/
def applyLoop (id : TableExprId) :
    List (TableExprGroupFunc S) → Except Error Unit × List (TableExprGroupFunc S)
  | [] => (.ok (), [])
  | f :: fs =>
    match (f.apply id).1 with
    | .ok _ => ((applyLoop id fs).1, (f.apply id).2 :: (applyLoop id fs).2)
    | .error e => (.error e, (f.apply id).2 :: fs)

/-- `TableExprGroupFuncSet::apply (id)`: the result of the call and the set
after it. -/
def apply (s : TableExprGroupFuncSet S) (id : TableExprId) :
    Except Error Unit × TableExprGroupFuncSet S :=
  ((applyLoop id s.itsFuncs).1, { itsFuncs := (applyLoop id s.itsFuncs).2, itsId := id })

/-- The function at position `i` has sequence number `i`, for every
position. -/
def wellNumbered (s : TableExprGroupFuncSet S) : Prop :=
  ∀ (i : Nat) (f : TableExprGroupFunc S), s.itsFuncs[i]? = some f → f.seqnr = i

/-- The sets reached by construction followed by any number of `add` and
`apply` calls. -/
inductive Reachable : TableExprGroupFuncSet S → Prop where
  | construct (N : Type) (makeGroupAggrFunc : N → Except Error (TableExprGroupFunc S))
      (aggrNodes : List N) (s : TableExprGroupFuncSet S)
      (h : TableExprGroupFuncSet.new makeGroupAggrFunc aggrNodes = .ok s) : Reachable s
  | add (s : TableExprGroupFuncSet S) (func : TableExprGroupFunc S) (h : Reachable s) :
      Reachable (s.add func)
  | apply (s : TableExprGroupFuncSet S) (id : TableExprId) (h : Reachable s) :
      Reachable (s.apply id).2

end TableExprGroupFuncSet

/-- The class `TableExprGroupResult`: the function set of every group and,
when given, the row identifiers of every group. -/
structure TableExprGroupResult (S : Type) where
  itsFuncSets : List (TableExprGroupFuncSet S) := []
  itsIds : List (List TableExprId) := []

namespace TableExprGroupResult

variable {S : Type}

/-- The constructor `TableExprGroupResult (funcSets)`. -/
def new (funcSets : List (TableExprGroupFuncSet S)) : TableExprGroupResult S :=
  { itsFuncSets := funcSets, itsIds := [] }

/-- The constructor `TableExprGroupResult (funcSets, ids)`. -/
def newWithIds (funcSets : List (TableExprGroupFuncSet S)) (ids : List (List TableExprId)) :
    Except Error (TableExprGroupResult S) :=
  if ids.length = funcSets.length ∨ ids.isEmpty = true then
    .ok { itsFuncSets := funcSets, itsIds := ids }
  else .error (.AipsError (assertMsg "ids.size() == funcSets.size() || ids.empty()"))

end TableExprGroupResult

/-! ## Typed getters of First, Last and the lazy functions -/

/-- The value of an expression node at a row identifier through one of its
typed getters. -/
def TableExprNode.get (n : TableExprNode) (g : Getter) (id : TableExprId) : Value :=
  match g with
  | .getBool => .bool (n.getBool id)
  | .getInt => .int (n.getInt id)
  | .getDouble => .double (n.getDouble id)
  | .getDComplex => .dcomplex (n.getDComplex id)
  | .getDate => .date (n.getDate id)
  | .getString => .string (n.getString id)
  | .getArrayBool => .arrayBool (n.getArrayBool id)
  | .getArrayInt => .arrayInt (n.getArrayInt id)
  | .getArrayDouble => .arrayDouble (n.getArrayDouble id)
  | .getArrayDComplex => .arrayDComplex (n.getArrayDComplex id)
  | .getArrayDate => .arrayDate (n.getArrayDate id)
  | .getArrayString => .arrayString (n.getArrayString id)

/-- The twelve typed getters of `TableExprGroupFirst`, one per case: each
returns `itsOperand->get... (itsId)` and ignores its argument.  There is no
result when `itsOperand` is a null pointer (the call through it is
undefined). -/
def TableExprGroupFirst.get (f : TableExprGroupFirst) (g : Getter) (_ids : List TableExprId) :
    Option Value :=
  match f.itsOperand with
  | none => none
  | some operand =>
    match g with
    | .getBool => some (.bool (operand.getBool f.itsId))
    | .getInt => some (.int (operand.getInt f.itsId))
    | .getDouble => some (.double (operand.getDouble f.itsId))
    | .getDComplex => some (.dcomplex (operand.getDComplex f.itsId))
    | .getDate => some (.date (operand.getDate f.itsId))
    | .getString => some (.string (operand.getString f.itsId))
    | .getArrayBool => some (.arrayBool (operand.getArrayBool f.itsId))
    | .getArrayInt => some (.arrayInt (operand.getArrayInt f.itsId))
    | .getArrayDouble => some (.arrayDouble (operand.getArrayDouble f.itsId))
    | .getArrayDComplex => some (.arrayDComplex (operand.getArrayDComplex f.itsId))
    | .getArrayDate => some (.arrayDate (operand.getArrayDate f.itsId))
    | .getArrayString => some (.arrayString (operand.getArrayString f.itsId))

/-- The typed getters of `TableExprGroupLast`: the class overrides none, they
are those of `TableExprGroupFirst`. -/
def TableExprGroupLast.get (f : TableExprGroupLast) (g : Getter) (ids : List TableExprId) :
    Option Value :=
  f.toTableExprGroupFirst.get g ids

/-- `TableExprGroupFuncBase::finish`: it does nothing.  No class of
`ExprGroup.cc` overrides it. -/
def TableExprGroupFuncBase.finish (b : TableExprGroupFuncBase) : TableExprGroupFuncBase := b

/-- `finish` called on a `TableExprGroupExprId`. -/
def TableExprGroupExprId.finish (f : TableExprGroupExprId) : TableExprGroupExprId :=
  { f with toTableExprGroupFuncBase := f.toTableExprGroupFuncBase.finish }

/-- `finish` called on a `TableExprGroupRowid`. -/
def TableExprGroupRowid.finish (f : TableExprGroupRowid) : TableExprGroupRowid :=
  { f with toTableExprGroupFuncBase := f.toTableExprGroupFuncBase.finish }

/-- `finish` called on a `TableExprGroupAggr`. -/
def TableExprGroupAggr.finish (f : TableExprGroupAggr) : TableExprGroupAggr :=
  { f with toTableExprGroupFuncBase := f.toTableExprGroupFuncBase.finish }

/-- The typed getters of `TableExprGroupExprId`: the class overrides none,
they are those of `TableExprGroupFuncBase`. -/
def TableExprGroupExprId.get (_f : TableExprGroupExprId) (g : Getter) (ids : List TableExprId) :
    Except Error Value :=
  TableExprGroupFuncBase.get g ids

/-- The typed getters of `TableExprGroupRowid`: the class overrides
`getArrayInt`, the others are those of `TableExprGroupFuncBase`. -/
def TableExprGroupRowid.get (f : TableExprGroupRowid) (g : Getter) (ids : List TableExprId) :
    Except Error Value :=
  match g with
  | .getArrayInt => .ok (.arrayInt (f.getArrayInt ids))
  | g => TableExprGroupFuncBase.get g ids

/-- Modelled from the spec: the member template `getArray<T>` of
`TableExprGroupAggr` is defined in `ExprGroup.h`, outside the sources: each
element of the array result is obtained by evaluating the bound operand once
per row identifier of the list.  There is no result when there is no
operand. -/
def TableExprGroupAggr.getArray {α : Type} (f : TableExprGroupAggr)
    (getValue : TableExprNode → TableExprId → α) (ids : List TableExprId) : Option (MArray α) :=
  match f.itsOperand with
  | none => none
  | some operand => some (MArray.ofVector (ids.map (getValue operand)))

/-- The typed getters of `TableExprGroupAggr`: the six array getters are
overridden and return `getArray<T> (ids)`, the scalar getters are those of
`TableExprGroupFuncBase`. -/
def TableExprGroupAggr.get (f : TableExprGroupAggr) (g : Getter) (ids : List TableExprId) :
    Option (Except Error Value) :=
  match g with
  | .getArrayBool => (f.getArray TableExprNode.getBool ids).map (fun a => .ok (.arrayBool a))
  | .getArrayInt => (f.getArray TableExprNode.getInt ids).map (fun a => .ok (.arrayInt a))
  | .getArrayDouble => (f.getArray TableExprNode.getDouble ids).map (fun a => .ok (.arrayDouble a))
  | .getArrayDComplex =>
    (f.getArray TableExprNode.getDComplex ids).map (fun a => .ok (.arrayDComplex a))
  | .getArrayDate => (f.getArray TableExprNode.getDate ids).map (fun a => .ok (.arrayDate a))
  | .getArrayString => (f.getArray TableExprNode.getString ids).map (fun a => .ok (.arrayString a))
  | g => some (TableExprGroupFuncBase.get g ids)

/-- The getter returns a scalar. -/
def Getter.isScalar (g : Getter) : Bool :=
  decide (g ∈ [Getter.getBool, .getInt, .getDouble, .getDComplex, .getDate, .getString])

/-- An int expression whose value is ten times the row number plus ten. -/
def exampleValueNode : TableExprNode :=
  { dataType := .NTInt, getInt := fun id => 10 * id.rownr + 10 }

/-- A key set of one date key, filled with the given double. -/
def exampleDateKeySet (d : Double) : TableExprGroupKeySet :=
  { itsKeys := [(TableExprGroupKey.new .NTDate).setDouble d] }

/-- The kinds of aggregate node used in the examples, and the function each
makes: FIRST and LAST of an operand, and the list of row identifiers. -/
inductive ExampleAggrNode where
  | first (operand : TableExprNode)
  | last (operand : TableExprNode)
  | exprId

/-- The function an example node makes; construction cannot fail for these
nodes. -/
def ExampleAggrNode.func : ExampleAggrNode → TableExprGroupFunc Unit
  | .first operand =>
    .first { itsNode := some (.aggrNode (some operand)), itsOperand := some operand }
  | .last operand =>
    .last { itsNode := some (.aggrNode (some operand)), itsOperand := some operand }
  | .exprId => .exprId { itsNode := some (.aggrNode none) }

/-- `makeGroupAggrFunc` of the example nodes. -/
def ExampleAggrNode.makeGroupAggrFunc (n : ExampleAggrNode) :
    Except Error (TableExprGroupFunc Unit) := .ok n.func

/-- The aggregates FIRST(value), LAST(value) and the row identifier list. -/
def exampleAggrNodes : List ExampleAggrNode :=
  [.first exampleValueNode, .last exampleValueNode, .exprId]

/-! ## Lazy or not -/

/-- `TableExprGroupFuncBase::isLazy`. -/
def TableExprGroupFuncBase.isLazy (_b : TableExprGroupFuncBase) : Bool := false

/-- `TableExprGroupNull::isLazy`. -/
def TableExprGroupNull.isLazy (_f : TableExprGroupNull) : Bool := true

/-- `isLazy` called on a `TableExprGroupFirst`: the class does not override
it. -/
def TableExprGroupFirst.isLazy (f : TableExprGroupFirst) : Bool :=
  f.toTableExprGroupFuncBase.isLazy

/-- `isLazy` called on a `TableExprGroupLast`: neither the class nor
`TableExprGroupFirst` overrides it. -/
def TableExprGroupLast.isLazy (f : TableExprGroupLast) : Bool :=
  f.toTableExprGroupFirst.isLazy

/-- `TableExprGroupExprId::isLazy`. -/
def TableExprGroupExprId.isLazy (_f : TableExprGroupExprId) : Bool := true

/-- `TableExprGroupRowid::isLazy`. -/
def TableExprGroupRowid.isLazy (_f : TableExprGroupRowid) : Bool := true

/-- `TableExprGroupAggr::isLazy`. -/
def TableExprGroupAggr.isLazy (_f : TableExprGroupAggr) : Bool := true

/-- The base members of an object of one of the classes that hold a value. -/
def ValueFunc.toBase : ValueFunc → TableExprGroupFuncBase
  | .funcBool f => f.toTableExprGroupFuncBase
  | .funcInt f => f.toTableExprGroupFuncBase
  | .funcDouble f => f.toTableExprGroupFuncBase
  | .funcDComplex f => f.toTableExprGroupFuncBase
  | .funcString f => f.toTableExprGroupFuncBase
  | .funcArrayBool f => f.toTableExprGroupFuncBase
  | .funcArrayInt f => f.toTableExprGroupFuncBase
  | .funcArrayDouble f => f.toTableExprGroupFuncBase
  | .funcArrayDComplex f => f.toTableExprGroupFuncBase
  | .funcArrayDate f => f.toTableExprGroupFuncBase
  | .funcArrayString f => f.toTableExprGroupFuncBase

/-- `isLazy` called on an object of one of the classes that hold a value:
none of them overrides it. -/
def ValueFunc.isLazy (f : ValueFunc) : Bool := f.toBase.isLazy

/-- A key set of one string key holding the given string. -/
def exampleStringKeySet (s : CString) : TableExprGroupKeySet :=
  { itsKeys := [(TableExprGroupKey.new .NTString).setString s] }

/-- The identifier of a record (not a row of a table): its row number is
negative. -/
def exampleRecordId (handle : Nat) : TableExprId := { rownr := -1, data := some handle }

/-! ## The streaming of rows into groups -/

/-- Modelled from the spec: the group map of the evaluator, which is outside
the sources: one bucket per discovered group, holding the key set of the
group and its function set, in the order of discovery. -/
structure GroupBucket (S : Type) where
  key : TableExprGroupKeySet
  funcSet : TableExprGroupFuncSet S

/-- Modelled from the spec: the lookup step of the evaluator, which is outside
the sources: the bucket whose key set is equal (`operator==`) to the key set
of the row is looked up and the row is applied to its function set; the
answer is `none` when no bucket has that key set.  An exception ends the
evaluation. -/
def applyToBucket {S : Type} (key : TableExprGroupKeySet) (id : TableExprId) :
    List (GroupBucket S) → Except Error (Option (List (GroupBucket S)))
  | [] => .ok none
  | g :: gs =>
    match g.key.opEq key with
    | .error e => .error e
    | .ok true =>
      match (g.funcSet.apply id).1 with
      | .ok _ => .ok (some ({ g with funcSet := (g.funcSet.apply id).2 } :: gs))
      | .error e => .error e
    | .ok false =>
      match applyToBucket key id gs with
      | .ok (some gs') => .ok (some (g :: gs'))
      | .ok none => .ok none
      | .error e => .error e

/-- Modelled from the spec: one step of the evaluator, which is outside the
sources: the key set of the row is computed with `fill`, the row is applied to
the function set of its group, and a row of a group not seen before gets a new
bucket, with a function set constructed from the aggregate nodes, behind the
existing ones. -/
def streamRow {S N : Type} (keyNodes : List TableExprNode)
    (makeGroupAggrFunc : N → Except Error (TableExprGroupFunc S)) (aggrNodes : List N)
    (groups : List (GroupBucket S)) (id : TableExprId) : Except Error (List (GroupBucket S)) :=
  match TableExprGroupKeySet.ofRow keyNodes id with
  | .error e => .error e
  | .ok key =>
    match applyToBucket key id groups with
    | .error e => .error e
    | .ok (some groups') => .ok groups'
    | .ok none =>
      match TableExprGroupFuncSet.new makeGroupAggrFunc aggrNodes with
      | .error e => .error e
      | .ok s =>
        match (s.apply id).1 with
        | .ok _ => .ok (groups ++ [{ key := key, funcSet := (s.apply id).2 }])
        | .error e => .error e

/-- Modelled from the spec: the evaluator, which is outside the sources,
streams the rows in the order given, starting without groups. -/
def streamRows {S N : Type} (keyNodes : List TableExprNode)
    (makeGroupAggrFunc : N → Except Error (TableExprGroupFunc S)) (aggrNodes : List N) :
    List TableExprId → List (GroupBucket S) → Except Error (List (GroupBucket S))
  | [], groups => .ok groups
  | id :: ids, groups =>
    match streamRow keyNodes makeGroupAggrFunc aggrNodes groups id with
    | .ok groups' => streamRows keyNodes makeGroupAggrFunc aggrNodes ids groups'
    | .error e => .error e

/-- What is read out of a function set holding a First, a Last and the list
of row identifiers, in that order: `getInt` of the First, `getInt` of the Last
and `getIds` of the list. -/
def readFirstLastIds {S : Type} (s : TableExprGroupFuncSet S) :
    Option (Value × Value × List TableExprId) :=
  match s.itsFuncs with
  | [.first f, .last l, .exprId e] =>
    match f.get Getter.getInt [], l.get Getter.getInt [] with
    | some v1, some v2 => some (v1, v2, e.getIds)
    | _, _ => none
  | _ => none

/-- The groups of an evaluation, each with the strings of its key set and
what is read out of its function set. -/
def readGroups {S : Type} (r : Except Error (List (GroupBucket S))) :
    Except Error (List (List CString × Option (Value × Value × List TableExprId))) :=
  match r with
  | .ok groups =>
    .ok (groups.map fun g =>
      (g.key.itsKeys.map TableExprGroupKey.itsString, readFirstLastIds g.funcSet))
  | .error e => .error e

/-- The GROUPBY expression of the scenario: the string "A" on the rows 0, 2
and 4 and the string "B" on the other rows. -/
def exampleGroupKeyNode : TableExprNode :=
  { dataType := .NTString
    getString := fun id => if id.rownr = 0 ∨ id.rownr = 2 ∨ id.rownr = 4 then [65] else [66] }

/-- The rows 0 to 4 of the scenario. -/
def exampleRows : List TableExprId :=
  [exampleRow 0, exampleRow 1, exampleRow 2, exampleRow 3, exampleRow 4]

/-- Aggregate nodes of the scenario with `TableExprGroupRowid` as the row
identifier aggregate. -/
inductive ExampleRowidAggrNode where
  | first (operand : TableExprNode)
  | last (operand : TableExprNode)
  | rowid

/-- `makeGroupAggrFunc` of these nodes. -/
def ExampleRowidAggrNode.makeGroupAggrFunc :
    ExampleRowidAggrNode → Except Error (TableExprGroupFunc Unit)
  | .first operand =>
    .ok (.first { itsNode := some (.aggrNode (some operand)), itsOperand := some operand })
  | .last operand =>
    .ok (.last { itsNode := some (.aggrNode (some operand)), itsOperand := some operand })
  | .rowid => .ok (.rowid { itsNode := some (.aggrNode none) })

/-- The aggregates FIRST(value), LAST(value) and a `TableExprGroupRowid`. -/
def exampleRowidAggrNodes : List ExampleRowidAggrNode :=
  [.first exampleValueNode, .last exampleValueNode, .rowid]

/-! ## Columns of a reference table (`tables/Tables/RefColumn.h`) -/

/-- Modelled from the spec: the class `RefTable` is outside the sources: the
view maps its logical row numbers 0..k-1 to the physical row numbers
p0..p(k-1) of the table it is derived from. -/
structure RefTable where
  rowMap : List Nat
  deriving DecidableEq, Repr

/-- Modelled from the spec: the translation of a logical row number by the
owning view; there is none for a row number out of range. -/
def RefTable.rootRownr (t : RefTable) (rownr : Nat) : Option Nat := t.rowMap[rownr]?

/-- Modelled from the spec: the referenced column (`BaseColumn`) is outside the
sources: what a `get` of a physical row yields. -/
structure BaseColumn (β : Type) where
  get : Nat → β

/-- The members of `RefColumn` used by `get`: the reference table and the
referenced column. -/
structure RefColumn (β : Type) where
  refTabPtr_p : RefTable
  colPtr_p : BaseColumn β

/-- Modelled from the spec: `RefColumn::get` is declared in `RefColumn.h` and
implemented outside the sources: the row number is translated through the row
mapping of the view and the call is forwarded to the referenced column; a
row number the mapping cannot translate fails before forwarding. -/
def RefColumn.get {β : Type} (c : RefColumn β) (rownr : Nat) : Except Error β :=
  match c.refTabPtr_p.rootRownr rownr with
  | some p => .ok (c.colPtr_p.get p)
  | none => .error (.AipsError "row number out of range")

/-- A column of a table of five rows whose value in row p is 100 + p. -/
def exampleColumn : BaseColumn Nat := { get := fun p => 100 + p }

/-- A view of the rows 4, 0 and 2, in that order. -/
def exampleRefColumn : RefColumn Nat :=
  { refTabPtr_p := { rowMap := [4, 0, 2] }, colPtr_p := exampleColumn }

/-! ## Masked arrays (`casa/Arrays/MaskedArray.tcc`) -/

/-- The exceptions of the array classes: `ArrayError` and
`ArrayConformanceError`, which is derived from it. -/
inductive ArrayException where
  | ArrayError (msg : String)
  | ArrayConformanceError (msg : String)
  deriving DecidableEq, Repr

/-- Modelled from the spec: the class `Array<T>` is declared in `Array.h`,
outside the sources: a shape and the elements in storage order. -/
structure CasaArray (α : Type) where
  shape : IPosition := []
  data : List α := []
  deriving DecidableEq, Repr

/-- Modelled from the spec: `Array<T>::nelements`, the number of elements of
the shape. -/
def CasaArray.nelements {α : Type} (a : CasaArray α) : Nat := a.shape.product

/-- Modelled from the spec: `Array<T>::ok`: the storage holds as many elements
as the shape says. -/
def CasaArray.ok {α : Type} (a : CasaArray α) : Bool := a.data.length == a.nelements

/-- The members of `MaskedArray<T>`: the array and the mask (null pointers in
an object that holds no data), the cached number of valid elements with its
flag, and the read-only flag. -/
structure MaskedArray (α : Type) where
  pArray : Option (CasaArray α) := none
  pMask : Option (CasaArray Bool) := none
  nelemValid : Nat := 0
  nelemValidIsOK : Bool := false
  isRO : Bool := false
  deriving DecidableEq, Repr

namespace MaskedArray

variable {α : Type}

/-- The default constructor `MaskedArray ()`: an object that holds no data. -/
def empty : MaskedArray α :=
  { pArray := none, pMask := none, nelemValid := 0, nelemValidIsOK := false, isRO := false }

/-- The constructor `MaskedArray (inarray, inmask, isreadonly)`.  The mask is a
new array of the shape of `inmask` to which `inmask` is assigned. -/
def new (inarray : CasaArray α) (inmask : CasaArray Bool) (isreadonly : Bool) :
    Except ArrayException (MaskedArray α) :=
  if inarray.shape ≠ inmask.shape then
    .error (.ArrayConformanceError
      ("MaskedArray<T, ArrayAlloc, MaskAlloc>::MaskedArray(const array_type &," ++
        " const LogicalArray &, bool)" ++ " - arrays do not conform"))
  else
    .ok { pArray := some inarray
          pMask := some { shape := inmask.shape, data := inmask.data }
          nelemValid := 0, nelemValidIsOK := false, isRO := isreadonly }

/-- The constructor `MaskedArray (inarray, inmask)`. -/
def newWritable (inarray : CasaArray α) (inmask : CasaArray Bool) :
    Except ArrayException (MaskedArray α) :=
  if inarray.shape ≠ inmask.shape then
    .error (.ArrayConformanceError
      ("MaskedArray<T, ArrayAlloc, MaskAlloc>::MaskedArray(const array_type &," ++
        " const LogicalArray &)" ++ " - arrays do not conform"))
  else
    .ok { pArray := some inarray
          pMask := some { shape := inmask.shape, data := inmask.data }
          nelemValid := 0, nelemValidIsOK := false, isRO := false }

/-- `setData (data, mask, isReadOnly)`: the object after the call; the mask is
a copy of `mask`. -/
def setData (_m : MaskedArray α) (data : CasaArray α) (mask : CasaArray Bool)
    (isReadOnly : Bool) : Except ArrayException (MaskedArray α) :=
  if data.shape ≠ mask.shape then
    .error (.ArrayConformanceError
      ("MaskedArray<T, ArrayAlloc, MaskAlloc>::setData(const array_type &," ++
        " const LogicalArray &, bool)" ++ " - arrays do not conform"))
  else
    .ok { pArray := some data
          pMask := some { shape := mask.shape, data := mask.data }
          nelemValid := 0, nelemValidIsOK := false, isRO := isReadOnly }

/-- The loop of `nelementsValid`: `ntotal` elements of the mask storage are
read and the true ones counted.  There is no result when the storage ends
before `ntotal` elements have been read. -/
def countLoop : Nat → List Bool → Nat → Option Nat
  | 0, _, nelemValidTmp => some nelemValidTmp
  | _ + 1, [], _ => none
  | ntotal + 1, b :: maskS, nelemValidTmp =>
    countLoop ntotal maskS (if b then nelemValidTmp + 1 else nelemValidTmp)

/-- `nelementsValid ()`: the number returned and the object after the call
(the function fills the cache).  There is no result when a null pointer is
dereferenced or the loop reads past the end of the mask. -/
def nelementsValid (m : MaskedArray α) : Option (Nat × MaskedArray α) :=
  if m.nelemValidIsOK then some (m.nelemValid, m)
  else
    match m.pMask, m.pArray with
    | some mask, some arr =>
      match countLoop arr.nelements mask.data 0 with
      | some n => some (n, { m with nelemValid := n, nelemValidIsOK := true })
      | none => none
    | _, _ => none

/-- The loop of `getCompressedArray`, on the mask storage and the array storage
still ahead: while `ntotal` is not zero the mask element is read and, when it
is true, the array element is read and written to the result.  The answer is
the elements written and the number of mask elements read; there is none when
the loop reads past the end of the mask or of the array. -/
def compressLoop : List Bool → List α → Nat → List α → Nat → Option (List α × Nat)
  | _, _, 0, written, scanned => some (written, scanned)
  | [], _, _ + 1, _, _ => none
  | true :: _, [], _ + 1, _, _ => none
  | true :: maskS, x :: arrS, ntotal + 1, written, scanned =>
    compressLoop maskS arrS ntotal (written ++ [x]) (scanned + 1)
  | false :: maskS, arrS, ntotal + 1, written, scanned =>
    compressLoop maskS arrS.tail (ntotal + 1) written (scanned + 1)

/-- `getCompressedArray ()`: the array returned, of shape
`IPosition (1, nelementsValid ())`, and the object after the call.  There is
no result when a null pointer is dereferenced or the loop reads past the end
of the storage. -/
def getCompressedArray (m : MaskedArray α) : Option (CasaArray α × MaskedArray α) :=
  match m.nelementsValid with
  | none => none
  | some (size, m1) =>
    match m1.pArray, m1.pMask with
    | some arr, some mask =>
      match m1.nelementsValid with
      | none => none
      | some (ntotal, m2) =>
        match compressLoop mask.data arr.data ntotal [] 0 with
        | some (written, _) => some ({ shape := [size], data := written }, m2)
        | none => none
    | _, _ => none

/-- The number of mask elements the loop of `getCompressedArray ()` reads. -/
def getCompressedArrayScanned (m : MaskedArray α) : Option Nat :=
  match m.nelementsValid with
  | none => none
  | some (_, m1) =>
    match m1.pArray, m1.pMask with
    | some arr, some mask =>
      match m1.nelementsValid with
      | none => none
      | some (ntotal, _) => (compressLoop mask.data arr.data ntotal [] 0).map Prod.snd
    | _, _ => none

/-- The elements of the storage whose mask element is true, in storage
order. -/
def validElements : List α → List Bool → List α
  | x :: xs, true :: bs => x :: validElements xs bs
  | _ :: xs, false :: bs => validElements xs bs
  | _, _ => []

/-- The number of true elements of a mask. -/
def countTrue (mask : List Bool) : Nat := mask.count true

/-- The object holds data, its array and its mask have as many elements as
the shape of the array says, and the cached number of valid elements, when
its flag is set, is the number of true elements of the mask. -/
def wellFormed (m : MaskedArray α) : Prop :=
  ∃ arr mask, m.pArray = some arr ∧ m.pMask = some mask ∧
    arr.data.length = arr.nelements ∧ mask.data.length = arr.nelements ∧
    (m.nelemValidIsOK = true → m.nelemValid = countTrue mask.data)

end MaskedArray

/-- A masked vector of the five elements 10, 20, 30, 40, 50 of which the
first, third and fourth are valid. -/
def exampleMaskedArray : MaskedArray Nat :=
  { pArray := some { shape := [5], data := [10, 20, 30, 40, 50] }
    pMask := some { shape := [5], data := [true, false, true, true, false] } }


/-! ## LECanonicalConversion (casa/OS/LECanonicalConversion.h)

Memory is a list of bytes.  An unsigned integer of `n` bytes is a natural number below
`2 ^ (8 * n)`; `memcpy` between such an integer and memory depends on the byte order of the host,
which is the parameter `hostBigEndian`.  The preprocessor symbol `AIPS_LITTLE_ENDIAN` is the
parameter `aipsLittleEndian`, and the GCC version test that selects `__builtin_bswap32/64` is the
parameter `gnuBuiltin`.  A read of more bytes than the source holds is `none`. -/

namespace LECanonicalConversion

def SIZE_LECAN_CHAR : Nat := 1
def SIZE_LECAN_UCHAR : Nat := 1
def SIZE_LECAN_SHORT : Nat := 2
def SIZE_LECAN_USHORT : Nat := 2
def SIZE_LECAN_INT : Nat := 4
def SIZE_LECAN_UINT : Nat := 4
def SIZE_LECAN_INT64 : Nat := 8
def SIZE_LECAN_UINT64 : Nat := 8
def SIZE_LECAN_FLOAT : Nat := 4
def SIZE_LECAN_DOUBLE : Nat := 8

/-- Value of the unsigned integer whose bytes, least significant first, are `bytes`. -/
def leValue : List (Fin 256) → Nat
  | [] => 0
  | b :: bs => b.val + 256 * leValue bs

/-- The `n` bytes of the unsigned integer `x`, least significant first. -/
def leBytes : Nat → Nat → List (Fin 256)
  | 0, _ => []
  | n + 1, x => ⟨x % 256, Nat.mod_lt x (by decide)⟩ :: leBytes n (x / 256)

/-- The unsigned integer read by `memcpy (&x, from, n)` when `bytes` are the `n` bytes at
`from`. -/
def load (hostBigEndian : Bool) (bytes : List (Fin 256)) : Nat :=
  if hostBigEndian then leValue bytes.reverse else leValue bytes

/-- The `n` bytes written by `memcpy (to, &x, n)`. -/
def store (hostBigEndian : Bool) (n x : Nat) : List (Fin 256) :=
  if hostBigEndian then (leBytes n x).reverse else leBytes n x

/-- The compiler builtin `__builtin_bswap32`, which is not part of the sources: it returns its
argument with the order of the 4 bytes reversed. -/
def bswap32 (x : Nat) : Nat := leValue (leBytes 4 x).reverse

/-- The compiler builtin `__builtin_bswap64`, which is not part of the sources: it returns its
argument with the order of the 8 bytes reversed. -/
def bswap64 (x : Nat) : Nat := leValue (leBytes 8 x).reverse

/-- The expression `((x & 0xffu) << 8u) | (x >> 8u)` assigned to an `unsigned short`. -/
def swapExpr2 (x : Nat) : Nat := (((x &&& 0xff) <<< 8) ||| (x >>> 8)) % 65536

/-- The shift-and-mask expression of `reverse4`, of type `unsigned int`.  Every left shift acts
on one masked byte, so that only the result is reduced modulo `2 ^ 32`. -/
def swapExpr4 (x : Nat) : Nat :=
  (((x &&& 0xff) <<< 24) ||| ((x &&& 0xff00) <<< 8) |||
    ((x &&& 0xff0000) >>> 8) ||| (x >>> 24)) % 4294967296

/-- The shift-and-mask expression of `reverse8`, of type `uInt64`. -/
def swapExpr8 (x : Nat) : Nat :=
  (((x &&& 0xff) <<< 56) |||
   ((x &&& 0xff00) <<< 40) |||
   ((x &&& 0xff0000) <<< 24) |||
   ((x &&& 0xff000000) <<< 8) |||
   ((x &&& 0xff00000000) >>> 8) |||
   ((x &&& 0xff0000000000) >>> 24) |||
   ((x &&& 0xff000000000000) >>> 40) |||
   (x >>> 56)) % 18446744073709551616

/-- `reverse2 (to, from)`: the two bytes written at `to`. -/
def reverse2 (hostBigEndian : Bool) (src : List (Fin 256)) : Option (List (Fin 256)) :=
  if src.length < 2 then none
  else
    let x := load hostBigEndian (src.take 2)
    let xsw := swapExpr2 x
    some (store hostBigEndian 2 xsw)

/-- `reverse4 (to, from)`: the four bytes written at `to`. -/
def reverse4 (hostBigEndian gnuBuiltin : Bool) (src : List (Fin 256)) :
    Option (List (Fin 256)) :=
  if src.length < 4 then none
  else
    let x := load hostBigEndian (src.take 4)
    let xsw := if gnuBuiltin then bswap32 x else swapExpr4 x
    some (store hostBigEndian 4 xsw)

/-- `reverse8 (to, from)`: the eight bytes written at `to`. -/
def reverse8 (hostBigEndian gnuBuiltin : Bool) (src : List (Fin 256)) :
    Option (List (Fin 256)) :=
  if src.length < 8 then none
  else
    let x := load hostBigEndian (src.take 8)
    let xsw := if gnuBuiltin then bswap64 x else swapExpr8 x
    some (store hostBigEndian 8 xsw)

/-- `move2 (to, from)`: `memcpy (to, from, 2)`. -/
def move2 (src : List (Fin 256)) : Option (List (Fin 256)) :=
  if src.length < 2 then none else some (src.take 2)

/-- `move4 (to, from)`: `memcpy (to, from, 4)`. -/
def move4 (src : List (Fin 256)) : Option (List (Fin 256)) :=
  if src.length < 4 then none else some (src.take 4)

/-- `move8 (to, from)`: `memmove` or `memcpy` of 8 bytes; source and target do not overlap
here, so that both copy the bytes. -/
def move8 (src : List (Fin 256)) : Option (List (Fin 256)) :=
  if src.length < 8 then none else some (src.take 8)

def exampleBytes2 : List (Fin 256) := [0x12, 0x34]

def exampleBytes4 : List (Fin 256) := [0x12, 0x34, 0x56, 0x78]

def exampleBytes8 : List (Fin 256) := [0x01, 0x23, 0x45, 0x67, 0x89, 0xab, 0xcd, 0xef]

end LECanonicalConversion


/-! ### Single-value conversions

The overloads of `toLocal`, `fromLocal` and `canonicalSize` are told apart by the tag
`LocalType`.  The host has the usual sizes (`short` 2 bytes, `int` and `float` 4, `Int64` and
`double` 8), so that the `sizeof (T) != n` branches are not taken and the offsets
`sizeof (T) - n` are 0.  A value of an integer type is an `Int`; a `float` or `double` is carried
as its bit pattern, which is all the byte copy acts on. -/

namespace LECanonicalConversion

inductive LocalType where
  | char
  | uChar
  | short
  | uShort
  | int
  | uInt
  | int64
  | uInt64
  | float
  | double
  deriving DecidableEq, Repr

namespace LocalType

/-- The host's `sizeof`. -/
def sizeof : LocalType → Nat
  | char => 1
  | uChar => 1
  | short => 2
  | uShort => 2
  | int => 4
  | uInt => 4
  | int64 => 8
  | uInt64 => 8
  | float => 4
  | double => 8

/-- Whether the object representation is read as a two's complement number. -/
def isSigned : LocalType → Bool
  | char => true
  | short => true
  | int => true
  | int64 => true
  | _ => false

/-- The value of the object whose bytes in memory are `obj`. -/
def valueOf (t : LocalType) (hostBigEndian : Bool) (obj : List (Fin 256)) : Int :=
  let u := load hostBigEndian obj
  if t.isSigned && decide (2 ^ (8 * t.sizeof - 1) ≤ u) then (u : Int) - 2 ^ (8 * t.sizeof)
  else (u : Int)

/-- The bytes in memory of the object holding `value`. -/
def objectOf (t : LocalType) (hostBigEndian : Bool) (value : Int) : List (Fin 256) :=
  store hostBigEndian t.sizeof (value % 2 ^ (8 * t.sizeof)).toNat

end LocalType

/-- `LECanonicalConversion::toLocal (T& to, const void* from)`: the returned size and the value
left in `to`. -/
def toLocal (aipsLittleEndian hostBigEndian gnuBuiltin : Bool) (t : LocalType)
    (src : List (Fin 256)) : Option (Nat × Int) :=
  match t with
  | .char =>
    src.head?.map fun b => (SIZE_LECAN_CHAR, LocalType.char.valueOf hostBigEndian [b])
  | .uChar =>
    src.head?.map fun b => (SIZE_LECAN_UCHAR, LocalType.uChar.valueOf hostBigEndian [b])
  | .short =>
    (if !aipsLittleEndian then reverse2 hostBigEndian src else move2 src).map fun obj =>
      (SIZE_LECAN_SHORT, LocalType.short.valueOf hostBigEndian obj)
  | .uShort =>
    (if !aipsLittleEndian then reverse2 hostBigEndian src else move2 src).map fun obj =>
      (SIZE_LECAN_USHORT, LocalType.uShort.valueOf hostBigEndian obj)
  | .int =>
    (if !aipsLittleEndian then reverse4 hostBigEndian gnuBuiltin src else move4 src).map
      fun obj => (SIZE_LECAN_INT, LocalType.int.valueOf hostBigEndian obj)
  | .uInt =>
    (if !aipsLittleEndian then reverse4 hostBigEndian gnuBuiltin src else move4 src).map
      fun obj => (SIZE_LECAN_UINT, LocalType.uInt.valueOf hostBigEndian obj)
  | .int64 =>
    (if !aipsLittleEndian then reverse8 hostBigEndian gnuBuiltin src else move8 src).map
      fun obj => (SIZE_LECAN_INT64, LocalType.int64.valueOf hostBigEndian obj)
  | .uInt64 =>
    (if !aipsLittleEndian then reverse8 hostBigEndian gnuBuiltin src else move8 src).map
      fun obj => (SIZE_LECAN_UINT64, LocalType.uInt64.valueOf hostBigEndian obj)
  | .float =>
    (if !aipsLittleEndian then reverse4 hostBigEndian gnuBuiltin src else move4 src).map
      fun obj => (SIZE_LECAN_FLOAT, LocalType.float.valueOf hostBigEndian obj)
  | .double =>
    (if !aipsLittleEndian then reverse8 hostBigEndian gnuBuiltin src else move8 src).map
      fun obj => (SIZE_LECAN_DOUBLE, LocalType.double.valueOf hostBigEndian obj)

/-- `LECanonicalConversion::fromLocal (void* to, const T& from)`: the returned size and the
bytes written at `to`. -/
def fromLocal (aipsLittleEndian hostBigEndian gnuBuiltin : Bool) (t : LocalType)
    (value : Int) : Option (Nat × List (Fin 256)) :=
  match t with
  | .char => some (SIZE_LECAN_CHAR, LocalType.char.objectOf hostBigEndian value)
  | .uChar => some (SIZE_LECAN_UCHAR, LocalType.uChar.objectOf hostBigEndian value)
  | .short =>
    (if !aipsLittleEndian then reverse2 hostBigEndian (LocalType.short.objectOf hostBigEndian value)
      else move2 (LocalType.short.objectOf hostBigEndian value)).map
      fun out => (SIZE_LECAN_SHORT, out)
  | .uShort =>
    (if !aipsLittleEndian then
        reverse2 hostBigEndian (LocalType.uShort.objectOf hostBigEndian value)
      else move2 (LocalType.uShort.objectOf hostBigEndian value)).map
      fun out => (SIZE_LECAN_USHORT, out)
  | .int =>
    (if !aipsLittleEndian then
        reverse4 hostBigEndian gnuBuiltin (LocalType.int.objectOf hostBigEndian value)
      else move4 (LocalType.int.objectOf hostBigEndian value)).map
      fun out => (SIZE_LECAN_INT, out)
  | .uInt =>
    (if !aipsLittleEndian then
        reverse4 hostBigEndian gnuBuiltin (LocalType.uInt.objectOf hostBigEndian value)
      else move4 (LocalType.uInt.objectOf hostBigEndian value)).map
      fun out => (SIZE_LECAN_UINT, out)
  | .int64 =>
    (if !aipsLittleEndian then
        reverse8 hostBigEndian gnuBuiltin (LocalType.int64.objectOf hostBigEndian value)
      else move8 (LocalType.int64.objectOf hostBigEndian value)).map
      fun out => (SIZE_LECAN_INT64, out)
  | .uInt64 =>
    (if !aipsLittleEndian then
        reverse8 hostBigEndian gnuBuiltin (LocalType.uInt64.objectOf hostBigEndian value)
      else move8 (LocalType.uInt64.objectOf hostBigEndian value)).map
      fun out => (SIZE_LECAN_UINT64, out)
  | .float =>
    (if !aipsLittleEndian then
        reverse4 hostBigEndian gnuBuiltin (LocalType.float.objectOf hostBigEndian value)
      else move4 (LocalType.float.objectOf hostBigEndian value)).map
      fun out => (SIZE_LECAN_FLOAT, out)
  | .double =>
    (if !aipsLittleEndian then
        reverse8 hostBigEndian gnuBuiltin (LocalType.double.objectOf hostBigEndian value)
      else move8 (LocalType.double.objectOf hostBigEndian value)).map
      fun out => (SIZE_LECAN_FLOAT, out)

/-- `LECanonicalConversion::canonicalSize (const T*)`. -/
def canonicalSize : LocalType → Nat
  | .char => SIZE_LECAN_CHAR
  | .uChar => SIZE_LECAN_UCHAR
  | .short => SIZE_LECAN_SHORT
  | .uShort => SIZE_LECAN_USHORT
  | .int => SIZE_LECAN_INT
  | .uInt => SIZE_LECAN_UINT
  | .int64 => SIZE_LECAN_INT64
  | .uInt64 => SIZE_LECAN_UINT64
  | .float => SIZE_LECAN_FLOAT
  | .double => SIZE_LECAN_DOUBLE

/-- The bit pattern of the `double` 1.0. -/
def exampleDoubleBits : Int := 0x3ff0000000000000

end LECanonicalConversion


/-! ## MSAntennaParse (ms/MeasurementSets/MSAntennaParse.cc)

The baseline list is a `Matrix<Int>` with two columns, here the list of its rows. -/

namespace MSAntennaParse

/-- The enumeration `MSAntennaParse::BaselineListType`; its declaration is in the header, the
enumerators are those the source file uses. -/
inductive BaselineListType where
  | AutoCorrOnly
  | AutoCorrAlso
  | CrossOnly
  deriving DecidableEq, Repr

/-- The loop of `addBaseline`: `False` as soon as a row holds the pair in either order. -/
def addBaselineLoop (ant1 ant2 : Int) : List (Int × Int) → Bool
  | [] => true
  | row :: rest =>
    if (row.1 == ant1 && row.2 == ant2) || (row.2 == ant1 && row.1 == ant2) then false
    else addBaselineLoop ant1 ant2 rest

/-- `MSAntennaParse::addBaseline`. -/
def addBaseline (baselist : List (Int × Int)) (ant1 ant2 : Int)
    (autoCorr : BaselineListType) : Bool :=
  let doAutoCorr :=
    autoCorr == BaselineListType.AutoCorrAlso || autoCorr == BaselineListType.AutoCorrOnly
  if ant1 == ant2 && !doAutoCorr then false
  else if autoCorr == BaselineListType.AutoCorrOnly && ant1 != ant2 then false
  else addBaselineLoop ant1 ant2 baselist

/-- The inner loop of `makeBaselineList`, over the elements of `a2` still to visit. -/
def makeBaselineListInner (ant1 : Int) (autoCorr : BaselineListType) :
    List Int → List (Int × Int) → List (Int × Int)
  | [], baselist => baselist
  | ant2 :: rest, baselist =>
    if addBaseline baselist ant1 ant2 autoCorr then
      makeBaselineListInner ant1 autoCorr rest (baselist ++ [(ant1, ant2)])
    else makeBaselineListInner ant1 autoCorr rest baselist

/-- The outer loop of `makeBaselineList`, over the elements of `a1` still to visit. -/
def makeBaselineListOuter (a2 : List Int) (autoCorr : BaselineListType) :
    List Int → List (Int × Int) → List (Int × Int)
  | [], baselist => baselist
  | ant1 :: rest, baselist =>
    makeBaselineListOuter a2 autoCorr rest (makeBaselineListInner ant1 autoCorr a2 baselist)

/-- `MSAntennaParse::makeBaselineList`: the baseline list it leaves in `baselist`.  The last
parameter is not used by the source. -/
def makeBaselineList (a1 a2 : List Int) (baselist : List (Int × Int))
    (autoCorr : BaselineListType) (_negate : Bool) : List (Int × Int) :=
  makeBaselineListOuter a2 autoCorr a1 baselist

/-- Whether two rows are the same unordered antenna pair. -/
def samePair (p q : Int × Int) : Bool :=
  (p.1 == q.1 && p.2 == q.2) || (p.2 == q.1 && p.1 == q.2)

/-- No two rows of the list are the same unordered antenna pair. -/
def uniqueBaselines (baselist : List (Int × Int)) : Prop :=
  baselist.Pairwise fun p q => samePair p q = false

instance (baselist : List (Int × Int)) : Decidable (uniqueBaselines baselist) := by
  unfold uniqueBaselines
  infer_instance

/-- Every row of `added`, in order, is a pair of an element of `a1` and an element of `a2` that
`addBaseline` admits to the list made of `baselist` and the rows before it. -/
def admittedRows (a1 a2 : List Int) (autoCorr : BaselineListType) :
    List (Int × Int) → List (Int × Int) → Prop
  | _, [] => True
  | baselist, p :: rest =>
    p.1 ∈ a1 ∧ p.2 ∈ a2 ∧ addBaseline baselist p.1 p.2 autoCorr = true ∧
      admittedRows a1 a2 autoCorr (baselist ++ [p]) rest

def exampleBaselist : List (Int × Int) := [(0, 1), (2, 0)]

end MSAntennaParse


namespace LECanonicalConversion

/-- The values of the type: two's complement range for a signed type, bit patterns of the size
of the type otherwise. -/
def LocalType.inRange (t : LocalType) (v : Int) : Prop :=
  if t.isSigned then -(2 ^ (8 * t.sizeof - 1) : Int) ≤ v ∧ v < 2 ^ (8 * t.sizeof - 1)
  else 0 ≤ v ∧ v < 2 ^ (8 * t.sizeof)

instance (t : LocalType) (v : Int) : Decidable (t.inRange v) := by
  unfold LocalType.inRange
  infer_instance

/-- The integer types of more than one byte. -/
def LocalType.isMultiByteInteger : LocalType → Bool
  | .short => true
  | .uShort => true
  | .int => true
  | .uInt => true
  | .int64 => true
  | .uInt64 => true
  | _ => false

end LECanonicalConversion


/-! ## QuantumHolder (casa/Quanta/QuantumHolder.cc) -/

/-- Modelled from the spec: the enumeration `DataType` is declared outside the sources: the
enumerators `fromRecord` names, and `TpOther` with a number for each of the others. -/
inductive DataType where
  | TpDouble
  | TpFloat
  | TpInt
  | TpComplex
  | TpDComplex
  | TpArrayDouble
  | TpArrayFloat
  | TpArrayInt
  | TpArrayComplex
  | TpArrayDComplex
  | TpString
  | TpOther (code : Nat)
  deriving DecidableEq, Repr

/-- Modelled from the spec: the value of a field of a record (`RecordInterface` is declared
outside the sources).  A `Float` is carried as its bit pattern, a `Complex` as the bit patterns of
its two parts; a field of a type `fromRecord` does not name carries the number of its type. -/
inductive FieldValue where
  | double (vl : Double)
  | float (vl : Nat)
  | int (vl : Int)
  | complex (vl : Nat × Nat)
  | dcomplex (vl : DComplex)
  | arrayDouble (vl : CasaArray Double)
  | arrayFloat (vl : CasaArray Nat)
  | arrayInt (vl : CasaArray Int)
  | arrayComplex (vl : CasaArray (Nat × Nat))
  | arrayDComplex (vl : CasaArray DComplex)
  | string (vl : String)
  | other (code : Nat)
  deriving DecidableEq, Repr

/-- The data type of a field value. -/
def FieldValue.type : FieldValue → DataType
  | .double _ => .TpDouble
  | .float _ => .TpFloat
  | .int _ => .TpInt
  | .complex _ => .TpComplex
  | .dcomplex _ => .TpDComplex
  | .arrayDouble _ => .TpArrayDouble
  | .arrayFloat _ => .TpArrayFloat
  | .arrayInt _ => .TpArrayInt
  | .arrayComplex _ => .TpArrayComplex
  | .arrayDComplex _ => .TpArrayDComplex
  | .string _ => .TpString
  | .other code => .TpOther code

/-- Modelled from the spec: a record is the list of its named fields, in field number order. -/
abbrev RecordInterface := List (String × FieldValue)

namespace RecordInterface

/-- Modelled from the spec: `isDefined (name)`. -/
def isDefined (r : RecordInterface) (name : String) : Bool := r.any fun f => f.1 == name

/-- Modelled from the spec: `idToNumber (RecordFieldId (name))`, the number of the field of that
name; there is none for a name that is not defined. -/
def idToNumber (r : RecordInterface) (name : String) : Option Nat :=
  let i := r.findIdx fun f => f.1 == name
  if i < r.length then some i else none

/-- Modelled from the spec: `type (whichField)`. -/
def type (r : RecordInterface) (whichField : Option Nat) : Option DataType :=
  match whichField with
  | some i => r[i]?.map fun f => f.2.type
  | none => none

/-- Modelled from the spec: `get (RecordFieldId (name), value)`, the value of the field of that
name. -/
def get (r : RecordInterface) (name : String) : Option FieldValue :=
  (r.find? fun f => f.1 == name).map Prod.snd

end RecordInterface

/-- The class `QuantumHolder`: the pointer `hold_p` to the held quantum, null in an empty
holder.  The quantum classes are outside the sources; `Q` stands for a constructed quantum. -/
structure QuantumHolder (Q : Type) where
  hold_p : Option Q := none

namespace QuantumHolder

variable {Q : Type}

/-- `hold_p.reset (new Quantum<T> (vl, un)); return True;`.  The constructor of the quantum is
outside the sources and is the parameter `newQuantum`; when it throws, the statement is left
before `reset` and the exception leaves `fromRecord`. -/
def resetTo (h : QuantumHolder Q) (error : String) (made : Except Error Q) :
    Except Error Bool × String × QuantumHolder Q :=
  match made with
  | .ok q => (.ok true, error, { h with hold_p := some q })
  | .error e => (.error e, error, h)

/-- `QuantumHolder::fromRecord (error, in)`: the result, the error string and the holder after
the call. -/
def fromRecord (newQuantum : FieldValue → String → Except Error Q) (h : QuantumHolder Q)
    (error : String) (rec : RecordInterface) : Except Error Bool × String × QuantumHolder Q :=
  let illegal : Except Error Bool × String × QuantumHolder Q :=
    (.ok false, error ++ "Illegal Quantum record in QuantumHolder::fromRecord\n", h)
  if rec.isDefined "value" && rec.isDefined "unit" &&
      rec.type (rec.idToNumber "unit") == some DataType.TpString then
    match rec.get "unit" with
    | some (.string un) =>
      match rec.get "value" with
      | some (.double vl) => h.resetTo error (newQuantum (.double vl) un)
      | some (.float vl) => h.resetTo error (newQuantum (.float vl) un)
      | some (.int vl) => h.resetTo error (newQuantum (.int vl) un)
      | some (.complex vl) => h.resetTo error (newQuantum (.complex vl) un)
      | some (.dcomplex vl) => h.resetTo error (newQuantum (.dcomplex vl) un)
      | some (.arrayDouble vl) => h.resetTo error (newQuantum (.arrayDouble vl) un)
      | some (.arrayFloat vl) => h.resetTo error (newQuantum (.arrayFloat vl) un)
      | some (.arrayInt vl) => h.resetTo error (newQuantum (.arrayInt vl) un)
      | some (.arrayComplex vl) => h.resetTo error (newQuantum (.arrayComplex vl) un)
      | some (.arrayDComplex vl) => h.resetTo error (newQuantum (.arrayDComplex vl) un)
      | _ => illegal
    | _ => illegal
  else illegal

/-- The value type is one of the ten `fromRecord` accepts. -/
def supportedValueType : DataType → Bool
  | .TpString => false
  | .TpOther _ => false
  | _ => true

/-- The record defines a field `value` and a field `unit`, the field `unit` is a string and the
field `value` has one of the ten supported types. -/
def legalRecord (rec : RecordInterface) : Bool :=
  match rec.get "value", rec.get "unit" with
  | some v, some (.string _) => supportedValueType v.type
  | _, _ => false

end QuantumHolder

/-- A constructor of quanta that stores the value and the unit. -/
def exampleNewQuantum (vl : FieldValue) (un : String) : Except Error (FieldValue × String) :=
  .ok (vl, un)

/-- The record with the value 3 of type Int and the unit "m". -/
def exampleQuantumRecord : RecordInterface :=
  [("value", .int 3), ("unit", .string "m")]


/-! ### Further constructors, assignment and write access of `MaskedArray`

Arrays passed to a function are values: storage shared between an argument and the object is
not modelled.  As before, `none` stands for the dereference of a null pointer or an access past
the end of a storage; a function that can throw returns the exception or the result together
with the object after the call. -/

/-- Modelled from the spec: `Array<T>::conform`, declared outside the sources: the shapes are
equal. -/
def CasaArray.conform {α : Type} (a b : CasaArray α) : Bool := decide (a.shape = b.shape)

/-- Modelled from the spec: the element-wise `&&` of two logical arrays, declared outside the
sources: it throws `ArrayConformanceError` for arrays of different shapes. -/
def CasaArray.logicalAnd (l r : CasaArray Bool) : Except ArrayException (CasaArray Bool) :=
  if l.shape ≠ r.shape then .error (.ArrayConformanceError "&& - arrays do not conform")
  else .ok { shape := l.shape, data := List.zipWith (fun a b => a && b) l.data r.data }

namespace MaskedArray

variable {α : Type}

/-- Modelled from the spec: `shape ()`, declared in the header: the shape of the array. -/
def shape (m : MaskedArray α) : Option IPosition := m.pArray.map fun a => a.shape

/-- `getArray ()`. -/
def getArray (m : MaskedArray α) : Option (CasaArray α) := m.pArray

/-- `getMask ()`. -/
def getMask (m : MaskedArray α) : Option (CasaArray Bool) := m.pMask

/-- The body shared by the constructors `MaskedArray (inarray, inmask, isreadonly)` and
`MaskedArray (inarray, inmask)` from a `MaskedArray` and a `LogicalArray`, which differ in the
read-only flag `ro` and in the text of the message. -/
def newFromMaskedBody (inarray : MaskedArray α) (inmask : CasaArray Bool) (ro : Bool)
    (msg : String) : Option (Except ArrayException (MaskedArray α)) :=
  match inarray.shape with
  | none => none
  | some s =>
    if s ≠ inmask.shape then some (.error (.ArrayConformanceError msg))
    else
      match inarray.getArray, inarray.getMask with
      | some arr, some mask =>
        match inmask.logicalAnd mask with
        | .error e => some (.error e)
        | .ok anded =>
          some (.ok { pArray := some arr
                      pMask := some { shape := inmask.shape, data := anded.data }
                      nelemValid := 0, nelemValidIsOK := false, isRO := ro })
      | _, _ => none

/-- The constructor `MaskedArray (const MaskedArray&, const LogicalArray&, bool)`. -/
def newFromMasked (inarray : MaskedArray α) (inmask : CasaArray Bool) (isreadonly : Bool) :
    Option (Except ArrayException (MaskedArray α)) :=
  newFromMaskedBody inarray inmask (inarray.isRO || isreadonly)
    ("MaskedArray<T, ArrayAlloc, MaskAlloc>::MaskedArray (const MaskedArray<T, ArrayAlloc, " ++
      "MaskAlloc> &," ++ " const LogicalArray &, bool)" ++ " - arrays do not conform")

/-- The constructor `MaskedArray (const MaskedArray&, const LogicalArray&)`. -/
def newFromMaskedKeepRO (inarray : MaskedArray α) (inmask : CasaArray Bool) :
    Option (Except ArrayException (MaskedArray α)) :=
  newFromMaskedBody inarray inmask inarray.isRO
    ("MaskedArray<T, ArrayAlloc, MaskAlloc>::MaskedArray (const MaskedArray<T, ArrayAlloc, " ++
      "MaskAlloc> &," ++ " const LogicalArray &)" ++ " - arrays do not conform")

/-- The body shared by the constructors from an array and a `MaskedLogicalArray`. -/
def newWithMaskedMaskBody (inarray : CasaArray α) (inmask : MaskedArray Bool) (ro : Bool)
    (msg : String) : Option (Except ArrayException (MaskedArray α)) :=
  match inmask.shape with
  | none => none
  | some s =>
    if inarray.shape ≠ s then some (.error (.ArrayConformanceError msg))
    else
      match inmask.getArray, inmask.getMask with
      | some marr, some mmask =>
        match marr.logicalAnd mmask with
        | .error e => some (.error e)
        | .ok anded =>
          some (.ok { pArray := some inarray
                      pMask := some { shape := inarray.shape, data := anded.data }
                      nelemValid := 0, nelemValidIsOK := false, isRO := ro })
      | _, _ => none

/-- The constructor `MaskedArray (const array_type&, const MaskedLogicalArray&, bool)`. -/
def newWithMaskedMask (inarray : CasaArray α) (inmask : MaskedArray Bool) (isreadonly : Bool) :
    Option (Except ArrayException (MaskedArray α)) :=
  newWithMaskedMaskBody inarray inmask isreadonly
    ("MaskedArray<T, ArrayAlloc, MaskAlloc>::MaskedArray(const array_type &inarray," ++
      " const MaskedLogicalArray &inmask, bool isreadonly)" ++ " - arrays do not conform")

/-- The constructor `MaskedArray (const array_type&, const MaskedLogicalArray&)`. -/
def newWithMaskedMaskWritable (inarray : CasaArray α) (inmask : MaskedArray Bool) :
    Option (Except ArrayException (MaskedArray α)) :=
  newWithMaskedMaskBody inarray inmask false
    ("MaskedArray<T, ArrayAlloc, MaskAlloc>::MaskedArray(const array_type &inarray," ++
      " const MaskedLogicalArray &inmask)" ++ " - arrays do not conform")

/-- The body shared by the constructors from a `MaskedArray` and a `MaskedLogicalArray`. -/
def newFromMaskedWithMaskedMaskBody (inarray : MaskedArray α) (inmask : MaskedArray Bool)
    (ro : Bool) (msg : String) : Option (Except ArrayException (MaskedArray α)) :=
  match inarray.shape, inmask.shape with
  | some s, some t =>
    if s ≠ t then some (.error (.ArrayConformanceError msg))
    else
      match inarray.getArray, inmask.getArray, inmask.getMask, inarray.getMask with
      | some arr, some marr, some mmask, some mask =>
        match marr.logicalAnd mmask with
        | .error e => some (.error e)
        | .ok anded1 =>
          match anded1.logicalAnd mask with
          | .error e => some (.error e)
          | .ok anded =>
            some (.ok { pArray := some arr
                        pMask := some { shape := s, data := anded.data }
                        nelemValid := 0, nelemValidIsOK := false, isRO := ro })
      | _, _, _, _ => none
  | _, _ => none

/-- The constructor `MaskedArray (const MaskedArray&, const MaskedLogicalArray&)`. -/
def newFromMaskedWithMaskedMaskKeepRO (inarray : MaskedArray α) (inmask : MaskedArray Bool) :
    Option (Except ArrayException (MaskedArray α)) :=
  newFromMaskedWithMaskedMaskBody inarray inmask inarray.isRO
    ("MaskedArray<T, ArrayAlloc, MaskAlloc>::MaskedArray (const MaskedArray<T, ArrayAlloc, " ++
      "MaskAlloc> &inarray," ++ " const MaskedLogicalArray &inmask)" ++
      " - arrays do not conform")

/-- The constructor `MaskedArray (const MaskedArray&, const MaskedLogicalArray&, bool)`. -/
def newFromMaskedWithMaskedMask (inarray : MaskedArray α) (inmask : MaskedArray Bool)
    (isreadonly : Bool) : Option (Except ArrayException (MaskedArray α)) :=
  newFromMaskedWithMaskedMaskBody inarray inmask (inarray.isRO || isreadonly)
    ("MaskedArray<T, ArrayAlloc, MaskAlloc>::MaskedArray (const MaskedArray<T, ArrayAlloc, " ++
      "MaskAlloc> &inarray," ++ " const MaskedLogicalArray &inmask, bool isreadonly)" ++
      " - arrays do not conform")

/-- The constructor `MaskedArray (const MaskedArray& other, bool isreadonly)`. -/
def newCopy (other : MaskedArray α) (isreadonly : Bool) : Option (MaskedArray α) :=
  match other.pArray, other.pMask with
  | some arr, some mask =>
    some { pArray := some arr, pMask := some mask, nelemValid := other.nelemValid
           nelemValidIsOK := other.nelemValidIsOK, isRO := other.isRO || isreadonly }
  | _, _ => none

/-- The copy constructor `MaskedArray (const MaskedArray& other)`. -/
def newCopyKeepRO (other : MaskedArray α) : Option (MaskedArray α) :=
  match other.pArray, other.pMask with
  | some arr, some mask =>
    some { pArray := some arr, pMask := some mask, nelemValid := other.nelemValid
           nelemValidIsOK := other.nelemValidIsOK, isRO := other.isRO }
  | _, _ => none

/-- The move constructor `MaskedArray (MaskedArray&& source)`: the new object and the source
after the call. -/
def newMove (source : MaskedArray α) : MaskedArray α × MaskedArray α :=
  ({ pArray := source.pArray, pMask := source.pMask, nelemValid := source.nelemValid
     nelemValidIsOK := source.nelemValidIsOK, isRO := source.isRO },
   { pArray := none, pMask := none, nelemValid := 0, nelemValidIsOK := false, isRO := false })

/-- `setData (array, isReadOnly)` from a `MaskedArray`: the object after the call. -/
def setDataFromMasked (_m : MaskedArray α) (array : MaskedArray α) (isReadOnly : Bool) :
    Option (MaskedArray α) :=
  match array.getArray, array.getMask with
  | some arr, some mask =>
    some { pArray := some arr, pMask := some { shape := mask.shape, data := mask.data }
           nelemValid := 0, nelemValidIsOK := false, isRO := isReadOnly }
  | _, _ => none

/-- `copy (isreadonly)`. -/
def copy (m : MaskedArray α) (isreadonly : Bool) :
    Option (Except ArrayException (MaskedArray α)) :=
  match m.pArray, m.pMask with
  | some arr, some mask =>
    match new { shape := arr.shape, data := arr.data } mask isreadonly with
    | .error e => some (.error e)
    | .ok retval =>
      some (.ok { retval with nelemValid := m.nelemValid, nelemValidIsOK := m.nelemValidIsOK })
  | _, _ => none

/-- `copy ()`. -/
def copyWritable (m : MaskedArray α) : Option (Except ArrayException (MaskedArray α)) :=
  match m.pArray, m.pMask with
  | some arr, some mask =>
    match newWritable { shape := arr.shape, data := arr.data } mask with
    | .error e => some (.error e)
    | .ok retval =>
      some (.ok { retval with nelemValid := m.nelemValid, nelemValidIsOK := m.nelemValidIsOK })
  | _, _ => none

/-- `getRWArrayStorage (deleteIt)`: the storage of the array. -/
def getRWArrayStorage (m : MaskedArray α) : Option (Except ArrayException (List α)) :=
  if m.isRO then
    some (.error (.ArrayError
      ("MaskedArray<T, ArrayAlloc, MaskAlloc>::getRWArrayStorage (bool &deleteIt) const" ++
        "- this is read only.")))
  else m.pArray.map fun arr => .ok arr.data

/-- `putArrayStorage (storage, deleteAndCopy)`: the object with the storage put back. -/
def putArrayStorage (m : MaskedArray α) (storage : List α) :
    Option (Except ArrayException (MaskedArray α)) :=
  if m.isRO then
    some (.error (.ArrayError
      ("MaskedArray<T, ArrayAlloc, MaskAlloc>::putArrayStorage (bool deleteAndCopy) const" ++
        "- this is read only.")))
  else m.pArray.map fun arr => .ok { m with pArray := some { arr with data := storage } }

/-- `getRWArray ()`. -/
def getRWArray (m : MaskedArray α) : Option (Except ArrayException (CasaArray α)) :=
  if m.isRO then
    some (.error (.ArrayError
      ("array_type & MaskedArray<T, ArrayAlloc, MaskAlloc>::getRWArray () const" ++
        "- this is read only.")))
  else m.pArray.map fun arr => .ok arr

/-- The loop of `setCompressedArray` on the mask storage, the array storage and the input
storage still ahead: the array storage after the loop. -/
def setLoop : List Bool → List α → List α → Nat → Option (List α)
  | _, arrS, _, 0 => some arrS
  | [], _, _, _ + 1 => none
  | true :: _, [], _, _ + 1 => none
  | true :: _, _ :: _, [], _ + 1 => none
  | true :: maskS, _ :: arrS, x :: inarrS, ntotal + 1 =>
    (setLoop maskS arrS inarrS ntotal).map fun rest => x :: rest
  | false :: maskS, [], inarrS, ntotal + 1 => setLoop maskS [] inarrS (ntotal + 1)
  | false :: maskS, a :: arrS, inarrS, ntotal + 1 =>
    (setLoop maskS arrS inarrS (ntotal + 1)).map fun rest => a :: rest

/-- `setCompressedArray (inarr)`. -/
def setCompressedArray (m : MaskedArray α) (inarr : CasaArray α) :
    Option (Except ArrayException Unit × MaskedArray α) :=
  match m.nelementsValid with
  | none => none
  | some (n, m1) =>
    if n ≠ inarr.nelements then
      some (.error (.ArrayError
        ("void MaskedArray<T, ArrayAlloc, MaskAlloc>::setCompressedArray (const array_type & " ++
          "inarr)" ++ " - input array number of elements is incorrect")), m1)
    else
      match m1.getRWArrayStorage with
      | none => none
      | some (.error e) => some (.error e, m1)
      | some (.ok arrStorage) =>
        match m1.pMask with
        | none => none
        | some mask =>
          match m1.nelementsValid with
          | none => none
          | some (ntotal, m2) =>
            match setLoop mask.data arrStorage inarr.data ntotal with
            | none => none
            | some storage =>
              match m2.putArrayStorage storage with
              | none => none
              | some (.error e) => some (.error e, m2)
              | some (.ok m3) => some (.ok (), m3)

/-- The loop of `operator= (const array_type&)`. -/
def assignLoop : Nat → List Bool → List α → List α → Option (List α)
  | 0, _, arrS, _ => some arrS
  | _ + 1, [], _, _ => none
  | ntotal + 1, true :: maskS, _ :: arrS, x :: inarrS =>
    (assignLoop ntotal maskS arrS inarrS).map fun rest => x :: rest
  | _ + 1, true :: _, _, _ => none
  | ntotal + 1, false :: maskS, arrS, inarrS =>
    (assignLoop ntotal maskS arrS.tail inarrS.tail).map fun rest => arrS.head?.toList ++ rest

/-- The object an assignment gives to an object that holds no data: the array with a mask that
is true everywhere. -/
def ofArray (inarray : CasaArray α) : MaskedArray α :=
  { pArray := some inarray
    pMask := some { shape := inarray.shape, data := List.replicate inarray.nelements true }
    nelemValid := 0, nelemValidIsOK := false, isRO := false }

/-- `operator= (const array_type& inarray)`. -/
def assignArray (m : MaskedArray α) (inarray : CasaArray α) :
    Option (Except ArrayException Unit × MaskedArray α) :=
  match m.pArray with
  | none => some (.ok (), ofArray inarray)
  | some arr =>
    if !(arr.conform inarray) then
      some (.error (.ArrayConformanceError
        ("MaskedArray<T, ArrayAlloc, MaskAlloc> & MaskedArray<T, ArrayAlloc, MaskAlloc>::" ++
          "operator= " ++ "(const array_type &inarray)" ++ "- Conformance error.")), m)
    else if m.isRO then
      some (.error (.ArrayError
        ("MaskedArray<T, ArrayAlloc, MaskAlloc> & MaskedArray<T, ArrayAlloc, MaskAlloc>::" ++
          "operator= " ++ "(const array_type &inarray)" ++ "- this is read only.")), m)
    else
      match m.getRWArrayStorage, m.pMask with
      | some (.ok arrStorage), some mask =>
        match assignLoop arr.nelements mask.data arrStorage inarray.data with
        | none => none
        | some storage =>
          match m.putArrayStorage storage with
          | some (.ok m1) => some (.ok (), m1)
          | some (.error e) => some (.error e, m)
          | none => none
      | some (.error e), _ => some (.error e, m)
      | _, _ => none

/-- `operator= (array_type&& inarray)`: an object without data takes the array, any other does
the ordinary copy assignment. -/
def assignArrayMove (m : MaskedArray α) (inarray : CasaArray α) :
    Option (Except ArrayException Unit × MaskedArray α) :=
  match m.pArray with
  | none => some (.ok (), ofArray inarray)
  | some _ => m.assignArray inarray

/-- The loop of `operator= (const MaskedArray&)`. -/
def assignMaskedLoop : Nat → List Bool → List Bool → List α → List α → Option (List α)
  | 0, _, _, arrS, _ => some arrS
  | _ + 1, [], _, _, _ => none
  | _ + 1, true :: _, [], _, _ => none
  | ntotal + 1, true :: maskS, true :: omaskS, _ :: arrS, x :: oarrS =>
    (assignMaskedLoop ntotal maskS omaskS arrS oarrS).map fun rest => x :: rest
  | _ + 1, true :: _, true :: _, _, _ => none
  | ntotal + 1, true :: maskS, false :: omaskS, arrS, oarrS =>
    (assignMaskedLoop ntotal maskS omaskS arrS.tail oarrS.tail).map
      fun rest => arrS.head?.toList ++ rest
  | ntotal + 1, false :: maskS, omaskS, arrS, oarrS =>
    (assignMaskedLoop ntotal maskS omaskS.tail arrS.tail oarrS.tail).map
      fun rest => arrS.head?.toList ++ rest

/-- `operator= (const MaskedArray& other)`; `sameObject` is the test `this == &other`. -/
def assignMasked (m other : MaskedArray α) (sameObject : Bool) :
    Option (Except ArrayException Unit × MaskedArray α) :=
  if sameObject then some (.ok (), m)
  else
    match m.pArray with
    | none =>
      match other.copyWritable with
      | none => none
      | some (.error e) => some (.error e, m)
      | some (.ok c) => (m.setDataFromMasked c false).map fun m1 => (.ok (), m1)
    | some arr =>
      match other.pArray with
      | none => none
      | some oarr =>
        if !(arr.conform oarr) then
          some (.error (.ArrayConformanceError
            ("MaskedArray<T, ArrayAlloc, MaskAlloc> & MaskedArray<T, ArrayAlloc, MaskAlloc>::" ++
              "operator= " ++ "(const MaskedArray<T, ArrayAlloc, MaskAlloc> &other)" ++
              "- Conformance error.")), m)
        else if m.isRO then
          some (.error (.ArrayError
            ("MaskedArray<T, ArrayAlloc, MaskAlloc> & MaskedArray<T, ArrayAlloc, MaskAlloc>::" ++
              "operator= " ++ "(const MaskedArray<T, ArrayAlloc, MaskAlloc> &other)" ++
              "- this is read only.")), m)
        else
          match m.getRWArrayStorage, m.pMask, other.pMask with
          | some (.ok arrStorage), some mask, some omask =>
            match assignMaskedLoop arr.nelements mask.data omask.data arrStorage oarr.data with
            | none => none
            | some storage =>
              match m.putArrayStorage storage with
              | some (.ok m1) => some (.ok (), m1)
              | some (.error e) => some (.error e, m)
              | none => none
          | some (.error e), _, _ => some (.error e, m)
          | _, _, _ => none

/-- `operator= (MaskedArray&& other)`: the result, the object and `other` after the call. -/
def assignMaskedMove (m other : MaskedArray α) (sameObject : Bool) :
    Option (Except ArrayException Unit × MaskedArray α × MaskedArray α) :=
  if other.isRO then (m.assignMasked other sameObject).map fun r => (r.1, r.2, other)
  else if sameObject then some (.ok (), m, m)
  else
    match m.pArray with
    | none =>
      some (.ok (),
        { pArray := other.pArray, pMask := other.pMask, nelemValid := 0, nelemValidIsOK := false
          isRO := false },
        { other with pArray := none, pMask := none, nelemValid := 0, nelemValidIsOK := false })
    | some _ => (m.assignMasked other sameObject).map fun r => (r.1, r.2, other)

/-- The loop of `operator= (const T&)`. -/
def assignValueLoop (val : α) : Nat → List Bool → List α → Option (List α)
  | 0, _, arrS => some arrS
  | _ + 1, [], _ => none
  | ntotal + 1, true :: maskS, _ :: arrS =>
    (assignValueLoop val ntotal maskS arrS).map fun rest => val :: rest
  | _ + 1, true :: _, [] => none
  | ntotal + 1, false :: maskS, arrS =>
    (assignValueLoop val ntotal maskS arrS.tail).map fun rest => arrS.head?.toList ++ rest

/-- `operator= (const T& val)`. -/
def assignValue (m : MaskedArray α) (val : α) :
    Option (Except ArrayException Unit × MaskedArray α) :=
  match m.pArray with
  | none => some (.ok (), m)
  | some arr =>
    if m.isRO then
      some (.error (.ArrayError
        ("MaskedArray<T, ArrayAlloc, MaskAlloc> & MaskedArray<T, ArrayAlloc, MaskAlloc>::" ++
          "operator= (const T &val)" ++ "- this is read only.")), m)
    else
      match m.getRWArrayStorage, m.pMask with
      | some (.ok arrStorage), some mask =>
        match assignValueLoop val arr.nelements mask.data arrStorage with
        | none => none
        | some storage =>
          match m.putArrayStorage storage with
          | some (.ok m1) => some (.ok (), m1)
          | some (.error e) => some (.error e, m)
          | none => none
      | some (.error e), _ => some (.error e, m)
      | _, _ => none

end MaskedArray

namespace MaskedArray

variable {α : Type}

/-- The object holds the array `arr` and the mask `mask`: both have as many elements as the
shape of the array says, the mask has the shape of the array, and the cached number of valid
elements, when its flag is set, is the number of true elements of the mask. -/
def holds (m : MaskedArray α) (arr : CasaArray α) (mask : CasaArray Bool) : Prop :=
  m.pArray = some arr ∧ m.pMask = some mask ∧ arr.data.length = arr.nelements ∧
    mask.shape = arr.shape ∧ mask.data.length = arr.nelements ∧
    (m.nelemValidIsOK = true → m.nelemValid = countTrue mask.data)

/-- The object holds data as `holds` says, or it holds no data and its cache flag is not
set. -/
def invariant (m : MaskedArray α) : Prop :=
  (∃ arr mask, m.holds arr mask) ∨
    (m.pArray = none ∧ m.pMask = none ∧ m.nelemValidIsOK = false)

/-- The objects reached through the constructors, `setData`, `copy`, the assignment operators,
`nelementsValid` and `setCompressedArray`, from arrays whose storage has as many elements as
their shape says. -/
inductive Reachable : (α : Type) → MaskedArray α → Prop where
  | empty (α : Type) : Reachable α MaskedArray.empty
  | new (α : Type) (inarray : CasaArray α) (inmask : CasaArray Bool) (isreadonly : Bool)
      (m : MaskedArray α) : inarray.ok = true → inmask.ok = true →
      MaskedArray.new inarray inmask isreadonly = .ok m → Reachable α m
  | newWritable (α : Type) (inarray : CasaArray α) (inmask : CasaArray Bool)
      (m : MaskedArray α) : inarray.ok = true → inmask.ok = true →
      MaskedArray.newWritable inarray inmask = .ok m → Reachable α m
  | newFromMasked (α : Type) (inarray : MaskedArray α) (inmask : CasaArray Bool)
      (isreadonly : Bool) (m : MaskedArray α) : Reachable α inarray → inmask.ok = true →
      inarray.newFromMasked inmask isreadonly = some (.ok m) → Reachable α m
  | newFromMaskedKeepRO (α : Type) (inarray : MaskedArray α) (inmask : CasaArray Bool)
      (m : MaskedArray α) : Reachable α inarray → inmask.ok = true →
      inarray.newFromMaskedKeepRO inmask = some (.ok m) → Reachable α m
  | newWithMaskedMask (α : Type) (inarray : CasaArray α) (inmask : MaskedArray Bool)
      (isreadonly : Bool) (m : MaskedArray α) : inarray.ok = true → Reachable Bool inmask →
      MaskedArray.newWithMaskedMask inarray inmask isreadonly = some (.ok m) → Reachable α m
  | newWithMaskedMaskWritable (α : Type) (inarray : CasaArray α) (inmask : MaskedArray Bool)
      (m : MaskedArray α) : inarray.ok = true → Reachable Bool inmask →
      MaskedArray.newWithMaskedMaskWritable inarray inmask = some (.ok m) → Reachable α m
  | newFromMaskedWithMaskedMask (α : Type) (inarray : MaskedArray α)
      (inmask : MaskedArray Bool) (isreadonly : Bool) (m : MaskedArray α) :
      Reachable α inarray → Reachable Bool inmask →
      inarray.newFromMaskedWithMaskedMask inmask isreadonly = some (.ok m) → Reachable α m
  | newFromMaskedWithMaskedMaskKeepRO (α : Type) (inarray : MaskedArray α)
      (inmask : MaskedArray Bool) (m : MaskedArray α) :
      Reachable α inarray → Reachable Bool inmask →
      inarray.newFromMaskedWithMaskedMaskKeepRO inmask = some (.ok m) → Reachable α m
  | newCopy (α : Type) (other : MaskedArray α) (isreadonly : Bool) (m : MaskedArray α) :
      Reachable α other → MaskedArray.newCopy other isreadonly = some m → Reachable α m
  | newCopyKeepRO (α : Type) (other : MaskedArray α) (m : MaskedArray α) :
      Reachable α other → MaskedArray.newCopyKeepRO other = some m → Reachable α m
  | newMove (α : Type) (source : MaskedArray α) :
      Reachable α source → Reachable α (MaskedArray.newMove source).1
  | newMoveSource (α : Type) (source : MaskedArray α) :
      Reachable α source → Reachable α (MaskedArray.newMove source).2
  | setData (α : Type) (m : MaskedArray α) (data : CasaArray α) (mask : CasaArray Bool)
      (isReadOnly : Bool) (m1 : MaskedArray α) : Reachable α m → data.ok = true →
      mask.ok = true → m.setData data mask isReadOnly = .ok m1 → Reachable α m1
  | setDataFromMasked (α : Type) (m array : MaskedArray α) (isReadOnly : Bool)
      (m1 : MaskedArray α) : Reachable α m → Reachable α array →
      m.setDataFromMasked array isReadOnly = some m1 → Reachable α m1
  | copy (α : Type) (m : MaskedArray α) (isreadonly : Bool) (m1 : MaskedArray α) :
      Reachable α m → m.copy isreadonly = some (.ok m1) → Reachable α m1
  | copyWritable (α : Type) (m m1 : MaskedArray α) :
      Reachable α m → m.copyWritable = some (.ok m1) → Reachable α m1
  | nelementsValid (α : Type) (m : MaskedArray α) (n : Nat) (m1 : MaskedArray α) :
      Reachable α m → m.nelementsValid = some (n, m1) → Reachable α m1
  | setCompressedArray (α : Type) (m : MaskedArray α) (inarr : CasaArray α)
      (r : Except ArrayException Unit) (m1 : MaskedArray α) : Reachable α m →
      inarr.ok = true → m.setCompressedArray inarr = some (r, m1) → Reachable α m1
  | assignArray (α : Type) (m : MaskedArray α) (inarray : CasaArray α)
      (r : Except ArrayException Unit) (m1 : MaskedArray α) : Reachable α m →
      inarray.ok = true → m.assignArray inarray = some (r, m1) → Reachable α m1
  | assignArrayMove (α : Type) (m : MaskedArray α) (inarray : CasaArray α)
      (r : Except ArrayException Unit) (m1 : MaskedArray α) : Reachable α m →
      inarray.ok = true → m.assignArrayMove inarray = some (r, m1) → Reachable α m1
  | assignMasked (α : Type) (m other : MaskedArray α) (sameObject : Bool)
      (r : Except ArrayException Unit) (m1 : MaskedArray α) : Reachable α m →
      Reachable α other → m.assignMasked other sameObject = some (r, m1) → Reachable α m1
  | assignMaskedMove (α : Type) (m other : MaskedArray α) (sameObject : Bool)
      (r : Except ArrayException Unit) (m1 other1 : MaskedArray α) : Reachable α m →
      Reachable α other → (sameObject = true → other = m) →
      m.assignMaskedMove other sameObject = some (r, m1, other1) → Reachable α m1
  | assignMaskedMoveSource (α : Type) (m other : MaskedArray α) (sameObject : Bool)
      (r : Except ArrayException Unit) (m1 other1 : MaskedArray α) : Reachable α m →
      Reachable α other → (sameObject = true → other = m) →
      m.assignMaskedMove other sameObject = some (r, m1, other1) → Reachable α other1
  | assignValue (α : Type) (m : MaskedArray α) (val : α) (r : Except ArrayException Unit)
      (m1 : MaskedArray α) : Reachable α m → m.assignValue val = some (r, m1) →
      Reachable α m1

end MaskedArray

/-- The masked vector of `exampleMaskedArray`, read-only. -/
def exampleReadOnlyMaskedArray : MaskedArray Nat :=
  { pArray := some { shape := [5], data := [10, 20, 30, 40, 50] }
    pMask := some { shape := [5], data := [true, false, true, true, false] }
    isRO := true }

end Casacore

/-! # Properties -/

namespace Casacore

/-! ## Comparison of doubles and strings -/

theorem Double.ord_eq_iff (a b : Double) :
    a.ord = b.ord ↔ a = b ∨ (a.isZero = true ∧ b.isZero = true) := by
  obtain ⟨sa, ⟨ea, hea⟩, ⟨ma, hma⟩⟩ := a
  obtain ⟨sb, ⟨eb, heb⟩, ⟨mb, hmb⟩⟩ := b
  simp only [Double.ord, Double.magnitude, Double.isZero, Double.mk.injEq, Fin.mk.injEq,
    beq_iff_eq, Bool.and_eq_true]
  cases sa <;> cases sb <;> simp <;> omega

theorem Double.eq_iff_same (a b : Double) (ha : a.isNaN = false) (hb : b.isNaN = false) :
    Double.eq a b = Double.same a b := by
  have h := Double.ord_eq_iff a b
  by_cases hab : a.ord = b.ord
  · have h' := h.mp hab
    rcases h' with h' | ⟨h1, h2⟩
    · simp [Double.eq, Double.same, ha, hb, hab, h']
    · simp [Double.eq, Double.same, ha, hb, hab, h1, h2]
  · have h' : ¬ (a = b ∨ (a.isZero = true ∧ b.isZero = true)) := fun x => hab (h.mpr x)
    simp only [not_or, not_and] at h'
    have h1 : (a.isZero && b.isZero) = false := by
      cases hz : a.isZero <;> simp
      simpa using h'.2 hz
    simp [Double.eq, Double.same, ha, hb, hab, h'.1, h1]

theorem CString.lt_iff (a b : CString) : CString.lt a b = true ↔ a < b := by
  induction a generalizing b with
  | nil =>
    cases b with
    | nil => simp [CString.lt]
    | cons y ys => simp [CString.lt, List.nil_lt_cons]
  | cons x xs ih =>
    cases b with
    | nil => simp [CString.lt]
    | cons y ys =>
      simp only [CString.lt]
      rcases lt_trichotomy x y with h | h | h
      · simp [h]
        exact List.Lex.rel h
      · subst h
        simp [ih]
        constructor
        · intro h; exact List.Lex.cons h
        · intro h; exact (List.Lex.cons_iff).mp h
      · simp [h, not_lt.mpr (le_of_lt h)]
        exact le_of_lt (List.Lex.rel h)

/-! ## Keys of one data type are linearly ordered -/

theorem TableExprGroupKey.opLt_iff_rank (a b : TableExprGroupKey) (hdt : a.itsDT = b.itsDT)
    (ha : a.noNaN = true) (hb : b.noNaN = true) : a.opLt b = true ↔ a.rank < b.rank := by
  obtain ⟨dt, ab, ai, ad, as⟩ := a
  obtain ⟨dt', bb, bi, bd, bs⟩ := b
  simp only at hdt
  subst hdt
  cases dt <;>
    simp [TableExprGroupKey.opLt, TableExprGroupKey.rank, Prod.Lex.lt_iff, CString.lt_iff,
      TableExprGroupKey.noNaN, Double.lt] at ha hb ⊢
  · cases ab <;> cases bb <;> simp
  · simp [ha, hb]

theorem TableExprGroupKey.opEq_iff_rank (a b : TableExprGroupKey) (hdt : a.itsDT = b.itsDT)
    (ha : a.noNaN = true) (hb : b.noNaN = true) : a.opEq b = true ↔ a.rank = b.rank := by
  obtain ⟨dt, ab, ai, ad, as⟩ := a
  obtain ⟨dt', bb, bi, bd, bs⟩ := b
  simp only at hdt
  subst hdt
  cases dt <;>
    simp [TableExprGroupKey.opEq, TableExprGroupKey.rank, CString.eq,
      TableExprGroupKey.noNaN, Double.eq] at ha hb ⊢
  · cases ab <;> cases bb <;> simp
  · simp [ha, hb]

/-! ## The loops of the key set comparisons -/

theorem TableExprGroupKeySet.ltLoop_iff_first (as bs : List TableExprGroupKey)
    (hlen : as.length = bs.length) :
    TableExprGroupKeySet.ltLoop as bs = true ↔
      ∃ (i : Nat) (x y : TableExprGroupKey),
        as[i]? = some x ∧ bs[i]? = some y ∧ x.opLt y = true ∧
        ∀ (j : Nat) (u v : TableExprGroupKey), j < i → as[j]? = some u → bs[j]? = some v →
          u.opLt v = false ∧ v.opLt u = false := by
  induction as generalizing bs with
  | nil =>
    cases bs with
    | nil => simp [TableExprGroupKeySet.ltLoop]
    | cons b bs => simp at hlen
  | cons a as ih =>
    cases bs with
    | nil => simp at hlen
    | cons b bs =>
      have hlen' : as.length = bs.length := by simpa using hlen
      cases hab : a.opLt b with
      | true =>
        simp only [TableExprGroupKeySet.ltLoop, hab, if_true, true_iff]
        exact ⟨0, a, b, by simp, by simp, hab, fun j u v hj => absurd hj (Nat.not_lt_zero j)⟩
      | false =>
        cases hba : b.opLt a with
        | true =>
          simp only [TableExprGroupKeySet.ltLoop, hab, hba, if_true, Bool.false_eq_true,
            if_false, false_iff]
          rintro ⟨i, x, y, hx, hy, hxy, hall⟩
          cases i with
          | zero =>
            simp at hx hy
            subst hx; subst hy
            simp [hab] at hxy
          | succ i =>
            have := (hall 0 a b (Nat.succ_pos i) (by simp) (by simp)).2
            simp [hba] at this
        | false =>
          simp only [TableExprGroupKeySet.ltLoop, hab, hba, Bool.false_eq_true, if_false]
          rw [ih bs hlen']
          constructor
          · rintro ⟨i, x, y, hx, hy, hxy, hall⟩
            refine ⟨i + 1, x, y, by simpa using hx, by simpa using hy, hxy, ?_⟩
            intro j u v hj hu hv
            cases j with
            | zero =>
              simp at hu hv
              subst hu; subst hv
              exact ⟨hab, hba⟩
            | succ j =>
              exact hall j u v (Nat.lt_of_succ_lt_succ hj) (by simpa using hu) (by simpa using hv)
          · rintro ⟨i, x, y, hx, hy, hxy, hall⟩
            cases i with
            | zero =>
              simp at hx hy
              subst hx; subst hy
              simp [hab] at hxy
            | succ i =>
              refine ⟨i, x, y, by simpa using hx, by simpa using hy, hxy, ?_⟩
              intro j u v hj hu hv
              exact hall (j + 1) u v (Nat.succ_lt_succ hj) (by simpa using hu) (by simpa using hv)

theorem TableExprGroupKeySet.sameTypes_length (a b : TableExprGroupKeySet)
    (h : a.sameTypes b = true) : a.itsKeys.length = b.itsKeys.length := by
  simp only [TableExprGroupKeySet.sameTypes, decide_eq_true_eq] at h
  have := congrArg List.length h
  simpa using this

theorem TableExprGroupKeySet.loops_exactlyOne (as bs : List TableExprGroupKey)
    (hdt : as.map TableExprGroupKey.itsDT = bs.map TableExprGroupKey.itsDT)
    (ha : as.all TableExprGroupKey.noNaN = true) (hb : bs.all TableExprGroupKey.noNaN = true) :
    exactlyOne (TableExprGroupKeySet.ltLoop as bs) (TableExprGroupKeySet.eqLoop as bs)
      (TableExprGroupKeySet.ltLoop bs as) = true := by
  induction as generalizing bs with
  | nil =>
    cases bs with
    | nil => simp [TableExprGroupKeySet.ltLoop, TableExprGroupKeySet.eqLoop, exactlyOne]
    | cons b bs => simp at hdt
  | cons a as ih =>
    cases bs with
    | nil => simp at hdt
    | cons b bs =>
      simp only [List.map_cons, List.cons.injEq] at hdt
      simp only [List.all_cons, Bool.and_eq_true] at ha hb
      have hlt := TableExprGroupKey.opLt_iff_rank a b hdt.1 ha.1 hb.1
      have hgt := TableExprGroupKey.opLt_iff_rank b a hdt.1.symm hb.1 ha.1
      have heq := TableExprGroupKey.opEq_iff_rank a b hdt.1 ha.1 hb.1
      have ih' := ih bs hdt.2 ha.2 hb.2
      rcases lt_trichotomy a.rank b.rank with h | h | h
      · have h1 : a.opLt b = true := hlt.mpr h
        have h2 : b.opLt a = false := by
          rw [Bool.eq_false_iff]; exact fun x => lt_asymm h (hgt.mp x)
        have h3 : a.opEq b = false := by
          rw [Bool.eq_false_iff]; exact fun x => ne_of_lt h (heq.mp x)
        simp [TableExprGroupKeySet.ltLoop, TableExprGroupKeySet.eqLoop, exactlyOne, h1, h2, h3]
      · have h1 : a.opLt b = false := by
          rw [Bool.eq_false_iff]; exact fun x => ne_of_lt (hlt.mp x) h
        have h2 : b.opLt a = false := by
          rw [Bool.eq_false_iff]; exact fun x => ne_of_gt (hgt.mp x) h
        have h3 : a.opEq b = true := heq.mpr h
        simpa [TableExprGroupKeySet.ltLoop, TableExprGroupKeySet.eqLoop, h1, h2, h3] using ih'
      · have h1 : a.opLt b = false := by
          rw [Bool.eq_false_iff]; exact fun x => lt_asymm h (hlt.mp x)
        have h2 : b.opLt a = true := hgt.mpr h
        have h3 : a.opEq b = false := by
          rw [Bool.eq_false_iff]; exact fun x => ne_of_gt h (heq.mp x)
        simp [TableExprGroupKeySet.ltLoop, TableExprGroupKeySet.eqLoop, exactlyOne, h1, h2, h3]

theorem TableExprGroupKeySet.ltLoop_trans (as bs cs : List TableExprGroupKey)
    (hab : as.map TableExprGroupKey.itsDT = bs.map TableExprGroupKey.itsDT)
    (hbc : bs.map TableExprGroupKey.itsDT = cs.map TableExprGroupKey.itsDT)
    (ha : as.all TableExprGroupKey.noNaN = true) (hb : bs.all TableExprGroupKey.noNaN = true)
    (hc : cs.all TableExprGroupKey.noNaN = true)
    (h1 : TableExprGroupKeySet.ltLoop as bs = true)
    (h2 : TableExprGroupKeySet.ltLoop bs cs = true) :
    TableExprGroupKeySet.ltLoop as cs = true := by
  induction as generalizing bs cs with
  | nil =>
    cases bs with
    | nil => simp [TableExprGroupKeySet.ltLoop] at h1
    | cons b bs => simp at hab
  | cons a as ih =>
    cases bs with
    | nil => simp at hab
    | cons b bs =>
      cases cs with
      | nil => simp at hbc
      | cons c cs =>
        simp only [List.map_cons, List.cons.injEq] at hab hbc
        simp only [List.all_cons, Bool.and_eq_true] at ha hb hc
        have hdac : a.itsDT = c.itsDT := hab.1.trans hbc.1
        have lab := TableExprGroupKey.opLt_iff_rank a b hab.1 ha.1 hb.1
        have lba := TableExprGroupKey.opLt_iff_rank b a hab.1.symm hb.1 ha.1
        have lbc := TableExprGroupKey.opLt_iff_rank b c hbc.1 hb.1 hc.1
        have lcb := TableExprGroupKey.opLt_iff_rank c b hbc.1.symm hc.1 hb.1
        have lac := TableExprGroupKey.opLt_iff_rank a c hdac ha.1 hc.1
        have lca := TableExprGroupKey.opLt_iff_rank c a hdac.symm hc.1 ha.1
        simp only [TableExprGroupKeySet.ltLoop] at h1 h2 ⊢
        by_cases x1 : a.opLt b = true
        · by_cases x2 : b.opLt c = true
          · have : a.opLt c = true := lac.mpr (lt_trans (lab.mp x1) (lbc.mp x2))
            simp [this]
          · by_cases x3 : c.opLt b = true
            · simp [x2, x3] at h2
            · have hr : b.rank = c.rank :=
                le_antisymm (not_lt.mp fun x => x3 (lcb.mpr x)) (not_lt.mp fun x => x2 (lbc.mpr x))
              have : a.opLt c = true := lac.mpr (hr ▸ lab.mp x1)
              simp [this]
        · by_cases x4 : b.opLt a = true
          · simp [x1, x4] at h1
          · have hr : a.rank = b.rank :=
              le_antisymm (not_lt.mp fun x => x4 (lba.mpr x)) (not_lt.mp fun x => x1 (lab.mpr x))
            simp only [x1, x4, if_false, Bool.false_eq_true] at h1
            by_cases x2 : b.opLt c = true
            · have : a.opLt c = true := lac.mpr (hr ▸ lbc.mp x2)
              simp [this]
            · by_cases x3 : c.opLt b = true
              · simp [x2, x3] at h2
              · simp only [x2, x3, if_false, Bool.false_eq_true] at h2
                have hr2 : b.rank = c.rank :=
                  le_antisymm (not_lt.mp fun x => x3 (lcb.mpr x))
                    (not_lt.mp fun x => x2 (lbc.mpr x))
                have y1 : ¬ a.opLt c = true := fun x => by
                  have := lac.mp x
                  rw [hr, hr2] at this
                  exact lt_irrefl _ this
                have y2 : ¬ c.opLt a = true := fun x => by
                  have := lca.mp x
                  rw [hr, hr2] at this
                  exact lt_irrefl _ this
                simp only [y1, y2, if_false]
                exact ih bs cs hab.2 hbc.2 ha.2 hb.2 hc.2 h1 h2

/-! ## Construction and filling of a key set -/

theorem TableExprGroupKeySet.foldl_addKey (nodes : List TableExprNode)
    (s : TableExprGroupKeySet) :
    (nodes.foldl (fun s n => s.addKey n.dataType) s).itsKeys =
      s.itsKeys ++ nodes.map (fun n => TableExprGroupKey.new n.dataType) := by
  induction nodes generalizing s with
  | nil => simp
  | cons n ns ih =>
    rw [List.foldl_cons, ih]
    simp [TableExprGroupKeySet.addKey]

theorem TableExprGroupKeySet.new_keys (nodes : List TableExprNode) :
    (TableExprGroupKeySet.new nodes).itsKeys =
      nodes.map (fun n => TableExprGroupKey.new n.dataType) := by
  simp [TableExprGroupKeySet.new, TableExprGroupKeySet.foldl_addKey]

theorem TableExprGroupKeySet.fillKey_supported (n : TableExprNode) (id : TableExprId)
    (h : supportedKeyType n.dataType = true) :
    TableExprGroupKeySet.fillKey (TableExprGroupKey.new n.dataType) n id =
      .ok (TableExprGroupKeySet.keyOf n id) := by
  simp only [TableExprGroupKeySet.keyOf, TableExprGroupKeySet.fillKey,
    TableExprGroupKey.dataType, TableExprGroupKey.new]
  cases hdt : n.dataType <;> simp_all [supportedKeyType]

theorem TableExprGroupKeySet.fillLoop_supported (nodes : List TableExprNode) (id : TableExprId)
    (h : ∀ n ∈ nodes, supportedKeyType n.dataType = true) :
    TableExprGroupKeySet.fillLoop (nodes.map (fun n => TableExprGroupKey.new n.dataType))
      nodes id = .ok (nodes.map (fun n => TableExprGroupKeySet.keyOf n id)) := by
  induction nodes with
  | nil => simp [TableExprGroupKeySet.fillLoop]
  | cons n ns ih =>
    have h1 := TableExprGroupKeySet.fillKey_supported n id (h n (by simp))
    have h2 := ih (fun m hm => h m (by simp [hm]))
    simp [TableExprGroupKeySet.fillLoop, h1, h2]

theorem TableExprGroupKeySet.ofRow_supported (nodes : List TableExprNode) (id : TableExprId)
    (h : ∀ n ∈ nodes, supportedKeyType n.dataType = true) :
    TableExprGroupKeySet.ofRow nodes id =
      .ok { itsKeys := nodes.map (fun n => TableExprGroupKeySet.keyOf n id) } := by
  simp [TableExprGroupKeySet.ofRow, TableExprGroupKeySet.fill, TableExprGroupKeySet.new_keys,
    TableExprGroupKeySet.fillLoop_supported nodes id h]

theorem TableExprGroupKeySet.eqLoop_map (nodes : List TableExprNode)
    (f g : TableExprNode → TableExprGroupKey) :
    TableExprGroupKeySet.eqLoop (nodes.map f) (nodes.map g) =
      nodes.all (fun n => (f n).opEq (g n)) := by
  induction nodes with
  | nil => simp [TableExprGroupKeySet.eqLoop]
  | cons n ns ih =>
    cases h : (f n).opEq (g n) <;> simp [TableExprGroupKeySet.eqLoop, h, ih]

theorem TableExprGroupKeySet.sameGroup_supported (nodes : List TableExprNode)
    (r1 r2 : TableExprId) (h : ∀ n ∈ nodes, supportedKeyType n.dataType = true) :
    TableExprGroupKeySet.sameGroup nodes r1 r2 =
      .ok (nodes.all fun n =>
        (TableExprGroupKeySet.keyOf n r1).opEq (TableExprGroupKeySet.keyOf n r2)) := by
  simp [TableExprGroupKeySet.sameGroup, TableExprGroupKeySet.ofRow_supported nodes _ h,
    TableExprGroupKeySet.opEq, TableExprGroupKeySet.eqLoop_map]

theorem TableExprGroupKeySet.keyOf_opEq (n : TableExprNode) (r1 r2 : TableExprId)
    (ht : plainKeyType n.dataType = true)
    (hnan : n.dataType = NodeDataType.NTDouble →
      (n.getDouble r1).isNaN = false ∧ (n.getDouble r2).isNaN = false) :
    (TableExprGroupKeySet.keyOf n r1).opEq (TableExprGroupKeySet.keyOf n r2) =
      (n.keyValue r1).same (n.keyValue r2) := by
  simp only [TableExprGroupKeySet.keyOf, TableExprGroupKeySet.fillKey,
    TableExprGroupKey.dataType, TableExprGroupKey.new, TableExprNode.keyValue]
  cases hdt : n.dataType <;>
    simp_all [plainKeyType, TableExprGroupKey.opEq, TableExprGroupKey.setBool,
      TableExprGroupKey.setInt, TableExprGroupKey.setDouble, TableExprGroupKey.setString,
      KeyValue.same, CString.eq]
  · cases n.getBool r1 <;> cases n.getBool r2 <;> rfl
  · exact Double.eq_iff_same _ _ hnan.1 hnan.2

theorem all_congr_of_mem {α : Type} (l : List α) (f g : α → Bool)
    (h : ∀ x ∈ l, f x = g x) : l.all f = l.all g := by
  induction l with
  | nil => rfl
  | cons x xs ih =>
    simp only [List.all_cons]
    rw [h x (by simp), ih (fun y hy => h y (by simp [hy]))]

/-! ## Key sets: the claims -/

/-- C1, as amended.  For GROUPBY expressions of type bool, int, double or string
and two rows on which no double expression yields a NaN, the key sets that
`fill` produces for the two rows are compared by `operator==` without error,
and the answer is true exactly when every expression yields the same value on
both rows (the two zeros of a double being one value). -/
theorem keySets_equal_iff_same_values (nodes : List TableExprNode) (r1 r2 : TableExprId)
    (htypes : ∀ n ∈ nodes, plainKeyType n.dataType = true)
    (hnan : ∀ n ∈ nodes, n.dataType = NodeDataType.NTDouble →
      (n.getDouble r1).isNaN = false ∧ (n.getDouble r2).isNaN = false) :
    TableExprGroupKeySet.sameGroup nodes r1 r2 = .ok (sameValues nodes r1 r2) := by
  have hs : ∀ n ∈ nodes, supportedKeyType n.dataType = true := by
    intro n hn
    have := htypes n hn
    simp only [plainKeyType, supportedKeyType, decide_eq_true_eq, List.mem_cons] at this ⊢
    tauto
  rw [TableExprGroupKeySet.sameGroup_supported nodes r1 r2 hs, sameValues]
  congr 1
  exact all_congr_of_mem nodes _ _
    (fun n hn => TableExprGroupKeySet.keyOf_opEq n r1 r2 (htypes n hn) (hnan n hn))

/-- Witness of C1 as amended: an int expression (the row number) and a constant
double expression, on rows 0 and 1. -/
theorem keySets_equal_iff_same_values_witness :
    (∀ n ∈ [exampleIntNode, exampleDoubleNode], plainKeyType n.dataType = true) ∧
    (∀ n ∈ [exampleIntNode, exampleDoubleNode], n.dataType = NodeDataType.NTDouble →
      (n.getDouble ⟨0, none⟩).isNaN = false ∧ (n.getDouble ⟨1, none⟩).isNaN = false) ∧
    TableExprGroupKeySet.sameGroup [exampleIntNode, exampleDoubleNode] ⟨0, none⟩ ⟨1, none⟩ =
      .ok (sameValues [exampleIntNode, exampleDoubleNode] ⟨0, none⟩ ⟨1, none⟩) :=
  have h1 : ∀ n ∈ [exampleIntNode, exampleDoubleNode], plainKeyType n.dataType = true := by
    simp [exampleIntNode, exampleDoubleNode, plainKeyType]
  have h2 : ∀ n ∈ [exampleIntNode, exampleDoubleNode], n.dataType = NodeDataType.NTDouble →
      (n.getDouble ⟨0, none⟩).isNaN = false ∧ (n.getDouble ⟨1, none⟩).isNaN = false := by
    simp [exampleIntNode, exampleDoubleNode, Double.isNaN, Double.one]
  ⟨h1, h2, keySets_equal_iff_same_values _ _ _ h1 h2⟩

/-- C1, as stated, fails.  A date expression that yields 1.0 on row 0 and 2.0 on
row 1 has a supported key type, yet the key sets of the two rows compare
equal; a double expression that yields the same NaN on a row gives a key set
that does not compare equal to itself. -/
theorem keySets_equal_date_nan_counterexample :
    ((∀ n ∈ [exampleDateNode], supportedKeyType n.dataType = true) ∧
      TableExprGroupKeySet.sameGroup [exampleDateNode] ⟨0, none⟩ ⟨1, none⟩ = .ok true ∧
      sameValues [exampleDateNode] ⟨0, none⟩ ⟨1, none⟩ = false) ∧
    ((∀ n ∈ [exampleNaNNode], supportedKeyType n.dataType = true) ∧
      TableExprGroupKeySet.sameGroup [exampleNaNNode] ⟨0, none⟩ ⟨0, none⟩ = .ok false ∧
      sameValues [exampleNaNNode] ⟨0, none⟩ ⟨0, none⟩ = true) := by
  refine ⟨⟨?_, ?_, ?_⟩, ?_, ?_, ?_⟩
  · simp [exampleDateNode, supportedKeyType]
  · rfl
  · decide
  · simp [exampleNaNNode, supportedKeyType]
  · rfl
  · decide

/-- C2.  For two key sets with the same length and the same data type at every
position, `operator<` returns an answer, and the answer is true exactly when
there is a position where the key of this set is less than the key of that
set while at every earlier position neither key is less than the other; in
particular it is false when no position is ordered. -/
theorem keySet_opLt_lexicographic (a b : TableExprGroupKeySet)
    (h : a.sameTypes b = true) :
    ∃ r : Bool, a.opLt b = .ok r ∧
      (r = true ↔
        ∃ (i : Nat) (x y : TableExprGroupKey),
          a.itsKeys[i]? = some x ∧ b.itsKeys[i]? = some y ∧ x.opLt y = true ∧
          ∀ (j : Nat) (u v : TableExprGroupKey),
            j < i → a.itsKeys[j]? = some u → b.itsKeys[j]? = some v →
              u.opLt v = false ∧ v.opLt u = false) := by
  have hlen := TableExprGroupKeySet.sameTypes_length a b h
  refine ⟨TableExprGroupKeySet.ltLoop a.itsKeys b.itsKeys, ?_, ?_⟩
  · simp [TableExprGroupKeySet.opLt, hlen]
  · exact TableExprGroupKeySet.ltLoop_iff_first a.itsKeys b.itsKeys hlen

/-- Witness of C2: the key sets (1.0, 5) and (1.0, 7). -/
theorem keySet_opLt_lexicographic_witness :
    (exampleDoubleIntKeySet Double.one 5).sameTypes (exampleDoubleIntKeySet Double.one 7) = true ∧
    ∃ r : Bool, (exampleDoubleIntKeySet Double.one 5).opLt (exampleDoubleIntKeySet Double.one 7)
        = .ok r ∧
      (r = true ↔
        ∃ (i : Nat) (x y : TableExprGroupKey),
          (exampleDoubleIntKeySet Double.one 5).itsKeys[i]? = some x ∧
          (exampleDoubleIntKeySet Double.one 7).itsKeys[i]? = some y ∧ x.opLt y = true ∧
          ∀ (j : Nat) (u v : TableExprGroupKey),
            j < i → (exampleDoubleIntKeySet Double.one 5).itsKeys[j]? = some u →
              (exampleDoubleIntKeySet Double.one 7).itsKeys[j]? = some v →
              u.opLt v = false ∧ v.opLt u = false) :=
  ⟨by decide, keySet_opLt_lexicographic _ _ (by decide)⟩

/-- C3, as amended.  On key sets with the same length and the same data type at
every position, none of whose double keys is a NaN, `operator<` and
`operator==` return answers, exactly one of a<b, a==b, b<a is true, and a<b
together with b<c gives a<c. -/
theorem keySet_opLt_strict_total_order (a b c : TableExprGroupKeySet)
    (hab : a.sameTypes b = true) (hbc : b.sameTypes c = true)
    (ha : a.noNaN = true) (hb : b.noNaN = true) (hc : c.noNaN = true) :
    (∃ lt eq gt : Bool, a.opLt b = .ok lt ∧ a.opEq b = .ok eq ∧ b.opLt a = .ok gt ∧
      exactlyOne lt eq gt = true) ∧
    (a.opLt b = .ok true → b.opLt c = .ok true → a.opLt c = .ok true) := by
  have l1 := TableExprGroupKeySet.sameTypes_length a b hab
  have l2 := TableExprGroupKeySet.sameTypes_length b c hbc
  simp only [TableExprGroupKeySet.sameTypes, decide_eq_true_eq] at hab hbc
  simp only [TableExprGroupKeySet.noNaN] at ha hb hc
  constructor
  · refine ⟨_, _, _, ?_, ?_, ?_,
      TableExprGroupKeySet.loops_exactlyOne a.itsKeys b.itsKeys hab ha hb⟩
    · simp [TableExprGroupKeySet.opLt, l1]
    · simp [TableExprGroupKeySet.opEq, l1]
    · simp [TableExprGroupKeySet.opLt, l1]
  · intro h1 h2
    simp only [TableExprGroupKeySet.opLt, l1, l2, l1.trans l2, if_true, Except.ok.injEq] at h1 h2 ⊢
    exact TableExprGroupKeySet.ltLoop_trans _ _ _ hab hbc ha hb hc h1 h2

/-- Witness of C3 as amended: the key sets (1.0, 5), (1.0, 7) and (2.0, 0). -/
theorem keySet_opLt_strict_total_order_witness :
    (exampleDoubleIntKeySet Double.one 5).sameTypes (exampleDoubleIntKeySet Double.one 7) = true ∧
    (exampleDoubleIntKeySet Double.one 7).sameTypes (exampleDoubleIntKeySet Double.two 0) = true ∧
    (exampleDoubleIntKeySet Double.one 5).noNaN = true ∧
    (exampleDoubleIntKeySet Double.one 7).noNaN = true ∧
    (exampleDoubleIntKeySet Double.two 0).noNaN = true ∧
    ((∃ lt eq gt : Bool,
        (exampleDoubleIntKeySet Double.one 5).opLt (exampleDoubleIntKeySet Double.one 7) = .ok lt ∧
        (exampleDoubleIntKeySet Double.one 5).opEq (exampleDoubleIntKeySet Double.one 7) = .ok eq ∧
        (exampleDoubleIntKeySet Double.one 7).opLt (exampleDoubleIntKeySet Double.one 5) = .ok gt ∧
        exactlyOne lt eq gt = true) ∧
      ((exampleDoubleIntKeySet Double.one 5).opLt (exampleDoubleIntKeySet Double.one 7) = .ok true →
        (exampleDoubleIntKeySet Double.one 7).opLt (exampleDoubleIntKeySet Double.two 0)
          = .ok true →
        (exampleDoubleIntKeySet Double.one 5).opLt (exampleDoubleIntKeySet Double.two 0)
          = .ok true)) :=
  ⟨by decide, by decide, by decide, by decide, by decide,
    keySet_opLt_strict_total_order _ _ _ (by decide) (by decide) (by decide) (by decide)
      (by decide)⟩

/-- C3, as stated, fails.  The key sets (NaN) and (1.0) have the same length and
data types, and none of a<b, a==b, b<a is true; and for a = (1.0, 5),
b = (NaN, 6), c = (0.0, 7) both a<b and b<c are true while a<c is false. -/
theorem keySet_opLt_nan_counterexample :
    ((exampleDoubleKeySet Double.nan).sameTypes (exampleDoubleKeySet Double.one) = true ∧
      (exampleDoubleKeySet Double.nan).opLt (exampleDoubleKeySet Double.one) = .ok false ∧
      (exampleDoubleKeySet Double.nan).opEq (exampleDoubleKeySet Double.one) = .ok false ∧
      (exampleDoubleKeySet Double.one).opLt (exampleDoubleKeySet Double.nan) = .ok false) ∧
    ((exampleDoubleIntKeySet Double.one 5).sameTypes (exampleDoubleIntKeySet Double.nan 6) = true ∧
      (exampleDoubleIntKeySet Double.nan 6).sameTypes (exampleDoubleIntKeySet Double.zero 7)
        = true ∧
      (exampleDoubleIntKeySet Double.one 5).opLt (exampleDoubleIntKeySet Double.nan 6)
        = .ok true ∧
      (exampleDoubleIntKeySet Double.nan 6).opLt (exampleDoubleIntKeySet Double.zero 7)
        = .ok true ∧
      (exampleDoubleIntKeySet Double.one 5).opLt (exampleDoubleIntKeySet Double.zero 7)
        = .ok false) := by
  refine ⟨⟨?_, ?_, ?_, ?_⟩, ?_, ?_, ?_, ?_, ?_⟩ <;> rfl

/-! ## First, Last and the row identifier lists -/

theorem TableExprGroupFirst.new_itsId (node : Option AggrNodeRep) (f : TableExprGroupFirst)
    (h : TableExprGroupFirst.new node = .ok f) : f.itsId = TableExprId.default := by
  unfold TableExprGroupFirst.new at h
  cases hb : TableExprGroupFuncBase.new node with
  | error e => simp [hb] at h
  | ok b =>
    simp only [hb, Except.ok.injEq] at h
    rw [← h]

theorem TableExprGroupFirst.applyAll_captured (g : TableExprGroupFirst)
    (ids : List TableExprId) (h : 0 ≤ g.itsId.rownr) : g.applyAll ids = g := by
  induction ids with
  | nil => rfl
  | cons x xs ih =>
    have hx : g.apply x = g := by
      simp [TableExprGroupFirst.apply, not_lt.mpr h]
    simp only [TableExprGroupFirst.applyAll, List.foldl_cons, hx]
    exact ih

theorem TableExprGroupFirst.applyAll_fresh (f : TableExprGroupFirst) (x : TableExprId)
    (xs : List TableExprId) (hf : f.itsId = TableExprId.default) (hx : 0 ≤ x.rownr) :
    f.applyAll (x :: xs) = { f with itsId := x } := by
  have h1 : f.apply x = { f with itsId := x } := by
    simp [TableExprGroupFirst.apply, hf, TableExprId.default]
  simp only [TableExprGroupFirst.applyAll, List.foldl_cons, h1]
  exact TableExprGroupFirst.applyAll_captured _ xs hx

/-- C4.  The rows of a non-empty sequence with non-negative row numbers are
applied in arrival order to a freshly constructed `TableExprGroupFirst`: the
captured row identifier is the first of the sequence, and the apply of a row
that comes after a non-empty part of the sequence leaves the function object,
and so the captured identifier, as it was. -/
theorem first_captures_first_row (node : Option AggrNodeRep) (f : TableExprGroupFirst)
    (hnew : TableExprGroupFirst.new node = .ok f) (ids : List TableExprId)
    (hne : ids ≠ []) (hnonneg : ∀ x ∈ ids, 0 ≤ x.rownr) :
    ids.head? = some (f.applyAll ids).itsId ∧
    ∀ (pre post : List TableExprId) (x : TableExprId),
      ids = pre ++ x :: post → pre ≠ [] → (f.applyAll pre).apply x = f.applyAll pre := by
  have hf := TableExprGroupFirst.new_itsId node f hnew
  cases ids with
  | nil => exact absurd rfl hne
  | cons y ys =>
    constructor
    · rw [TableExprGroupFirst.applyAll_fresh f y ys hf (hnonneg y (by simp))]
      rfl
    · intro pre post x hsplit hpre
      cases pre with
      | nil => exact absurd rfl hpre
      | cons p ps =>
        have hp : p = y := by
          simp only [List.cons_append, List.cons.injEq] at hsplit
          exact hsplit.1.symm
        subst hp
        rw [TableExprGroupFirst.applyAll_fresh f p ps hf (hnonneg p (by simp))]
        simp [TableExprGroupFirst.apply, not_lt.mpr (hnonneg p (by simp))]

/-- Witness of C4: rows 3, 1, 2 applied to a First made for an aggregate node
without operand. -/
theorem first_captures_first_row_witness :
    (∃ f, TableExprGroupFirst.new (some (.aggrNode none)) = .ok f ∧
      [exampleRow 3, exampleRow 1, exampleRow 2] ≠ [] ∧
      (∀ x ∈ [exampleRow 3, exampleRow 1, exampleRow 2], 0 ≤ x.rownr) ∧
      [exampleRow 3, exampleRow 1, exampleRow 2].head?
        = some (f.applyAll [exampleRow 3, exampleRow 1, exampleRow 2]).itsId ∧
      ∀ (pre post : List TableExprId) (x : TableExprId),
        [exampleRow 3, exampleRow 1, exampleRow 2] = pre ++ x :: post → pre ≠ [] →
          (f.applyAll pre).apply x = f.applyAll pre) :=
  ⟨_, rfl, by simp, by simp [exampleRow],
    first_captures_first_row (some (.aggrNode none)) _ rfl
      [exampleRow 3, exampleRow 1, exampleRow 2] (by simp) (by simp [exampleRow])⟩

theorem TableExprGroupLast.applyAll_append (f : TableExprGroupLast)
    (xs : List TableExprId) (x : TableExprId) :
    (f.applyAll (xs ++ [x])).itsId = x := by
  simp [TableExprGroupLast.applyAll, List.foldl_append, TableExprGroupLast.apply]

/-- C5.  The rows of a non-empty sequence are applied in arrival order to a
`TableExprGroupLast`: the captured row identifier is the last of the
sequence. -/
theorem last_captures_last_row (f : TableExprGroupLast) (ids : List TableExprId)
    (hne : ids ≠ []) : ids.getLast? = some (f.applyAll ids).itsId := by
  rcases List.eq_nil_or_concat ids with h | ⟨xs, x, h⟩
  · exact absurd h hne
  · subst h
    rw [List.concat_eq_append, TableExprGroupLast.applyAll_append]
    simp

/-- Witness of C5: rows 3, 1, 2 applied to a Last that holds row 7. -/
theorem last_captures_last_row_witness :
    [exampleRow 3, exampleRow 1, exampleRow 2] ≠ [] ∧
    [exampleRow 3, exampleRow 1, exampleRow 2].getLast? =
      some (TableExprGroupLast.applyAll { itsId := exampleRow 7 }
        [exampleRow 3, exampleRow 1, exampleRow 2]).itsId :=
  ⟨by simp, last_captures_last_row { itsId := exampleRow 7 } _ (by simp)⟩

theorem TableExprGroupExprId.applyAll_itsIds (f : TableExprGroupExprId)
    (ids : List TableExprId) : (f.applyAll ids).itsIds = f.itsIds ++ ids := by
  induction ids generalizing f with
  | nil => simp [TableExprGroupExprId.applyAll]
  | cons x xs ih =>
    simp only [TableExprGroupExprId.applyAll, List.foldl_cons] at ih ⊢
    rw [ih]
    simp [TableExprGroupExprId.apply]

/-- C6.  The rows of a sequence are applied in arrival order to a freshly
constructed `TableExprGroupExprId`: `getIds` returns exactly that sequence. -/
theorem exprId_getIds_arrival_order (node : Option AggrNodeRep) (f : TableExprGroupExprId)
    (hnew : TableExprGroupExprId.new node = .ok f) (ids : List TableExprId) :
    (f.applyAll ids).getIds = ids := by
  have hf : f.itsIds = [] := by
    unfold TableExprGroupExprId.new at hnew
    cases hb : TableExprGroupFuncBase.new node with
    | error e => simp [hb] at hnew
    | ok b =>
      simp only [hb, Except.ok.injEq] at hnew
      rw [← hnew]
  simp [TableExprGroupExprId.getIds, TableExprGroupExprId.applyAll_itsIds, hf]

/-- Witness of C6: rows 3, 1, 1 applied to an ExprId made for an aggregate node
without operand. -/
theorem exprId_getIds_arrival_order_witness :
    ∃ f, TableExprGroupExprId.new (some (.aggrNode none)) = .ok f ∧
      (f.applyAll [exampleRow 3, exampleRow 1, exampleRow 1]).getIds
        = [exampleRow 3, exampleRow 1, exampleRow 1] :=
  ⟨_, rfl, exprId_getIds_arrival_order (some (.aggrNode none)) _ rfl _⟩

theorem TableExprGroupRowid.getArrayIntLoop_getElem? (ids : List TableExprId) (n : Nat) :
    ∀ (i : Nat) (rowIds : List Int), ids.length - i = n → rowIds.length = ids.length →
      ∀ j : Nat, (TableExprGroupRowid.getArrayIntLoop ids i rowIds)[j]? =
        if j < i then rowIds[j]? else (ids[j]?).map TableExprId.rownr := by
  induction n with
  | zero =>
    intro i rowIds hn hlen j
    have hi : ¬ i < ids.length := by omega
    rw [TableExprGroupRowid.getArrayIntLoop, dif_neg hi]
    by_cases hj : j < i
    · simp [hj]
    · have h1 : rowIds.length ≤ j := by omega
      have h2 : ids.length ≤ j := by omega
      simp [hj, List.getElem?_eq_none h1, List.getElem?_eq_none h2]
  | succ n ih =>
    intro i rowIds hn hlen j
    have hi : i < ids.length := by omega
    rw [TableExprGroupRowid.getArrayIntLoop, dif_pos hi]
    rw [ih (i + 1) _ (by omega) (by simp [hlen]) j]
    by_cases hj : j < i
    · have : j < i + 1 := by omega
      have hne : i ≠ j := by omega
      simp [hj, this, List.getElem?_set, hne]
    · by_cases hji : j = i
      · subst hji
        have hl : j < rowIds.length := by omega
        simp [List.getElem?_set, hl, List.getElem?_eq_getElem hi]
      · have : ¬ j < i + 1 := by omega
        simp [hj, this]

theorem rowid_getArrayInt_data (f : TableExprGroupRowid) (ids : List TableExprId) :
    f.getArrayInt ids = MArray.ofVector (ids.map TableExprId.rownr) := by
  have hdata : TableExprGroupRowid.getArrayIntLoop ids 0 (List.replicate ids.length 0) =
      ids.map TableExprId.rownr := by
    apply List.ext_getElem?
    intro i
    rw [TableExprGroupRowid.getArrayIntLoop_getElem? ids ids.length 0 _ rfl (by simp) i]
    simp
  simp [TableExprGroupRowid.getArrayInt, hdata]

/-- C7.  `TableExprGroupRowid::getArrayInt (ids)` returns a vector (one axis, no
mask) with exactly `ids.size()` elements whose i-th element is the row number
of `ids[i]`, in the same order. -/
theorem rowid_getArrayInt_row_numbers (f : TableExprGroupRowid) (ids : List TableExprId) :
    (f.getArrayInt ids).data.length = ids.length ∧
    (∀ i : Nat, (f.getArrayInt ids).data[i]? = (ids[i]?).map TableExprId.rownr) ∧
    (f.getArrayInt ids).data = ids.map TableExprId.rownr ∧
    (f.getArrayInt ids).shape = [ids.length] ∧
    (f.getArrayInt ids).mask = none := by
  have hget : ∀ i : Nat, (f.getArrayInt ids).data[i]? = (ids[i]?).map TableExprId.rownr := by
    intro i
    simp only [TableExprGroupRowid.getArrayInt, MArray.ofVector]
    rw [TableExprGroupRowid.getArrayIntLoop_getElem? ids ids.length 0 _ rfl (by simp) i]
    simp
  have hdata : (f.getArrayInt ids).data = ids.map TableExprId.rownr := by
    apply List.ext_getElem?
    intro i
    rw [hget i]
    simp
  refine ⟨by simp [hdata], hget, hdata, ?_, rfl⟩
  have hl : (f.getArrayInt ids).data.length = ids.length := by simp [hdata]
  simpa [TableExprGroupRowid.getArrayInt, MArray.ofVector] using hl

/-! ## Shape check of the array aggregates -/

theorem checkShapeBody_second_mismatch {α : Type} (fill : α) (arr1 arr2 : MArrayBase)
    (func : String) (hne : arr1.shape ≠ arr2.shape) (hpos : arr1.empty = false) :
    checkShapeBody fill (checkShapeBody fill {} arr1 func).2 arr2 func =
      (.error (.TableInvExpr ("Mismatching array shapes in aggregate function " ++ func)),
        (checkShapeBody fill {} arr1 func).2) := by
  have h1 : checkShapeBody fill ({} : MArray α) arr1 func =
      (.ok true, MArray.resize {} fill arr1.shape arr1.hasMask) := by
    simp [checkShapeBody, MArrayBase.empty, IPosition.product]
  rw [h1]
  have h3 : ¬ (arr1.shape.product = 0) := by
    simpa [MArrayBase.empty] using hpos
  simp [checkShapeBody, MArray.resize, IPosition.isEqual, hne, MArrayBase.empty, h3]

/-- C8, as amended.  For each of the six array aggregate classes (Bool, Int,
Double, DComplex, Date, String): when two arrays with different shapes, the
first of which has at least one element, are checked in that order on a fresh
accumulator, the second check throws TableInvExpr with the message
"Mismatching array shapes in aggregate function " followed by the function
name, and leaves the object (the accumulated value with it) as the first check
left it. -/
theorem checkShape_rejects_mismatch (b : TableExprGroupFuncBase) (arr1 arr2 : MArrayBase)
    (func : String) (hne : arr1.shape ≠ arr2.shape) (hpos : arr1.empty = false) :
    (((({ toTableExprGroupFuncBase := b, itsValue := {} } : TableExprGroupFuncArrayBool).checkShape
        arr1 func).2.checkShape arr2 func) =
      (.error (.TableInvExpr ("Mismatching array shapes in aggregate function " ++ func)),
        (({ toTableExprGroupFuncBase := b, itsValue := {} } : TableExprGroupFuncArrayBool).checkShape
          arr1 func).2)) ∧
    (((({ toTableExprGroupFuncBase := b, itsValue := {} } : TableExprGroupFuncArrayInt).checkShape
        arr1 func).2.checkShape arr2 func) =
      (.error (.TableInvExpr ("Mismatching array shapes in aggregate function " ++ func)),
        (({ toTableExprGroupFuncBase := b, itsValue := {} } : TableExprGroupFuncArrayInt).checkShape
          arr1 func).2)) ∧
    (((({ toTableExprGroupFuncBase := b, itsValue := {} } : TableExprGroupFuncArrayDouble).checkShape
        arr1 func).2.checkShape arr2 func) =
      (.error (.TableInvExpr ("Mismatching array shapes in aggregate function " ++ func)),
        (({ toTableExprGroupFuncBase := b, itsValue := {} } : TableExprGroupFuncArrayDouble).checkShape
          arr1 func).2)) ∧
    (((({ toTableExprGroupFuncBase := b, itsValue := {} } : TableExprGroupFuncArrayDComplex).checkShape
        arr1 func).2.checkShape arr2 func) =
      (.error (.TableInvExpr ("Mismatching array shapes in aggregate function " ++ func)),
        (({ toTableExprGroupFuncBase := b, itsValue := {} } : TableExprGroupFuncArrayDComplex).checkShape
          arr1 func).2)) ∧
    (((({ toTableExprGroupFuncBase := b, itsValue := {} } : TableExprGroupFuncArrayDate).checkShape
        arr1 func).2.checkShape arr2 func) =
      (.error (.TableInvExpr ("Mismatching array shapes in aggregate function " ++ func)),
        (({ toTableExprGroupFuncBase := b, itsValue := {} } : TableExprGroupFuncArrayDate).checkShape
          arr1 func).2)) ∧
    (((({ toTableExprGroupFuncBase := b, itsValue := {} } : TableExprGroupFuncArrayString).checkShape
        arr1 func).2.checkShape arr2 func) =
      (.error (.TableInvExpr ("Mismatching array shapes in aggregate function " ++ func)),
        (({ toTableExprGroupFuncBase := b, itsValue := {} } : TableExprGroupFuncArrayString).checkShape
          arr1 func).2)) := by
  refine ⟨?_, ?_, ?_, ?_, ?_, ?_⟩
  · simp only [TableExprGroupFuncArrayBool.checkShape]
    rw [checkShapeBody_second_mismatch false arr1 arr2 func hne hpos]
  · simp only [TableExprGroupFuncArrayInt.checkShape]
    rw [checkShapeBody_second_mismatch 0 arr1 arr2 func hne hpos]
  · simp only [TableExprGroupFuncArrayDouble.checkShape]
    rw [checkShapeBody_second_mismatch Double.zero arr1 arr2 func hne hpos]
  · simp only [TableExprGroupFuncArrayDComplex.checkShape]
    rw [checkShapeBody_second_mismatch _ arr1 arr2 func hne hpos]
  · simp only [TableExprGroupFuncArrayDate.checkShape]
    rw [checkShapeBody_second_mismatch _ arr1 arr2 func hne hpos]
  · simp only [TableExprGroupFuncArrayString.checkShape]
    rw [checkShapeBody_second_mismatch [] arr1 arr2 func hne hpos]

/-- Witness of C8 as amended: an array of 3 elements, then one of 5. -/
theorem checkShape_rejects_mismatch_witness :
    (exampleArray [3]).shape ≠ (exampleArray [5]).shape ∧
    (exampleArray [3]).empty = false ∧
    (((({ toTableExprGroupFuncBase := {}, itsValue := {} } : TableExprGroupFuncArrayBool).checkShape
        (exampleArray [3]) "gsums").2.checkShape (exampleArray [5]) "gsums") =
      (.error (.TableInvExpr ("Mismatching array shapes in aggregate function " ++ "gsums")),
        (({ toTableExprGroupFuncBase := {}, itsValue := {} } : TableExprGroupFuncArrayBool).checkShape
          (exampleArray [3]) "gsums").2)) ∧
    (((({ toTableExprGroupFuncBase := {}, itsValue := {} } : TableExprGroupFuncArrayInt).checkShape
        (exampleArray [3]) "gsums").2.checkShape (exampleArray [5]) "gsums") =
      (.error (.TableInvExpr ("Mismatching array shapes in aggregate function " ++ "gsums")),
        (({ toTableExprGroupFuncBase := {}, itsValue := {} } : TableExprGroupFuncArrayInt).checkShape
          (exampleArray [3]) "gsums").2)) ∧
    (((({ toTableExprGroupFuncBase := {}, itsValue := {} } : TableExprGroupFuncArrayDouble).checkShape
        (exampleArray [3]) "gsums").2.checkShape (exampleArray [5]) "gsums") =
      (.error (.TableInvExpr ("Mismatching array shapes in aggregate function " ++ "gsums")),
        (({ toTableExprGroupFuncBase := {}, itsValue := {} } : TableExprGroupFuncArrayDouble).checkShape
          (exampleArray [3]) "gsums").2)) ∧
    (((({ toTableExprGroupFuncBase := {}, itsValue := {} } : TableExprGroupFuncArrayDComplex).checkShape
        (exampleArray [3]) "gsums").2.checkShape (exampleArray [5]) "gsums") =
      (.error (.TableInvExpr ("Mismatching array shapes in aggregate function " ++ "gsums")),
        (({ toTableExprGroupFuncBase := {}, itsValue := {} } : TableExprGroupFuncArrayDComplex).checkShape
          (exampleArray [3]) "gsums").2)) ∧
    (((({ toTableExprGroupFuncBase := {}, itsValue := {} } : TableExprGroupFuncArrayDate).checkShape
        (exampleArray [3]) "gsums").2.checkShape (exampleArray [5]) "gsums") =
      (.error (.TableInvExpr ("Mismatching array shapes in aggregate function " ++ "gsums")),
        (({ toTableExprGroupFuncBase := {}, itsValue := {} } : TableExprGroupFuncArrayDate).checkShape
          (exampleArray [3]) "gsums").2)) ∧
    (((({ toTableExprGroupFuncBase := {}, itsValue := {} } : TableExprGroupFuncArrayString).checkShape
        (exampleArray [3]) "gsums").2.checkShape (exampleArray [5]) "gsums") =
      (.error (.TableInvExpr ("Mismatching array shapes in aggregate function " ++ "gsums")),
        (({ toTableExprGroupFuncBase := {}, itsValue := {} } : TableExprGroupFuncArrayString).checkShape
          (exampleArray [3]) "gsums").2)) :=
  ⟨by decide, by decide,
    checkShape_rejects_mismatch {} (exampleArray [3]) (exampleArray [5]) "gsums"
      (by decide) (by decide)⟩

/-- C8, as stated, fails.  On a fresh Bool array accumulator an array of shape
[0] and then an array of shape [5] are checked: the shapes differ, yet the
second check returns True instead of throwing, and it resizes the accumulated
value from shape [0] to shape [5]. -/
theorem checkShape_empty_first_counterexample :
    (exampleArray [0]).shape ≠ (exampleArray [5]).shape ∧
    ((({} : TableExprGroupFuncArrayBool).checkShape (exampleArray [0]) "gsums").2.checkShape
      (exampleArray [5]) "gsums").1 = .ok true ∧
    (({} : TableExprGroupFuncArrayBool).checkShape (exampleArray [0]) "gsums").2.itsValue.shape
      = [0] ∧
    ((({} : TableExprGroupFuncArrayBool).checkShape (exampleArray [0]) "gsums").2.checkShape
      (exampleArray [5]) "gsums").2.itsValue.shape = [5] := by
  refine ⟨by decide, ?_, ?_, ?_⟩ <;> rfl

/-! ## Rejection of a complex key -/

theorem TableExprGroupKeySet.fillKey_of_type (k : TableExprGroupKey) (n : TableExprNode)
    (id : TableExprId) :
    (supportedKeyType k.itsDT = true → ∃ k', TableExprGroupKeySet.fillKey k n id = .ok k') ∧
    (supportedKeyType k.itsDT = false → TableExprGroupKeySet.fillKey k n id =
      .error (.TableInvExpr "A GROUPBY key cannot have data type dcomplex")) := by
  simp only [TableExprGroupKeySet.fillKey, TableExprGroupKey.dataType]
  cases hdt : k.itsDT <;> simp [supportedKeyType]

theorem TableExprGroupKeySet.fillLoop_unsupported (keys : List TableExprGroupKey)
    (nodes : List TableExprNode) (id : TableExprId) (hlen : nodes.length = keys.length)
    (h : ∃ k ∈ keys, supportedKeyType k.itsDT = false) :
    TableExprGroupKeySet.fillLoop keys nodes id =
      .error (.TableInvExpr "A GROUPBY key cannot have data type dcomplex") := by
  induction keys generalizing nodes with
  | nil => simp at h
  | cons k ks ih =>
    cases nodes with
    | nil => simp at hlen
    | cons n ns =>
      have hlen' : ns.length = ks.length := by simpa using hlen
      by_cases hk : supportedKeyType k.itsDT = true
      · obtain ⟨k', hk'⟩ := (TableExprGroupKeySet.fillKey_of_type k n id).1 hk
        have h2 : ∃ m ∈ ks, supportedKeyType m.itsDT = false := by
          obtain ⟨m, hm, hm'⟩ := h
          rcases List.mem_cons.mp hm with rfl | hm
          · simp [hk] at hm'
          · exact ⟨m, hm, hm'⟩
        simp [TableExprGroupKeySet.fillLoop, hk', ih ns hlen' h2]
      · have h1 := (TableExprGroupKeySet.fillKey_of_type k n id).2 (by simpa using hk)
        simp [TableExprGroupKeySet.fillLoop, h1]

/-- C9, as amended.  Constructing a key set from an expression list in which
some expression has data type complex yields a key set with one key per
expression, of the data type of the expression; the complex key is rejected
when `fill` is called: on that key set, as on every key set with one key per
expression that holds a key of data type complex, `fill` throws TableInvExpr
"A GROUPBY key cannot have data type dcomplex" for every row. -/
theorem complex_key_rejected_by_fill (nodes : List TableExprNode) (id : TableExprId)
    (h : ∃ n ∈ nodes, n.dataType = NodeDataType.NTComplex) :
    (TableExprGroupKeySet.new nodes).itsKeys =
      nodes.map (fun n => TableExprGroupKey.new n.dataType) ∧
    (TableExprGroupKeySet.new nodes).fill nodes id =
      .error (.TableInvExpr "A GROUPBY key cannot have data type dcomplex") ∧
    ∀ s : TableExprGroupKeySet, nodes.length = s.itsKeys.length →
      (∃ k ∈ s.itsKeys, k.dataType = NodeDataType.NTComplex) →
      s.fill nodes id = .error (.TableInvExpr "A GROUPBY key cannot have data type dcomplex") := by
  have hgen : ∀ s : TableExprGroupKeySet, nodes.length = s.itsKeys.length →
      (∃ k ∈ s.itsKeys, k.dataType = NodeDataType.NTComplex) →
      s.fill nodes id =
        .error (.TableInvExpr "A GROUPBY key cannot have data type dcomplex") := by
    intro s hlen hk
    have h' : ∃ k ∈ s.itsKeys, supportedKeyType k.itsDT = false := by
      obtain ⟨k, hk1, hk2⟩ := hk
      refine ⟨k, hk1, ?_⟩
      simp only [TableExprGroupKey.dataType] at hk2
      simp [supportedKeyType, hk2]
    simp [TableExprGroupKeySet.fill, hlen,
      TableExprGroupKeySet.fillLoop_unsupported s.itsKeys nodes id hlen h']
  refine ⟨TableExprGroupKeySet.new_keys nodes, ?_, hgen⟩
  apply hgen
  · simp [TableExprGroupKeySet.new_keys]
  · obtain ⟨n, hn, hc⟩ := h
    refine ⟨TableExprGroupKey.new n.dataType, ?_, ?_⟩
    · rw [TableExprGroupKeySet.new_keys]
      exact List.mem_map.mpr ⟨n, hn, rfl⟩
    · simpa [TableExprGroupKey.dataType, TableExprGroupKey.new] using hc

/-- Witness of C9 as amended: an int expression followed by a complex one, at
row 0. -/
theorem complex_key_rejected_by_fill_witness :
    (∃ n ∈ [exampleIntNode, exampleComplexNode], n.dataType = NodeDataType.NTComplex) ∧
    (TableExprGroupKeySet.new [exampleIntNode, exampleComplexNode]).itsKeys =
      [exampleIntNode, exampleComplexNode].map (fun n => TableExprGroupKey.new n.dataType) ∧
    (TableExprGroupKeySet.new [exampleIntNode, exampleComplexNode]).fill
      [exampleIntNode, exampleComplexNode] (exampleRow 0) =
      .error (.TableInvExpr "A GROUPBY key cannot have data type dcomplex") ∧
    ∀ s : TableExprGroupKeySet, [exampleIntNode, exampleComplexNode].length = s.itsKeys.length →
      (∃ k ∈ s.itsKeys, k.dataType = NodeDataType.NTComplex) →
      s.fill [exampleIntNode, exampleComplexNode] (exampleRow 0) =
        .error (.TableInvExpr "A GROUPBY key cannot have data type dcomplex") :=
  ⟨⟨exampleComplexNode, by simp, rfl⟩,
    complex_key_rejected_by_fill [exampleIntNode, exampleComplexNode] (exampleRow 0)
      ⟨exampleComplexNode, by simp, rfl⟩⟩

/-- C9, as stated, fails.  From the list of one complex expression the
constructor builds a key set holding one key of data type complex; no
exception is thrown until `fill` is called for a row. -/
theorem complex_key_construction_counterexample :
    TableExprGroupKeySet.new [exampleComplexNode] =
      { itsKeys := [TableExprGroupKey.new NodeDataType.NTComplex] } ∧
    (TableExprGroupKeySet.new [exampleComplexNode]).fill [exampleComplexNode] (exampleRow 0) =
      .error (.TableInvExpr "A GROUPBY key cannot have data type dcomplex") := by
  constructor <;> rfl

/-! ## Typed getters -/

/-- C10, as amended.  For every function object that holds a value of one type
(Bool, Int, Double, DComplex, String and the six array classes) and every typed
getter whose return type differs from the type of the held value, the getter
throws TableInvExpr "TableExprGroupFuncBase::<getter> not implemented", with
one exception: `getDouble` of `TableExprGroupFuncInt`, which returns the held
integer converted to double. -/
theorem getter_of_other_type_not_implemented (f : ValueFunc) (g : Getter)
    (ids : List TableExprId) (hdiff : g.returnType ≠ f.valueType)
    (hnot : ¬ (f.valueType = ValueType.Int64 ∧ g = Getter.getDouble)) :
    f.get g ids =
      .error (.TableInvExpr ("TableExprGroupFuncBase::" ++ g.name ++ " not implemented")) ∧
    ∀ (fi : TableExprGroupFuncInt),
      (ValueFunc.funcInt fi).get Getter.getDouble ids
        = .ok (.double (Double.ofInt64 fi.itsValue)) := by
  constructor
  · cases f <;> cases g <;>
      simp_all [ValueFunc.get, ValueFunc.valueType, Getter.returnType,
        TableExprGroupFuncBase.get]
  · intro fi
    rfl

/-- Witness of C10 as amended: `getInt` on a Bool function. -/
theorem getter_of_other_type_not_implemented_witness :
    Getter.getInt.returnType ≠ (ValueFunc.funcBool { itsValue := true }).valueType ∧
    ¬ ((ValueFunc.funcBool { itsValue := true }).valueType = ValueType.Int64 ∧
      Getter.getInt = Getter.getDouble) ∧
    ((ValueFunc.funcBool { itsValue := true }).get Getter.getInt [] =
      .error (.TableInvExpr ("TableExprGroupFuncBase::" ++ Getter.getInt.name
        ++ " not implemented")) ∧
    ∀ (fi : TableExprGroupFuncInt),
      (ValueFunc.funcInt fi).get Getter.getDouble []
        = .ok (.double (Double.ofInt64 fi.itsValue))) :=
  ⟨by decide, by decide,
    getter_of_other_type_not_implemented (ValueFunc.funcBool { itsValue := true })
      Getter.getInt [] (by decide) (by decide)⟩

/-- C10, as stated, fails.  `TableExprGroupFuncInt` holds an `Int64`; its
`getDouble` has another return type, and on the held value 7 it returns the
converted value 7.0 instead of throwing. -/
theorem funcInt_getDouble_counterexample :
    Getter.getDouble.returnType ≠ (ValueFunc.funcInt { itsValue := 7 }).valueType ∧
    (ValueFunc.funcInt { itsValue := 7 }).get Getter.getDouble [] =
      .ok (.double ⟨false, 1025, 3377699720527872⟩) := by
  constructor
  · decide
  · rfl

/-! ## Sequence numbers in a function set -/

theorem TableExprGroupFuncSet.applyLoop_seqnr {S : Type} (id : TableExprId)
    (fs : List (TableExprGroupFunc S)) (i : Nat) :
    ((TableExprGroupFuncSet.applyLoop id fs).2[i]?).map TableExprGroupFunc.seqnr =
      (fs[i]?).map TableExprGroupFunc.seqnr := by
  induction fs generalizing i with
  | nil => rfl
  | cons f fs ih =>
    have hs : ((f.apply id).2).seqnr = f.seqnr := by
      cases f with
      | first f =>
        simp only [TableExprGroupFunc.apply, TableExprGroupFunc.seqnr,
          TableExprGroupFunc.toBase, TableExprGroupFirst.apply]
        split <;> rfl
      | null f => rfl
      | last f => rfl
      | exprId f => rfl
      | rowid f => rfl
      | aggr f => rfl
      | other b m a => rfl
    simp only [TableExprGroupFuncSet.applyLoop]
    split
    · cases i with
      | zero => simp [hs]
      | succ i => simpa using ih i
    · cases i with
      | zero => simp [hs]
      | succ i => simp

theorem TableExprGroupFuncSet.apply_wellNumbered {S : Type} (s : TableExprGroupFuncSet S)
    (id : TableExprId) (h : s.wellNumbered) : (s.apply id).2.wellNumbered := by
  intro i f hf
  have h1 := TableExprGroupFuncSet.applyLoop_seqnr id s.itsFuncs i
  simp only [TableExprGroupFuncSet.apply] at hf
  rw [hf] at h1
  cases hg : s.itsFuncs[i]? with
  | none => simp [hg] at h1
  | some g =>
    rw [hg] at h1
    simp only [Option.map_some', Option.some.injEq] at h1
    rw [h1]
    exact h i g hg

/-! ## Function sets -/

theorem TableExprGroupFunc.apply_seqnr {S : Type} (f : TableExprGroupFunc S)
    (id : TableExprId) : (f.apply id).2.seqnr = f.seqnr := by
  cases f with
  | first f =>
    simp only [TableExprGroupFunc.apply, TableExprGroupFunc.seqnr, TableExprGroupFunc.toBase,
      TableExprGroupFirst.apply]
    split <;> rfl
  | null f => rfl
  | last f => rfl
  | exprId f => rfl
  | rowid f => rfl
  | aggr f => rfl
  | other b m a => rfl

theorem TableExprGroupFuncSet.applyLoop_length {S : Type} (id : TableExprId)
    (fs : List (TableExprGroupFunc S)) :
    (TableExprGroupFuncSet.applyLoop id fs).2.length = fs.length := by
  induction fs with
  | nil => rfl
  | cons f fs ih =>
    simp only [TableExprGroupFuncSet.applyLoop]
    split <;> simp [ih]

theorem TableExprGroupFuncSet.applyLoop_ok {S : Type} (id : TableExprId)
    (fs : List (TableExprGroupFunc S)) (h : ∀ f ∈ fs, (f.apply id).1 = .ok ()) :
    TableExprGroupFuncSet.applyLoop id fs = (.ok (), fs.map (fun f => (f.apply id).2)) := by
  induction fs with
  | nil => rfl
  | cons f fs ih =>
    have h1 := h f (by simp)
    have h2 := ih (fun x hx => h x (by simp [hx]))
    simp [TableExprGroupFuncSet.applyLoop, h1, h2]

theorem TableExprGroupFuncSet.applyLoop_error {S : Type} (id : TableExprId)
    (pre : List (TableExprGroupFunc S)) (f : TableExprGroupFunc S)
    (post : List (TableExprGroupFunc S)) (e : Error)
    (hpre : ∀ p ∈ pre, (p.apply id).1 = .ok ()) (hf : (f.apply id).1 = .error e) :
    TableExprGroupFuncSet.applyLoop id (pre ++ f :: post) =
      (.error e, pre.map (fun p => (p.apply id).2) ++ (f.apply id).2 :: post) := by
  induction pre with
  | nil => simp [TableExprGroupFuncSet.applyLoop, hf]
  | cons p ps ih =>
    have h1 := hpre p (by simp)
    have h2 := ih (fun x hx => hpre x (by simp [hx]))
    simp [TableExprGroupFuncSet.applyLoop, h1, h2]

/-- C11.  `TableExprGroupFuncSet::apply (id)` records `id` as the row identifier
of the set and keeps the number of functions.  When the apply of every
function succeeds the call succeeds and every function, at its position, is in
the state its own `apply (id)` produces.  The functions are called front to
back, once each: when the apply of a function throws while those before it
succeed, the call throws that exception, the functions before it are in the
state their apply produces and the functions behind it have not been called.
The apply of a function keeps its sequence number, so in a set whose function
at position i has sequence number i this is the increasing order of the
sequence numbers, which the call leaves in place. -/
theorem funcSet_apply_each_function_once {S : Type} (s : TableExprGroupFuncSet S)
    (id : TableExprId) :
    (s.apply id).2.itsId = id ∧
    (s.apply id).2.itsFuncs.length = s.itsFuncs.length ∧
    ((∀ f ∈ s.itsFuncs, (f.apply id).1 = .ok ()) →
      (s.apply id).1 = .ok () ∧
      (s.apply id).2.itsFuncs = s.itsFuncs.map (fun f => (f.apply id).2)) ∧
    (∀ (pre post : List (TableExprGroupFunc S)) (f : TableExprGroupFunc S) (e : Error),
      s.itsFuncs = pre ++ f :: post → (∀ p ∈ pre, (p.apply id).1 = .ok ()) →
      (f.apply id).1 = .error e →
      (s.apply id).1 = .error e ∧
      (s.apply id).2.itsFuncs = pre.map (fun p => (p.apply id).2) ++ (f.apply id).2 :: post) ∧
    (∀ f : TableExprGroupFunc S, (f.apply id).2.seqnr = f.seqnr) ∧
    (s.wellNumbered → (s.apply id).2.wellNumbered) := by
  refine ⟨rfl, TableExprGroupFuncSet.applyLoop_length id s.itsFuncs, ?_, ?_,
    fun f => TableExprGroupFunc.apply_seqnr f id, ?_⟩
  · intro h
    simp [TableExprGroupFuncSet.apply, TableExprGroupFuncSet.applyLoop_ok id s.itsFuncs h]
  · intro pre post f e hs hpre hf
    simp [TableExprGroupFuncSet.apply, hs,
      TableExprGroupFuncSet.applyLoop_error id pre f post e hpre hf]
  · intro hw
    exact TableExprGroupFuncSet.apply_wellNumbered s id hw

theorem modifyAt_append_length {α : Type} (g : α → α) (acc : List α) (x : α) :
    modifyAt g (acc ++ [x]) acc.length = acc ++ [g x] := by
  induction acc with
  | nil => rfl
  | cons a as ih => simp [modifyAt, ih]

theorem TableExprGroupFuncSet.newLoop_ok {S N : Type}
    (makeGroupAggrFunc : N → Except Error (TableExprGroupFunc S))
    (mk : N → TableExprGroupFunc S) (nodes : List N) :
    ∀ (i : Nat) (acc : List (TableExprGroupFunc S)),
      (∀ n ∈ nodes, makeGroupAggrFunc n = .ok (mk n)) → acc.length = i →
      ∃ funcs, TableExprGroupFuncSet.newLoop makeGroupAggrFunc nodes i acc = .ok funcs ∧
        funcs.length = i + nodes.length ∧
        ∀ j : Nat, funcs[j]? =
          if j < i then acc[j]? else (nodes[j - i]?).map (fun n => (mk n).setSeqnr j) := by
  induction nodes with
  | nil =>
    intro i acc _ hacc
    refine ⟨acc, rfl, by simp [hacc], ?_⟩
    intro j
    by_cases hj : j < i
    · simp [hj]
    · have : acc.length ≤ j := by omega
      simp [hj, List.getElem?_eq_none this]
  | cons n ns ih =>
    intro i acc h hacc
    have hn := h n (by simp)
    have hacc' : (acc ++ [(mk n).setSeqnr i]).length = i + 1 := by simp [hacc]
    obtain ⟨funcs, hf, hlen, hget⟩ :=
      ih (i + 1) (acc ++ [(mk n).setSeqnr i]) (fun m hm => h m (by simp [hm])) hacc'
    refine ⟨funcs, ?_, ?_, ?_⟩
    · simp only [TableExprGroupFuncSet.newLoop, hn]
      rw [← hacc, modifyAt_append_length, hacc]
      exact hf
    · simp [hlen]; omega
    · intro j
      rw [hget j]
      by_cases h1 : j < i
      · have h2 : j < i + 1 := by omega
        have h3 : j < acc.length := by omega
        simp [h1, h2, List.getElem?_append_left h3]
      · by_cases h2 : j = i
        · subst h2
          simp [← hacc]
        · have h3 : ¬ j < i + 1 := by omega
          have h4 : j - i = (j - (i + 1)) + 1 := by omega
          simp [h1, h3, h4]

/-- C12.  When every node of a list of n aggregate nodes makes its function,
the constructor of `TableExprGroupFuncSet` yields a set that holds exactly n
functions; the function at position i is the one made by node i, with
sequence number i assigned to it. -/
theorem funcSet_new_numbers_functions {S N : Type}
    (makeGroupAggrFunc : N → Except Error (TableExprGroupFunc S))
    (mk : N → TableExprGroupFunc S) (aggrNodes : List N)
    (hmake : ∀ n ∈ aggrNodes, makeGroupAggrFunc n = .ok (mk n)) :
    ∃ s, TableExprGroupFuncSet.new makeGroupAggrFunc aggrNodes = .ok s ∧
      s.itsFuncs.length = aggrNodes.length ∧
      ∀ (i : Nat) (n : N), aggrNodes[i]? = some n →
        s.itsFuncs[i]? = some ((mk n).setSeqnr i) ∧ ((mk n).setSeqnr i).seqnr = i ∧
        ((mk n).setSeqnr i).setSeqnr (mk n).seqnr = mk n := by
  obtain ⟨funcs, hf, hlen, hget⟩ :=
    TableExprGroupFuncSet.newLoop_ok makeGroupAggrFunc mk aggrNodes 0 [] hmake rfl
  refine ⟨{ itsFuncs := funcs, itsId := { rownr := 0, data := none } }, ?_, by simpa using hlen, ?_⟩
  · simp [TableExprGroupFuncSet.new, hf]
  · intro i n hn
    refine ⟨?_, ?_, ?_⟩
    · simp [hget i, hn]
    · cases mk n <;> rfl
    · cases mk n <;> rfl

/-- Witness of C12: the nodes FIRST(value), LAST(value) and the row identifier
list. -/
theorem funcSet_new_numbers_functions_witness :
    (∀ n ∈ exampleAggrNodes, ExampleAggrNode.makeGroupAggrFunc n = .ok n.func) ∧
    ∃ s, TableExprGroupFuncSet.new ExampleAggrNode.makeGroupAggrFunc exampleAggrNodes = .ok s ∧
      s.itsFuncs.length = exampleAggrNodes.length ∧
      ∀ (i : Nat) (n : ExampleAggrNode), exampleAggrNodes[i]? = some n →
        s.itsFuncs[i]? = some (n.func.setSeqnr i) ∧ (n.func.setSeqnr i).seqnr = i ∧
        (n.func.setSeqnr i).setSeqnr n.func.seqnr = n.func :=
  ⟨fun _ _ => rfl,
    funcSet_new_numbers_functions ExampleAggrNode.makeGroupAggrFunc ExampleAggrNode.func
      exampleAggrNodes (fun _ _ => rfl)⟩

theorem TableExprGroupFunc.setSeqnr_seqnr {S : Type} (f : TableExprGroupFunc S) (n : Nat) :
    (f.setSeqnr n).seqnr = n := by
  cases f <;> rfl

theorem TableExprGroupFuncSet.wellNumbered_append {S : Type}
    (acc : List (TableExprGroupFunc S)) (f : TableExprGroupFunc S)
    (h : ∀ (i : Nat) (g : TableExprGroupFunc S), acc[i]? = some g → g.seqnr = i) :
    ∀ (i : Nat) (g : TableExprGroupFunc S),
      (acc ++ [f.setSeqnr acc.length])[i]? = some g → g.seqnr = i := by
  intro i g hg
  by_cases hi : i < acc.length
  · rw [List.getElem?_append_left hi] at hg
    exact h i g hg
  · by_cases hi' : i = acc.length
    · subst hi'
      simp at hg
      rw [← hg]
      exact TableExprGroupFunc.setSeqnr_seqnr f _
    · have : (acc ++ [f.setSeqnr acc.length]).length ≤ i := by simp; omega
      rw [List.getElem?_eq_none this] at hg
      exact absurd hg (by simp)

theorem TableExprGroupFuncSet.newLoop_wellNumbered {S N : Type}
    (makeGroupAggrFunc : N → Except Error (TableExprGroupFunc S)) (nodes : List N) :
    ∀ (i : Nat) (acc funcs : List (TableExprGroupFunc S)), acc.length = i →
      (∀ (j : Nat) (g : TableExprGroupFunc S), acc[j]? = some g → g.seqnr = j) →
      TableExprGroupFuncSet.newLoop makeGroupAggrFunc nodes i acc = .ok funcs →
      ∀ (j : Nat) (g : TableExprGroupFunc S), funcs[j]? = some g → g.seqnr = j := by
  induction nodes with
  | nil =>
    intro i acc funcs _ hacc hf
    simp only [TableExprGroupFuncSet.newLoop, Except.ok.injEq] at hf
    rw [← hf]
    exact hacc
  | cons n ns ih =>
    intro i acc funcs hlen hacc hf
    simp only [TableExprGroupFuncSet.newLoop] at hf
    cases hm : makeGroupAggrFunc n with
    | error e => simp [hm] at hf
    | ok f =>
      simp only [hm] at hf
      rw [← hlen, modifyAt_append_length] at hf
      exact ih (acc.length + 1) (acc ++ [f.setSeqnr acc.length]) funcs (by simp)
        (TableExprGroupFuncSet.wellNumbered_append acc f hacc) hf

theorem TableExprGroupFuncSet.add_itsFuncs {S : Type} (s : TableExprGroupFuncSet S)
    (func : TableExprGroupFunc S) :
    (s.add func).itsFuncs = s.itsFuncs ++ [func.setSeqnr s.itsFuncs.length] := by
  simp [TableExprGroupFuncSet.add, modifyAt_append_length]

theorem TableExprGroupFuncSet.reachable_wellNumbered {S : Type} (r : TableExprGroupFuncSet S)
    (h : TableExprGroupFuncSet.Reachable r) : r.wellNumbered := by
  induction h with
  | construct N make nodes s hs =>
    simp only [TableExprGroupFuncSet.new] at hs
    cases hl : TableExprGroupFuncSet.newLoop make nodes 0 [] with
    | error e => simp [hl] at hs
    | ok funcs =>
      simp only [hl, Except.ok.injEq] at hs
      rw [← hs]
      exact TableExprGroupFuncSet.newLoop_wellNumbered make nodes 0 [] funcs rfl
        (fun j g hg => by simp at hg) hl
  | add s func _ ih =>
    intro i g hg
    rw [TableExprGroupFuncSet.add_itsFuncs] at hg
    exact TableExprGroupFuncSet.wellNumbered_append s.itsFuncs func ih i g hg
  | apply s id _ ih => exact TableExprGroupFuncSet.apply_wellNumbered s id ih

/-- C13.  `TableExprGroupFuncSet::add` on a set holding n functions yields a set
holding n+1 functions: the first n are the functions of the set, unchanged and
in place, and the last is the added function with sequence number n.
Consequently in every set reached by construction followed by any number of
`add` and `apply` calls the function at position i has sequence number i. -/
theorem funcSet_add_keeps_numbering {S : Type} (s : TableExprGroupFuncSet S)
    (func : TableExprGroupFunc S) (r : TableExprGroupFuncSet S)
    (hr : TableExprGroupFuncSet.Reachable r) :
    (s.add func).itsFuncs.length = s.itsFuncs.length + 1 ∧
    (s.add func).itsFuncs = s.itsFuncs ++ [func.setSeqnr s.itsFuncs.length] ∧
    (func.setSeqnr s.itsFuncs.length).seqnr = s.itsFuncs.length ∧
    (func.setSeqnr s.itsFuncs.length).setSeqnr func.seqnr = func ∧
    (s.add func).itsId = s.itsId ∧
    r.wellNumbered := by
  refine ⟨by simp [TableExprGroupFuncSet.add_itsFuncs], TableExprGroupFuncSet.add_itsFuncs s func,
    TableExprGroupFunc.setSeqnr_seqnr func _, ?_, rfl,
    TableExprGroupFuncSet.reachable_wellNumbered r hr⟩
  cases func <;> rfl

/-- Witness of C13: the set constructed from FIRST(value) and LAST(value), to
which the row identifier list is added and rows 0 and 1 are applied. -/
theorem funcSet_add_keeps_numbering_witness :
    ∃ s0 : TableExprGroupFuncSet Unit,
      TableExprGroupFuncSet.new ExampleAggrNode.makeGroupAggrFunc
        [ExampleAggrNode.first exampleValueNode, ExampleAggrNode.last exampleValueNode]
        = .ok s0 ∧
      TableExprGroupFuncSet.Reachable
        (((s0.add ExampleAggrNode.exprId.func).apply (exampleRow 0)).2.apply (exampleRow 1)).2 ∧
      (s0.add ExampleAggrNode.exprId.func).itsFuncs.length = s0.itsFuncs.length + 1 ∧
      (s0.add ExampleAggrNode.exprId.func).itsFuncs =
        s0.itsFuncs ++ [ExampleAggrNode.exprId.func.setSeqnr s0.itsFuncs.length] ∧
      (ExampleAggrNode.exprId.func.setSeqnr s0.itsFuncs.length).seqnr = s0.itsFuncs.length ∧
      (ExampleAggrNode.exprId.func.setSeqnr s0.itsFuncs.length).setSeqnr
        ExampleAggrNode.exprId.func.seqnr = ExampleAggrNode.exprId.func ∧
      (s0.add ExampleAggrNode.exprId.func).itsId = s0.itsId ∧
      (((s0.add ExampleAggrNode.exprId.func).apply (exampleRow 0)).2.apply
        (exampleRow 1)).2.wellNumbered :=
  have hr := TableExprGroupFuncSet.Reachable.apply _ (exampleRow 1)
    (TableExprGroupFuncSet.Reachable.apply _ (exampleRow 0)
      (TableExprGroupFuncSet.Reachable.add _ ExampleAggrNode.exprId.func
        (TableExprGroupFuncSet.Reachable.construct ExampleAggrNode
          ExampleAggrNode.makeGroupAggrFunc
          [ExampleAggrNode.first exampleValueNode, ExampleAggrNode.last exampleValueNode]
          _ rfl)))
  ⟨_, rfl, hr, funcSet_add_keeps_numbering _ ExampleAggrNode.exprId.func _ hr⟩

/-! ## The result of the grouping -/

/-- C14.  The constructor of `TableExprGroupResult` from function sets and row
identifier lists succeeds exactly when the list of row identifier lists is
empty or as long as the list of function sets; it then stores both sequences
as given.  Otherwise it throws the `AipsError` of the failing assertion. -/
theorem result_new_requires_aligned_ids {S : Type} (funcSets : List (TableExprGroupFuncSet S))
    (ids : List (List TableExprId)) :
    ((∃ r, TableExprGroupResult.newWithIds funcSets ids = .ok r) ↔
      (ids = [] ∨ ids.length = funcSets.length)) ∧
    ((ids = [] ∨ ids.length = funcSets.length) →
      TableExprGroupResult.newWithIds funcSets ids =
        .ok { itsFuncSets := funcSets, itsIds := ids }) ∧
    (¬ (ids = [] ∨ ids.length = funcSets.length) →
      TableExprGroupResult.newWithIds funcSets ids =
        .error (.AipsError (assertMsg "ids.size() == funcSets.size() || ids.empty()"))) := by
  by_cases h : ids.length = funcSets.length ∨ ids.isEmpty = true
  · have h' : ids = [] ∨ ids.length = funcSets.length := by
      rcases h with h | h
      · exact Or.inr h
      · exact Or.inl (List.isEmpty_iff.mp h)
    have hv : TableExprGroupResult.newWithIds funcSets ids =
        .ok { itsFuncSets := funcSets, itsIds := ids } := by
      unfold TableExprGroupResult.newWithIds
      rw [if_pos h]
    exact ⟨⟨fun _ => h', fun _ => ⟨_, hv⟩⟩, fun _ => hv, fun hn => absurd h' hn⟩
  · have h' : ¬ (ids = [] ∨ ids.length = funcSets.length) := by
      rintro (h1 | h1)
      · exact h (Or.inr (List.isEmpty_iff.mpr h1))
      · exact h (Or.inl h1)
    have hv : TableExprGroupResult.newWithIds funcSets ids =
        .error (.AipsError (assertMsg "ids.size() == funcSets.size() || ids.empty()")) := by
      unfold TableExprGroupResult.newWithIds
      rw [if_neg h]
    refine ⟨⟨?_, fun hc => absurd hc h'⟩, fun hc => absurd hc h', fun _ => hv⟩
    rintro ⟨r, hr⟩
    rw [hv] at hr
    cases hr

/-! ## Date keys -/

/-- C15: the code at the failing input.  The keys `fill` builds for a date
expression on a row with date 1.0 and on a row with date 2.0 hold the two
doubles, and 1.0 is less than and not equal to 2.0; yet the two key sets
compare equal, and neither is less than the other. -/
theorem date_keys_compare_equal :
    TableExprGroupKeySet.ofRow [exampleDateNode] (exampleRow 0)
      = .ok (exampleDateKeySet Double.one) ∧
    TableExprGroupKeySet.ofRow [exampleDateNode] (exampleRow 1)
      = .ok (exampleDateKeySet Double.two) ∧
    Double.eq Double.one Double.two = false ∧
    Double.lt Double.one Double.two = true ∧
    (exampleDateKeySet Double.one).opEq (exampleDateKeySet Double.two) = .ok true ∧
    (exampleDateKeySet Double.one).opLt (exampleDateKeySet Double.two) = .ok false ∧
    (exampleDateKeySet Double.two).opLt (exampleDateKeySet Double.one) = .ok false := by
  refine ⟨?_, ?_, ?_, ?_, ?_, ?_, ?_⟩ <;> rfl

/-! ## Getters of First and Last -/

/-- C16.  For a `TableExprGroupFirst` and a `TableExprGroupLast` with a bound
operand, every typed getter returns the operand evaluated, through the getter
of the same type, at the captured row identifier, whatever list of row
identifiers is passed.  `apply` copies no value: it leaves the base members
(the operand among them) as they are, and a getter called after it evaluates
the operand at the identifier then captured. -/
theorem first_last_getters_evaluate_operand (f : TableExprGroupFirst) (l : TableExprGroupLast)
    (opf opl : TableExprNode) (g : Getter) (ids ids' : List TableExprId) (id : TableExprId)
    (hf : f.itsOperand = some opf) (hl : l.itsOperand = some opl) :
    f.get g ids = some (opf.get g f.itsId) ∧
    l.get g ids = some (opl.get g l.itsId) ∧
    f.get g ids = f.get g ids' ∧
    l.get g ids = l.get g ids' ∧
    (f.apply id).toTableExprGroupFuncBase = f.toTableExprGroupFuncBase ∧
    (l.apply id).toTableExprGroupFuncBase = l.toTableExprGroupFuncBase ∧
    (f.apply id).get g ids = some (opf.get g (f.apply id).itsId) ∧
    (l.apply id).get g ids = some (opl.get g id) := by
  have hbf : (f.apply id).toTableExprGroupFuncBase = f.toTableExprGroupFuncBase := by
    simp only [TableExprGroupFirst.apply]
    split <;> rfl
  have hget : ∀ (x : TableExprGroupFirst) (op : TableExprNode) (xs : List TableExprId),
      x.itsOperand = some op → x.get g xs = some (op.get g x.itsId) := by
    intro x op xs hx
    simp only [TableExprGroupFirst.get, hx, TableExprNode.get]
    cases g <;> rfl
  refine ⟨hget f opf ids hf, hget l.toTableExprGroupFirst opl ids hl, ?_, ?_, hbf, rfl, ?_, ?_⟩
  · rw [hget f opf ids hf, hget f opf ids' hf]
  · simp only [TableExprGroupLast.get]
    rw [hget l.toTableExprGroupFirst opl ids hl, hget l.toTableExprGroupFirst opl ids' hl]
  · exact hget (f.apply id) opf ids (by rw [hbf]; exact hf)
  · exact hget (l.apply id).toTableExprGroupFirst opl ids hl

/-- Witness of C16: a First holding row 2 and a Last holding row 4, both bound
to the operand whose value is ten times the row number plus ten. -/
theorem first_last_getters_evaluate_operand_witness :
    (({ itsOperand := some exampleValueNode, itsId := exampleRow 2 } :
      TableExprGroupFirst).itsOperand = some exampleValueNode) ∧
    (({ itsOperand := some exampleValueNode, itsId := exampleRow 4 } :
      TableExprGroupLast).itsOperand = some exampleValueNode) ∧
    (({ itsOperand := some exampleValueNode, itsId := exampleRow 2 } :
      TableExprGroupFirst).get Getter.getInt [exampleRow 9] = some (Value.int 30)) ∧
    (({ itsOperand := some exampleValueNode, itsId := exampleRow 4 } :
      TableExprGroupLast).get Getter.getInt [exampleRow 9] = some (Value.int 50)) :=
  have h := first_last_getters_evaluate_operand
    { itsOperand := some exampleValueNode, itsId := exampleRow 2 }
    { itsOperand := some exampleValueNode, itsId := exampleRow 4 }
    exampleValueNode exampleValueNode Getter.getInt [exampleRow 9] [] (exampleRow 5) rfl rfl
  ⟨rfl, rfl, h.1, h.2.1⟩

/-! ## The lazy functions -/

/-- C17, as amended.  `apply` of `TableExprGroupExprId` succeeds for every row
identifier and appends it to the list of row identifiers of the function.
`TableExprGroupRowid` and `TableExprGroupAggr` have no such list: their
`apply` throws TableInvExpr ("... should not be called") for every row
identifier and leaves the object as it is. -/
theorem lazy_apply_appends_or_throws (e : TableExprGroupExprId) (r : TableExprGroupRowid)
    (a : TableExprGroupAggr) (id : TableExprId) :
    (e.apply id).itsIds = e.itsIds ++ [id] ∧
    (e.apply id).toTableExprGroupFuncBase = e.toTableExprGroupFuncBase ∧
    r.apply id =
      (.error (.TableInvExpr "TableExprGroupRowid::apply should not be called"), r) ∧
    a.apply id =
      (.error (.TableInvExpr "TableExprGroupAggr::apply should not be called"), a) :=
  ⟨rfl, rfl, rfl, rfl⟩

/-- C17, as stated, fails.  `apply` of row 0 on a `TableExprGroupRowid` and on a
`TableExprGroupAggr` does not succeed: it throws. -/
theorem rowid_aggr_apply_counterexample :
    (({} : TableExprGroupRowid).apply (exampleRow 0)).1 =
      .error (.TableInvExpr "TableExprGroupRowid::apply should not be called") ∧
    (({} : TableExprGroupAggr).apply (exampleRow 0)).1 =
      .error (.TableInvExpr "TableExprGroupAggr::apply should not be called") :=
  ⟨rfl, rfl⟩

/-- C18, as amended.  `finish` does nothing, and no lazy function keeps track of
it: what a typed getter does is the same before and after `finish`.  Every
typed getter of `TableExprGroupExprId` throws "not implemented".
`getArrayInt` of `TableExprGroupRowid` returns the row numbers of the
identifiers passed to it, and its other typed getters throw "not
implemented".  The scalar getters of `TableExprGroupAggr` throw "not
implemented". -/
theorem lazy_getters_ignore_finish (e : TableExprGroupExprId) (r : TableExprGroupRowid)
    (a : TableExprGroupAggr) (g : Getter) (ids : List TableExprId) :
    (e.finish = e ∧ r.finish = r ∧ a.finish = a) ∧
    (e.get g ids =
        .error (.TableInvExpr ("TableExprGroupFuncBase::" ++ g.name ++ " not implemented")) ∧
      e.finish.get g ids = e.get g ids) ∧
    (r.get Getter.getArrayInt ids = .ok (.arrayInt (MArray.ofVector (ids.map TableExprId.rownr))) ∧
      (g ≠ Getter.getArrayInt → r.get g ids =
        .error (.TableInvExpr ("TableExprGroupFuncBase::" ++ g.name ++ " not implemented"))) ∧
      r.finish.get g ids = r.get g ids) ∧
    ((g.isScalar = true → a.get g ids = some
        (.error (.TableInvExpr ("TableExprGroupFuncBase::" ++ g.name ++ " not implemented")))) ∧
      a.finish.get g ids = a.get g ids) := by
  refine ⟨⟨rfl, rfl, rfl⟩, ⟨rfl, rfl⟩, ⟨?_, ?_, rfl⟩, ?_, rfl⟩
  · have h := (rowid_getArrayInt_data r ids)
    simp only [TableExprGroupRowid.get]
    rw [h]
  · intro hg
    cases g <;> first | rfl | exact absurd rfl hg
  · intro hg
    cases g <;> first | rfl | exact absurd hg (by decide)

/-- C18, as stated, fails.  On a `TableExprGroupRowid` on which `finish` has not
been called, `getArrayInt` for the rows 3 and 1 does not fail: it returns the
vector of the row numbers 3 and 1. -/
theorem rowid_getter_before_finish_counterexample :
    ({} : TableExprGroupRowid).get Getter.getArrayInt [exampleRow 3, exampleRow 1] =
      .ok (.arrayInt { shape := [2], mask := none, data := [3, 1] }) := by
  simp [TableExprGroupRowid.get, rowid_getArrayInt_data, MArray.ofVector, exampleRow]

/-- C19.  `TableExprGroupNull::apply` throws TableInvExpr for every row
identifier and leaves the object as it is, also when it is called through a
pointer to the base class. -/
theorem null_apply_throws {S : Type} (f : TableExprGroupNull) (id : TableExprId) :
    f.apply id =
      (.error (.TableInvExpr
        "TableExprGroupFunc::apply should not be called for  lazy aggregation"), f) ∧
    (TableExprGroupFunc.null f : TableExprGroupFunc S).apply id =
      (.error (.TableInvExpr
        "TableExprGroupFunc::apply should not be called for  lazy aggregation"),
        TableExprGroupFunc.null f) :=
  ⟨rfl, rfl⟩

/-- C20.  For two key sets with different numbers of keys, `operator==` and
`operator<` return no answer: both throw the `AipsError` of the failing
assertion. -/
theorem keySet_compare_different_length_asserts (a b : TableExprGroupKeySet)
    (h : a.itsKeys.length ≠ b.itsKeys.length) :
    a.opEq b = .error (.AipsError (assertMsg "itsKeys.size() == that.itsKeys.size()")) ∧
    a.opLt b = .error (.AipsError (assertMsg "itsKeys.size() == that.itsKeys.size()")) := by
  simp [TableExprGroupKeySet.opEq, TableExprGroupKeySet.opLt, h]

/-- Witness of C20: the key set (1.0) against the key set (1.0, 5). -/
theorem keySet_compare_different_length_asserts_witness :
    (exampleDoubleKeySet Double.one).itsKeys.length
      ≠ (exampleDoubleIntKeySet Double.one 5).itsKeys.length ∧
    (exampleDoubleKeySet Double.one).opEq (exampleDoubleIntKeySet Double.one 5) =
      .error (.AipsError (assertMsg "itsKeys.size() == that.itsKeys.size()")) ∧
    (exampleDoubleKeySet Double.one).opLt (exampleDoubleIntKeySet Double.one 5) =
      .error (.AipsError (assertMsg "itsKeys.size() == that.itsKeys.size()")) :=
  ⟨by decide, keySet_compare_different_length_asserts _ _ (by decide)⟩

/-! ## Key sets of different data types -/

/-- C21, as amended.  For two key sets of equal length `operator==` and
`operator<` return an answer whatever the data types of the keys are: the
assertion is on the number of keys only, and at every position the keys are
compared by the switch on the data type of the key of this set. -/
theorem keySet_compare_equal_length_returns (a b : TableExprGroupKeySet)
    (h : a.itsKeys.length = b.itsKeys.length) :
    a.opEq b = .ok (TableExprGroupKeySet.eqLoop a.itsKeys b.itsKeys) ∧
    a.opLt b = .ok (TableExprGroupKeySet.ltLoop a.itsKeys b.itsKeys) := by
  simp [TableExprGroupKeySet.opEq, TableExprGroupKeySet.opLt, h]

/-- Witness of C21 as amended: the key set of the string "A" against the key
set of the date 1.0. -/
theorem keySet_compare_equal_length_returns_witness :
    (exampleStringKeySet [65]).itsKeys.length = (exampleDateKeySet Double.one).itsKeys.length ∧
    (exampleStringKeySet [65]).opEq (exampleDateKeySet Double.one) =
      .ok (TableExprGroupKeySet.eqLoop (exampleStringKeySet [65]).itsKeys
        (exampleDateKeySet Double.one).itsKeys) ∧
    (exampleStringKeySet [65]).opLt (exampleDateKeySet Double.one) =
      .ok (TableExprGroupKeySet.ltLoop (exampleStringKeySet [65]).itsKeys
        (exampleDateKeySet Double.one).itsKeys) :=
  ⟨rfl, keySet_compare_equal_length_returns _ _ rfl⟩

/-- C21, as stated, fails.  The key set of the string "A" and the key set of
the date 1.0 have one key each, of different data types; `operator==` and
`operator<` do not throw but return false, and with the operands exchanged
`operator<` returns true. -/
theorem keySet_compare_mixed_types_counterexample :
    (exampleStringKeySet [65]).itsKeys.length = (exampleDateKeySet Double.one).itsKeys.length ∧
    (exampleStringKeySet [65]).itsKeys.map TableExprGroupKey.dataType
      ≠ (exampleDateKeySet Double.one).itsKeys.map TableExprGroupKey.dataType ∧
    (exampleStringKeySet [65]).opEq (exampleDateKeySet Double.one) = .ok false ∧
    (exampleStringKeySet [65]).opLt (exampleDateKeySet Double.one) = .ok false ∧
    (exampleDateKeySet Double.one).opLt (exampleStringKeySet [65]) = .ok true := by
  refine ⟨rfl, by decide, rfl, rfl, rfl⟩

/-! ## Lazy functions -/

/-- C29.  `isLazy` returns true for `TableExprGroupNull`,
`TableExprGroupExprId`, `TableExprGroupRowid` and `TableExprGroupAggr`, and
false, through the function of the base class, for `TableExprGroupFirst`,
`TableExprGroupLast` and the classes that hold a value, none of which
overrides it. -/
theorem isLazy_of_each_class (n : TableExprGroupNull) (e : TableExprGroupExprId)
    (r : TableExprGroupRowid) (a : TableExprGroupAggr) (f : TableExprGroupFirst)
    (l : TableExprGroupLast) (v : ValueFunc) (b : TableExprGroupFuncBase) :
    n.isLazy = true ∧ e.isLazy = true ∧ r.isLazy = true ∧ a.isLazy = true ∧
    f.isLazy = false ∧ l.isLazy = false ∧ v.isLazy = false ∧ b.isLazy = false :=
  ⟨rfl, rfl, rfl, rfl, rfl, rfl, rfl, rfl⟩

/-! ## First and a negative row number -/

/-- C30.  `TableExprGroupFirst::apply` looks at the sign of the captured row
number only: when it is negative the incoming identifier replaces the
captured one, otherwise the object stays as it is.  So when the first
identifier applied to a fresh First has a negative row number, the next apply
overwrites it and the First holds the second identifier. -/
theorem first_apply_decides_by_sign (node : Option AggrNodeRep) (fresh f : TableExprGroupFirst)
    (id id1 id2 : TableExprId) (hnew : TableExprGroupFirst.new node = .ok fresh)
    (hneg : id1.rownr < 0) :
    (f.itsId.rownr < 0 → (f.apply id).itsId = id) ∧
    (0 ≤ f.itsId.rownr → f.apply id = f) ∧
    (fresh.applyAll [id1]).itsId = id1 ∧
    (fresh.applyAll [id1, id2]).itsId = id2 := by
  have hf := TableExprGroupFirst.new_itsId node fresh hnew
  refine ⟨?_, ?_, ?_, ?_⟩
  · intro h
    simp [TableExprGroupFirst.apply, h]
  · intro h
    simp [TableExprGroupFirst.apply, not_lt.mpr h]
  · simp [TableExprGroupFirst.applyAll, TableExprGroupFirst.apply, hf, TableExprId.default]
  · simp [TableExprGroupFirst.applyAll, TableExprGroupFirst.apply, hf, TableExprId.default, hneg]

/-- Witness of C30: the identifier of a record, then row 3, applied to a fresh
First. -/
theorem first_apply_decides_by_sign_witness :
    ∃ fresh, TableExprGroupFirst.new (some (.aggrNode none)) = .ok fresh ∧
      (exampleRecordId 7).rownr < 0 ∧
      (fresh.applyAll [exampleRecordId 7]).itsId = exampleRecordId 7 ∧
      (fresh.applyAll [exampleRecordId 7, exampleRow 3]).itsId = exampleRow 3 :=
  have h := first_apply_decides_by_sign (some (.aggrNode none)) _
    { itsId := exampleRow 1 } (exampleRow 2) (exampleRecordId 7) (exampleRow 3) rfl (by decide)
  ⟨_, rfl, by decide, h.2.2.1, h.2.2.2⟩

/-! ## The end-to-end scenario -/

/-- C22, as amended.  The rows 0 to 4, carrying the (groupKey, value) pairs
(A,10), (B,20), (A,30), (B,40), (A,50), are streamed; the function set of each
group holds FIRST(value), LAST(value) and a `TableExprGroupExprId` that
collects the row identifiers.  The evaluation yields the groups A and B in
that order, group A with First = 10, Last = 50 and the rows 0, 2, 4, group B
with First = 20, Last = 40 and the rows 1, 3; `TableExprGroupRowid::getArrayInt`
turns these row identifiers into the row numbers [0,2,4] and [1,3]. -/
theorem scenario_first_last_rowids :
    readGroups (streamRows [exampleGroupKeyNode] ExampleAggrNode.makeGroupAggrFunc
        exampleAggrNodes exampleRows []) =
      .ok [([[65]], some (Value.int 10, Value.int 50,
              [exampleRow 0, exampleRow 2, exampleRow 4])),
           ([[66]], some (Value.int 20, Value.int 40, [exampleRow 1, exampleRow 3]))] ∧
    (({} : TableExprGroupRowid).getArrayInt [exampleRow 0, exampleRow 2, exampleRow 4]).data
      = [0, 2, 4] ∧
    (({} : TableExprGroupRowid).getArrayInt [exampleRow 1, exampleRow 3]).data = [1, 3] := by
  refine ⟨rfl, ?_, ?_⟩
  · simp [rowid_getArrayInt_data, MArray.ofVector, exampleRow]
  · simp [rowid_getArrayInt_data, MArray.ofVector, exampleRow]

/-- C22, as stated, fails.  With `TableExprGroupRowid` as the row identifier
aggregate of the function sets the evaluation yields no groups: the apply of
the first row to the function set of its group throws. -/
theorem scenario_rowid_counterexample :
    readGroups (streamRows [exampleGroupKeyNode] ExampleRowidAggrNode.makeGroupAggrFunc
        exampleRowidAggrNodes exampleRows []) =
      .error (.TableInvExpr "TableExprGroupRowid::apply should not be called") := by
  rfl

/-! ## Columns of a reference table -/

/-- C23.  For a reference table that maps the logical rows 0..k-1 to the
physical rows p0..p(k-1), `RefColumn::get` of logical row i returns what the
`get` of the referenced column returns for physical row pi, for every
i < k. -/
theorem refColumn_get_translates_row {β : Type} (c : RefColumn β) (i : Nat)
    (hi : i < c.refTabPtr_p.rowMap.length) :
    c.get i = .ok (c.colPtr_p.get (c.refTabPtr_p.rowMap.get ⟨i, hi⟩)) := by
  simp [RefColumn.get, RefTable.rootRownr, List.getElem?_eq_getElem hi]

/-- Witness of C23: logical row 1 of the view of the rows 4, 0, 2 is physical
row 0. -/
theorem refColumn_get_translates_row_witness :
    1 < exampleRefColumn.refTabPtr_p.rowMap.length ∧
    exampleRefColumn.get 1 = .ok (exampleColumn.get 0) :=
  ⟨by decide, refColumn_get_translates_row exampleRefColumn 1 (by decide)⟩

/-! ## Masked arrays -/

/-- C24.  The constructors of a `MaskedArray` from an array and a logical mask
and `setData (data, mask)` succeed exactly when the shape of the array equals
the shape of the mask, and otherwise throw `ArrayConformanceError`.  On
success the object holds the given array and a mask equal to the given mask,
the cached number of valid elements is reset, and the read-only flag is the
one given (false for the constructor without flag). -/
theorem maskedArray_new_requires_same_shape {α : Type} (m : MaskedArray α)
    (inarray : CasaArray α) (inmask : CasaArray Bool) (isreadonly : Bool) :
    (inarray.shape = inmask.shape →
      MaskedArray.new inarray inmask isreadonly =
        .ok { pArray := some inarray, pMask := some inmask, nelemValid := 0,
              nelemValidIsOK := false, isRO := isreadonly } ∧
      MaskedArray.newWritable inarray inmask =
        .ok { pArray := some inarray, pMask := some inmask, nelemValid := 0,
              nelemValidIsOK := false, isRO := false } ∧
      m.setData inarray inmask isreadonly =
        .ok { pArray := some inarray, pMask := some inmask, nelemValid := 0,
              nelemValidIsOK := false, isRO := isreadonly }) ∧
    (inarray.shape ≠ inmask.shape →
      (∃ msg, MaskedArray.new inarray inmask isreadonly =
        .error (.ArrayConformanceError msg)) ∧
      (∃ msg, MaskedArray.newWritable inarray inmask = .error (.ArrayConformanceError msg)) ∧
      (∃ msg, m.setData inarray inmask isreadonly = .error (.ArrayConformanceError msg))) := by
  constructor
  · intro h
    simp [MaskedArray.new, MaskedArray.newWritable, MaskedArray.setData, h]
  · intro h
    simp [MaskedArray.new, MaskedArray.newWritable, MaskedArray.setData, h]

theorem MaskedArray.countLoop_eq (mask : List Bool) (acc : Nat) :
    MaskedArray.countLoop mask.length mask acc = some (acc + MaskedArray.countTrue mask) := by
  induction mask generalizing acc with
  | nil => simp [MaskedArray.countLoop, MaskedArray.countTrue]
  | cons b bs ih =>
    simp only [List.length_cons, MaskedArray.countLoop]
    rw [ih]
    cases b
    · simp [MaskedArray.countTrue, List.count_cons]
    · simp [MaskedArray.countTrue, List.count_cons]; omega

/-- The position behind the last true element of a mask (0 when no element is
true), as the loop of `getCompressedArray` reaches it. -/
theorem MaskedArray.compressLoop_eq {α : Type} (mask : List Bool) :
    ∀ (arr : List α) (written : List α) (scanned : Nat), mask.length = arr.length →
      ∃ stop, MaskedArray.compressLoop mask arr (MaskedArray.countTrue mask) written scanned =
          some (written ++ MaskedArray.validElements arr mask, scanned + stop) ∧
        stop ≤ mask.length ∧
        (∀ i, stop ≤ i → mask[i]? ≠ some true) ∧
        (stop = 0 ∨ mask[stop - 1]? = some true) := by
  induction mask with
  | nil =>
    intro arr written scanned h
    cases arr with
    | nil =>
      exact ⟨0, by simp [MaskedArray.compressLoop, MaskedArray.countTrue,
        MaskedArray.validElements], by simp, by simp, Or.inl rfl⟩
    | cons x xs => simp at h
  | cons b bs ih =>
    intro arr written scanned h
    cases arr with
    | nil => simp at h
    | cons x xs =>
      have hlen : bs.length = xs.length := by simpa using h
      cases b with
      | true =>
        obtain ⟨stop, h1, h2, h3, h4⟩ := ih xs (written ++ [x]) (scanned + 1) hlen
        refine ⟨stop + 1, ?_, by simp; omega, ?_, ?_⟩
        · have hc : MaskedArray.countTrue (true :: bs) = MaskedArray.countTrue bs + 1 := by
            simp [MaskedArray.countTrue]
          rw [hc]
          simp only [MaskedArray.compressLoop, MaskedArray.validElements]
          rw [h1]
          simp
          omega
        · intro i hi
          cases i with
          | zero => omega
          | succ i => simpa using h3 i (by omega)
        · right
          rcases Nat.eq_zero_or_pos stop with h0 | h0
          · subst h0; simp
          · rcases h4 with h4 | h4
            · omega
            · have : stop + 1 - 1 = (stop - 1) + 1 := by omega
              rw [this]
              simpa using h4
      | false =>
        by_cases hc0 : MaskedArray.countTrue bs = 0
        · refine ⟨0, ?_, by simp, ?_, Or.inl rfl⟩
          · have hc : MaskedArray.countTrue (false :: bs) = 0 := by
              simpa [MaskedArray.countTrue] using hc0
            rw [hc]
            have hv : ∀ (ys : List α) (cs : List Bool), MaskedArray.countTrue cs = 0 →
                MaskedArray.validElements ys cs = [] := by
              intro ys cs
              induction cs generalizing ys with
              | nil => intro _; cases ys <;> rfl
              | cons c cs ihc =>
                intro hcs
                cases c with
                | true => simp [MaskedArray.countTrue] at hcs
                | false =>
                  have hcs' : MaskedArray.countTrue cs = 0 := by
                    simpa [MaskedArray.countTrue] using hcs
                  cases ys with
                  | nil => rfl
                  | cons y ys => simpa [MaskedArray.validElements] using ihc ys hcs'
            simp [MaskedArray.compressLoop, MaskedArray.validElements, hv xs bs hc0]
          · intro i _ hi
            have hmem : true ∈ (false :: bs) := by
              rw [List.getElem?_eq_some_iff] at hi
              obtain ⟨hlt, heq⟩ := hi
              rw [← heq]
              exact List.getElem_mem _
            have : MaskedArray.countTrue (false :: bs) ≠ 0 := by
              simp only [MaskedArray.countTrue]
              exact Nat.pos_iff_ne_zero.mp (List.count_pos_iff.mpr hmem)
            simp [MaskedArray.countTrue] at this
            exact this (by simpa [MaskedArray.countTrue] using hc0)
        · obtain ⟨stop, h1, h2, h3, h4⟩ := ih xs written (scanned + 1) hlen
          obtain ⟨k, hk⟩ := Nat.exists_eq_succ_of_ne_zero hc0
          refine ⟨stop + 1, ?_, by simp; omega, ?_, ?_⟩
          · have hc : MaskedArray.countTrue (false :: bs) = k + 1 := by
              simpa [MaskedArray.countTrue] using hk
            rw [hc]
            simp only [MaskedArray.compressLoop, MaskedArray.validElements, List.tail_cons]
            have hk' : k + 1 = MaskedArray.countTrue bs := hk.symm
            rw [hk', h1]
            simp
            omega
          · intro i hi
            cases i with
            | zero => omega
            | succ i => simpa using h3 i (by omega)
          · right
            rcases Nat.eq_zero_or_pos stop with h0 | h0
            · subst h0
              exfalso
              have hall : ∀ i, bs[i]? ≠ some true := fun i => h3 i (Nat.zero_le i)
              apply hc0
              simp only [MaskedArray.countTrue]
              rw [List.count_eq_zero]
              intro hmem
              obtain ⟨i, hi, heq⟩ := List.getElem_of_mem hmem
              exact hall i (by rw [List.getElem?_eq_getElem hi, heq])
            · rcases h4 with h4 | h4
              · omega
              · have : stop + 1 - 1 = (stop - 1) + 1 := by omega
                rw [this]
                simpa using h4

theorem MaskedArray.validElements_length {α : Type} (mask : List Bool) :
    ∀ arr : List α, mask.length = arr.length →
      (MaskedArray.validElements arr mask).length = MaskedArray.countTrue mask := by
  induction mask with
  | nil => intro arr _; cases arr <;> rfl
  | cons b bs ih =>
    intro arr h
    cases arr with
    | nil => simp at h
    | cons x xs =>
      have hlen : bs.length = xs.length := by simpa using h
      cases b
      · simpa [MaskedArray.validElements, MaskedArray.countTrue] using ih xs hlen
      · simpa [MaskedArray.validElements, MaskedArray.countTrue] using ih xs hlen

theorem MaskedArray.nelementsValid_eq {α : Type} (m : MaskedArray α) (arr : CasaArray α)
    (mask : CasaArray Bool) (harr : m.pArray = some arr) (hmask : m.pMask = some mask)
    (hlen : mask.data.length = arr.nelements)
    (hcache : m.nelemValidIsOK = true → m.nelemValid = MaskedArray.countTrue mask.data) :
    m.nelementsValid = some (MaskedArray.countTrue mask.data,
      { m with nelemValid := MaskedArray.countTrue mask.data, nelemValidIsOK := true }) := by
  cases hok : m.nelemValidIsOK with
  | true =>
    have hv := hcache hok
    have hm : ({ m with nelemValid := MaskedArray.countTrue mask.data, nelemValidIsOK := true } :
        MaskedArray α) = m := by
      cases m
      simp_all
    rw [hm]
    simp [MaskedArray.nelementsValid, hok, hv]
  | false =>
    simp only [MaskedArray.nelementsValid, hok, harr, hmask, Bool.false_eq_true, if_false]
    rw [← hlen, MaskedArray.countLoop_eq]
    simp

/-- C25, as amended.  For every `MaskedArray` that holds data (an array and a
mask of its shape, the cached number of valid elements, when set, being the
number of true mask elements), `getCompressedArray ()` returns a
one-dimensional array of length `nelementsValid ()` that contains exactly the
elements whose mask value is true, in storage order.  The scan stops behind
the last true mask element (at the start when there is none) and never reads
past the end of the data or the mask. -/
theorem getCompressedArray_valid_elements {α : Type} (m : MaskedArray α) (arr : CasaArray α)
    (mask : CasaArray Bool) (harr : m.pArray = some arr) (hmask : m.pMask = some mask)
    (hok : arr.data.length = arr.nelements) (hlen : mask.data.length = arr.nelements)
    (hcache : m.nelemValidIsOK = true → m.nelemValid = MaskedArray.countTrue mask.data) :
    ∃ (m' : MaskedArray α) (stop : Nat),
      m.nelementsValid = some (MaskedArray.countTrue mask.data, m') ∧
      m.getCompressedArray =
        some ({ shape := [MaskedArray.countTrue mask.data],
                data := MaskedArray.validElements arr.data mask.data }, m') ∧
      (MaskedArray.validElements arr.data mask.data).length = MaskedArray.countTrue mask.data ∧
      m'.pArray = m.pArray ∧ m'.pMask = m.pMask ∧
      m.getCompressedArrayScanned = some stop ∧
      stop ≤ mask.data.length ∧
      (∀ i, stop ≤ i → mask.data[i]? ≠ some true) ∧
      (stop = 0 ∨ mask.data[stop - 1]? = some true) := by
  have hml : mask.data.length = arr.data.length := by rw [hlen, hok]
  obtain ⟨stop, hs1, hs2, hs3, hs4⟩ := MaskedArray.compressLoop_eq mask.data arr.data [] 0 hml
  have hn := MaskedArray.nelementsValid_eq m arr mask harr hmask hlen hcache
  obtain ⟨pA, pM, nv, nok, ro⟩ := m
  simp only at harr hmask
  subst harr hmask
  refine ⟨_, stop, hn, ?_, MaskedArray.validElements_length mask.data arr.data hml, rfl, rfl, ?_,
    hs2, hs3, hs4⟩
  · simp only [MaskedArray.getCompressedArray, hn]
    simp [MaskedArray.nelementsValid, hs1]
  · simp only [MaskedArray.getCompressedArrayScanned, hn]
    simp [MaskedArray.nelementsValid, hs1]

/-- Witness of C25 as amended: the masked vector 10, 20, 30, 40, 50 with the
first, third and fourth element valid. -/
theorem getCompressedArray_valid_elements_witness :
    ∃ (m' : MaskedArray Nat) (stop : Nat),
      exampleMaskedArray.nelementsValid = some (3, m') ∧
      exampleMaskedArray.getCompressedArray =
        some ({ shape := [3], data := [10, 30, 40] }, m') ∧
      exampleMaskedArray.getCompressedArrayScanned = some stop ∧
      stop ≤ 5 :=
  have h := getCompressedArray_valid_elements exampleMaskedArray
    { shape := [5], data := [10, 20, 30, 40, 50] }
    { shape := [5], data := [true, false, true, true, false] } rfl rfl rfl rfl
    (fun h => by simp [exampleMaskedArray] at h)
  match h with
  | ⟨m', stop, h1, h2, _, _, _, h6, h7, _, _⟩ => ⟨m', stop, h1, h2, h6, h7⟩

/-- C25, as stated, fails.  A default-constructed `MaskedArray` holds no data:
`nelementsValid ()` and `getCompressedArray ()` go through its null pointers
and return nothing. -/
theorem getCompressedArray_empty_counterexample :
    (MaskedArray.empty : MaskedArray Nat).nelementsValid = none ∧
    (MaskedArray.empty : MaskedArray Nat).getCompressedArray = none :=
  ⟨rfl, rfl⟩


namespace LECanonicalConversion

theorem leValue_lt (bs : List (Fin 256)) : leValue bs < 2 ^ (8 * bs.length) := by
  induction bs with
  | nil => simp [leValue]
  | cons b bs ih =>
    have hb := b.isLt
    have e : 2 ^ (8 * (b :: bs).length) = 256 * 2 ^ (8 * bs.length) := by
      rw [List.length_cons, Nat.mul_succ, pow_add]
      norm_num [mul_comm]
    rw [e]
    simp only [leValue]
    omega

theorem leBytes_length (n x : Nat) : (leBytes n x).length = n := by
  induction n generalizing x with
  | zero => rfl
  | succ n ih => simp [leBytes, ih]

theorem leBytes_leValue (bs : List (Fin 256)) : leBytes bs.length (leValue bs) = bs := by
  induction bs with
  | nil => rfl
  | cons b bs ih =>
    have hb := b.isLt
    have h1 : (b.val + 256 * leValue bs) % 256 = b.val := by omega
    have h2 : (b.val + 256 * leValue bs) / 256 = leValue bs := by omega
    simp only [List.length_cons, leValue, leBytes, h1, h2, ih]

theorem leValue_leBytes (n x : Nat) : leValue (leBytes n x) = x % 2 ^ (8 * n) := by
  induction n generalizing x with
  | zero => simp [leBytes, leValue, Nat.mod_one]
  | succ n ih =>
    have e : 2 ^ (8 * (n + 1)) = 256 * 2 ^ (8 * n) := by
      rw [Nat.mul_succ, pow_add]
      norm_num [mul_comm]
    simp only [leBytes, leValue, ih, e]
    rw [Nat.mod_mul]

theorem leBytes_getElem? (n x i : Nat) (h : i < n) :
    ((leBytes n x)[i]?).map Fin.val = some ((x >>> (8 * i)) % 256) := by
  induction n generalizing x i with
  | zero => omega
  | succ n ih =>
    cases i with
    | zero => simp [leBytes]
    | succ i =>
      simp only [leBytes, List.getElem?_cons_succ]
      rw [ih (x / 256) i (by omega)]
      congr 2
      rw [Nat.shiftRight_eq_div_pow, Nat.shiftRight_eq_div_pow, Nat.div_div_eq_div_mul,
        Nat.mul_succ, pow_add]
      norm_num [mul_comm]
theorem testBit_byteMask (s i : Nat) :
    (255 <<< s).testBit i = (decide (s ≤ i) && decide (i < s + 8)) := by
  rw [Nat.testBit_shiftLeft]
  have h : (255 : Nat) = 2 ^ 8 - 1 := by norm_num
  rw [h, Nat.testBit_two_pow_sub_one]
  by_cases h1 : s ≤ i <;> by_cases h2 : i < s + 8 <;> simp [h1, h2] <;> omega

theorem testBit_mod_pow (y n i : Nat) : (y % 2 ^ n).testBit i = (decide (i < n) && y.testBit i) :=
  Nat.testBit_mod_two_pow y n i

theorem swapExpr2_byte (x : Nat) (hx : x < 2 ^ 16) (j : Nat) (hj : j < 2) :
    (swapExpr2 x >>> (8 * j)) % 256 = (x >>> (8 * (1 - j))) % 256 := by
  have hhi : ∀ k, 16 ≤ k → x.testBit k = false := fun k hk =>
    Nat.testBit_lt_two_pow (lt_of_lt_of_le hx (Nat.pow_le_pow_right (by norm_num) hk))
  have m0 : ∀ i, (255 : Nat).testBit i = (decide (0 ≤ i) && decide (i < 0 + 8)) := testBit_byteMask 0
  have e8 : (256 : Nat) = 2 ^ 8 := by norm_num
  have e16 : (65536 : Nat) = 2 ^ 16 := by norm_num
  unfold swapExpr2
  rw [e8, e16]
  apply Nat.eq_of_testBit_eq
  intro i
  simp only [testBit_mod_pow, Nat.testBit_shiftRight, Nat.testBit_or, Nat.testBit_and,
    Nat.testBit_shiftLeft, m0]
  by_cases hi : i < 8
  · interval_cases j <;> interval_cases i <;> simp [hhi]
  · simp [hi]

theorem swapExpr4_byte (x : Nat) (hx : x < 2 ^ 32) (j : Nat) (hj : j < 4) :
    (swapExpr4 x >>> (8 * j)) % 256 = (x >>> (8 * (3 - j))) % 256 := by
  have hhi : ∀ k, 32 ≤ k → x.testBit k = false := fun k hk =>
    Nat.testBit_lt_two_pow (lt_of_lt_of_le hx (Nat.pow_le_pow_right (by norm_num) hk))
  have m0 : ∀ i, (255 : Nat).testBit i = (decide (0 ≤ i) && decide (i < 0 + 8)) := testBit_byteMask 0
  have m1 : ∀ i, (0xff00 : Nat).testBit i = (decide (8 ≤ i) && decide (i < 8 + 8)) := testBit_byteMask 8
  have m2 : ∀ i, (0xff0000 : Nat).testBit i = (decide (16 ≤ i) && decide (i < 16 + 8)) := testBit_byteMask 16
  have e8 : (256 : Nat) = 2 ^ 8 := by norm_num
  have e32 : (4294967296 : Nat) = 2 ^ 32 := by norm_num
  unfold swapExpr4
  rw [e8, e32]
  apply Nat.eq_of_testBit_eq
  intro i
  simp only [testBit_mod_pow, Nat.testBit_shiftRight, Nat.testBit_or, Nat.testBit_and,
    Nat.testBit_shiftLeft, m0, m1, m2]
  by_cases hi : i < 8
  · interval_cases j <;> interval_cases i <;> simp [hhi]
  · simp [hi]

theorem swapExpr8_byte (x : Nat) (hx : x < 2 ^ 64) (j : Nat) (hj : j < 8) :
    (swapExpr8 x >>> (8 * j)) % 256 = (x >>> (8 * (7 - j))) % 256 := by
  have hhi : ∀ k, 64 ≤ k → x.testBit k = false := fun k hk =>
    Nat.testBit_lt_two_pow (lt_of_lt_of_le hx (Nat.pow_le_pow_right (by norm_num) hk))
  have m0 : ∀ i, (255 : Nat).testBit i = (decide (0 ≤ i) && decide (i < 0 + 8)) := testBit_byteMask 0
  have m1 : ∀ i, (0xff00 : Nat).testBit i = (decide (8 ≤ i) && decide (i < 8 + 8)) := testBit_byteMask 8
  have m2 : ∀ i, (0xff0000 : Nat).testBit i = (decide (16 ≤ i) && decide (i < 16 + 8)) := testBit_byteMask 16
  have m3 : ∀ i, (0xff000000 : Nat).testBit i = (decide (24 ≤ i) && decide (i < 24 + 8)) := testBit_byteMask 24
  have m4 : ∀ i, (0xff00000000 : Nat).testBit i = (decide (32 ≤ i) && decide (i < 32 + 8)) := testBit_byteMask 32
  have m5 : ∀ i, (0xff0000000000 : Nat).testBit i = (decide (40 ≤ i) && decide (i < 40 + 8)) := testBit_byteMask 40
  have m6 : ∀ i, (0xff000000000000 : Nat).testBit i = (decide (48 ≤ i) && decide (i < 48 + 8)) := testBit_byteMask 48
  have e8 : (256 : Nat) = 2 ^ 8 := by norm_num
  have e64 : (18446744073709551616 : Nat) = 2 ^ 64 := by norm_num
  unfold swapExpr8
  rw [e8, e64]
  apply Nat.eq_of_testBit_eq
  intro i
  simp only [testBit_mod_pow, Nat.testBit_shiftRight, Nat.testBit_or, Nat.testBit_and,
    Nat.testBit_shiftLeft, m0, m1, m2, m3, m4, m5, m6]
  by_cases hi : i < 8
  · interval_cases j <;> interval_cases i <;> simp [hhi]
  · simp [hi]

theorem leBytes_reverse_of_byte (n x y : Nat)
    (h : ∀ j, j < n → (y >>> (8 * j)) % 256 = (x >>> (8 * (n - 1 - j))) % 256) :
    leBytes n y = (leBytes n x).reverse := by
  apply List.ext_getElem?
  intro i
  by_cases hi : i < n
  · apply Option.map_injective Fin.val_injective
    rw [List.getElem?_reverse (by rw [leBytes_length]; exact hi), leBytes_length,
      leBytes_getElem? n y i hi, leBytes_getElem? n x (n - 1 - i) (by omega), h i hi]
  · rw [List.getElem?_eq_none (by rw [leBytes_length]; omega),
      List.getElem?_eq_none (by rw [List.length_reverse, leBytes_length]; omega)]

theorem swapExpr2_eq (x : Nat) (hx : x < 2 ^ 16) :
    swapExpr2 x = leValue (leBytes 2 x).reverse := by
  rw [← leBytes_reverse_of_byte 2 x (swapExpr2 x) (fun j hj => swapExpr2_byte x hx j hj),
    leValue_leBytes]
  unfold swapExpr2
  norm_num

theorem swapExpr4_eq (x : Nat) (hx : x < 2 ^ 32) : swapExpr4 x = bswap32 x := by
  unfold bswap32
  rw [← leBytes_reverse_of_byte 4 x (swapExpr4 x) (fun j hj => swapExpr4_byte x hx j hj),
    leValue_leBytes]
  unfold swapExpr4
  norm_num

theorem swapExpr8_eq (x : Nat) (hx : x < 2 ^ 64) : swapExpr8 x = bswap64 x := by
  unfold bswap64
  rw [← leBytes_reverse_of_byte 8 x (swapExpr8 x) (fun j hj => swapExpr8_byte x hx j hj),
    leValue_leBytes]
  unfold swapExpr8
  norm_num

/-- Loading `bs`, reversing the bytes of the value and storing it gives `bs` reversed, on a host
of either byte order. -/
theorem store_swap_load (hostBigEndian : Bool) (bs : List (Fin 256)) :
    store hostBigEndian bs.length (leValue (leBytes bs.length (load hostBigEndian bs)).reverse)
      = bs.reverse := by
  cases hostBigEndian
  · simp only [load, store, Bool.false_eq_true, if_false]
    rw [leBytes_leValue]
    have h := leBytes_leValue bs.reverse
    rw [List.length_reverse] at h
    exact h
  · simp only [load, store, if_true]
    have h := leBytes_leValue bs.reverse
    rw [List.length_reverse] at h
    rw [h, List.reverse_reverse, leBytes_leValue]

theorem load_lt (hostBigEndian : Bool) (bs : List (Fin 256)) :
    load hostBigEndian bs < 2 ^ (8 * bs.length) := by
  cases hostBigEndian
  · simpa [load] using leValue_lt bs
  · have h := leValue_lt bs.reverse
    rw [List.length_reverse] at h
    simpa [load] using h

theorem reverse2_eq (hostBigEndian : Bool) (src : List (Fin 256)) (h : 2 ≤ src.length) :
    reverse2 hostBigEndian src = some (src.take 2).reverse := by
  have hl : (src.take 2).length = 2 := by rw [List.length_take]; omega
  have hlt := load_lt hostBigEndian (src.take 2)
  rw [hl] at hlt
  have hs := store_swap_load hostBigEndian (src.take 2)
  rw [hl] at hs
  unfold reverse2
  rw [if_neg (by omega)]
  simp only [swapExpr2_eq _ hlt, hs]

theorem reverse4_eq (hostBigEndian gnuBuiltin : Bool) (src : List (Fin 256))
    (h : 4 ≤ src.length) :
    reverse4 hostBigEndian gnuBuiltin src = some (src.take 4).reverse := by
  have hl : (src.take 4).length = 4 := by rw [List.length_take]; omega
  have hlt := load_lt hostBigEndian (src.take 4)
  rw [hl] at hlt
  have hs := store_swap_load hostBigEndian (src.take 4)
  rw [hl] at hs
  unfold reverse4
  rw [if_neg (by omega)]
  simp only [swapExpr4_eq _ hlt, ite_self]
  unfold bswap32
  rw [hs]

theorem reverse8_eq (hostBigEndian gnuBuiltin : Bool) (src : List (Fin 256))
    (h : 8 ≤ src.length) :
    reverse8 hostBigEndian gnuBuiltin src = some (src.take 8).reverse := by
  have hl : (src.take 8).length = 8 := by rw [List.length_take]; omega
  have hlt := load_lt hostBigEndian (src.take 8)
  rw [hl] at hlt
  have hs := store_swap_load hostBigEndian (src.take 8)
  rw [hl] at hs
  unfold reverse8
  rw [if_neg (by omega)]
  simp only [swapExpr8_eq _ hlt, ite_self]
  unfold bswap64
  rw [hs]

theorem take_reverse_getElem? (n : Nat) (src : List (Fin 256)) (h : n ≤ src.length) (i : Nat)
    (hi : i < n) : (src.take n).reverse[i]? = src[n - 1 - i]? := by
  have hl : (src.take n).length = n := by rw [List.length_take]; omega
  rw [List.getElem?_reverse (by rw [hl]; exact hi), hl, List.getElem?_take]
  rw [if_pos (by omega)]

theorem objectOf_length (t : LocalType) (b : Bool) (v : Int) :
    (t.objectOf b v).length = t.sizeof := by
  cases b <;> simp [LocalType.objectOf, store, leBytes_length]

theorem fromLocal_size (le be gnu : Bool) (t : LocalType) (v : Int) :
    (fromLocal le be gnu t v).map Prod.fst
      = some (if t = LocalType.double then SIZE_LECAN_FLOAT else canonicalSize t) := by
  cases t <;> cases le <;>
    simp [fromLocal, canonicalSize, reverse2_eq, reverse4_eq, reverse8_eq, move2, move4, move8,
      objectOf_length, LocalType.sizeof]

theorem toLocal_size (le be gnu : Bool) (t : LocalType) (src : List (Fin 256))
    (h : canonicalSize t ≤ src.length) :
    (toLocal le be gnu t src).map Prod.fst = some (canonicalSize t) := by
  cases t <;> cases le <;>
    simp only [canonicalSize, SIZE_LECAN_CHAR, SIZE_LECAN_UCHAR, SIZE_LECAN_SHORT,
      SIZE_LECAN_USHORT, SIZE_LECAN_INT, SIZE_LECAN_UINT, SIZE_LECAN_INT64, SIZE_LECAN_UINT64,
      SIZE_LECAN_FLOAT, SIZE_LECAN_DOUBLE] at h <;>
    first
    | (cases src with
        | nil => simp at h
        | cons b bs => simp [toLocal, canonicalSize])
    | simp [toLocal, canonicalSize, reverse2_eq, reverse4_eq, reverse8_eq, move2, move4, move8, h,
        Nat.not_lt.mpr h]

end LECanonicalConversion

/-- C26: `reverse2`, `reverse4` and `reverse8` return, and write 2, 4 or 8 bytes of which byte
`i` is input byte `N - 1 - i`, whatever the byte order of the host and whichever of the compiler
builtin and the shift-and-mask expression is compiled in; and for every value of the unsigned
type, byte `j` of the shift-and-mask expression is byte `N - 1 - j` of its argument. -/
theorem reverse_writes_bytes_reversed (hostBigEndian gnuBuiltin : Bool)
    (src : List (Fin 256)) :
    (2 ≤ src.length → ∃ out, LECanonicalConversion.reverse2 hostBigEndian src = some out ∧
      out.length = 2 ∧ ∀ i, i < 2 → out[i]? = src[2 - 1 - i]?) ∧
    (4 ≤ src.length →
      ∃ out, LECanonicalConversion.reverse4 hostBigEndian gnuBuiltin src = some out ∧
        out.length = 4 ∧ ∀ i, i < 4 → out[i]? = src[4 - 1 - i]?) ∧
    (8 ≤ src.length →
      ∃ out, LECanonicalConversion.reverse8 hostBigEndian gnuBuiltin src = some out ∧
        out.length = 8 ∧ ∀ i, i < 8 → out[i]? = src[8 - 1 - i]?) ∧
    (∀ x j, x < 2 ^ 16 → j < 2 →
      (LECanonicalConversion.swapExpr2 x >>> (8 * j)) % 256 = (x >>> (8 * (1 - j))) % 256) ∧
    (∀ x j, x < 2 ^ 32 → j < 4 →
      (LECanonicalConversion.swapExpr4 x >>> (8 * j)) % 256 = (x >>> (8 * (3 - j))) % 256) ∧
    (∀ x j, x < 2 ^ 64 → j < 8 →
      (LECanonicalConversion.swapExpr8 x >>> (8 * j)) % 256 = (x >>> (8 * (7 - j))) % 256) := by
  refine ⟨fun h => ⟨_, LECanonicalConversion.reverse2_eq hostBigEndian src h, ?_,
      fun i hi => LECanonicalConversion.take_reverse_getElem? 2 src h i hi⟩,
    fun h => ⟨_, LECanonicalConversion.reverse4_eq hostBigEndian gnuBuiltin src h, ?_,
      fun i hi => LECanonicalConversion.take_reverse_getElem? 4 src h i hi⟩,
    fun h => ⟨_, LECanonicalConversion.reverse8_eq hostBigEndian gnuBuiltin src h, ?_,
      fun i hi => LECanonicalConversion.take_reverse_getElem? 8 src h i hi⟩,
    fun x j hx hj => LECanonicalConversion.swapExpr2_byte x hx j hj,
    fun x j hx hj => LECanonicalConversion.swapExpr4_byte x hx j hj,
    fun x j hx hj => LECanonicalConversion.swapExpr8_byte x hx j hj⟩
  · rw [List.length_reverse, List.length_take]; omega
  · rw [List.length_reverse, List.length_take]; omega
  · rw [List.length_reverse, List.length_take]; omega

/-- Witness of C26: on a big-endian host without the builtin, `reverse4` of the bytes
12 34 56 78 returns, and `reverse8` of 01 23 45 67 89 ab cd ef on a little-endian host with it. -/
theorem reverse_writes_bytes_reversed_witness :
    (∃ out, LECanonicalConversion.reverse4 true false LECanonicalConversion.exampleBytes4
        = some out ∧ out.length = 4 ∧
        ∀ i, i < 4 → out[i]? = LECanonicalConversion.exampleBytes4[4 - 1 - i]?) ∧
    LECanonicalConversion.reverse4 true false LECanonicalConversion.exampleBytes4
      = some [0x78, 0x56, 0x34, 0x12] ∧
    LECanonicalConversion.reverse2 false LECanonicalConversion.exampleBytes2
      = some [0x34, 0x12] ∧
    LECanonicalConversion.reverse8 false true LECanonicalConversion.exampleBytes8
      = some [0xef, 0xcd, 0xab, 0x89, 0x67, 0x45, 0x23, 0x01] :=
  ⟨(reverse_writes_bytes_reversed true false LECanonicalConversion.exampleBytes4).2.1
      (by decide), by decide, by decide, by decide⟩

/-- C27: `fromLocal` of a `double` writes the 8 bytes of the value but returns
`SIZE_LECAN_FLOAT`, 4, where `canonicalSize` reports 8 and `toLocal` of a `double` returns 8.
Every other `fromLocal` and every `toLocal` returns the canonical size of its type, and the
canonical sizes are 1, 1, 2, 2, 4, 4, 8, 8, 4 and 8. -/
theorem fromLocal_double_returns_float_size :
    LECanonicalConversion.fromLocal true false true LECanonicalConversion.LocalType.double
        LECanonicalConversion.exampleDoubleBits
      = some (4, [0, 0, 0, 0, 0, 0, 0xf0, 0x3f]) ∧
    LECanonicalConversion.canonicalSize LECanonicalConversion.LocalType.double = 8 ∧
    LECanonicalConversion.toLocal true false true LECanonicalConversion.LocalType.double
        [0, 0, 0, 0, 0, 0, 0xf0, 0x3f]
      = some (8, LECanonicalConversion.exampleDoubleBits) ∧
    (∀ le be gnu v,
      (LECanonicalConversion.fromLocal le be gnu LECanonicalConversion.LocalType.double v).map
        Prod.fst = some 4) ∧
    (∀ le be gnu t v, t ≠ LECanonicalConversion.LocalType.double →
      (LECanonicalConversion.fromLocal le be gnu t v).map Prod.fst
        = some (LECanonicalConversion.canonicalSize t)) ∧
    (∀ le be gnu t src, LECanonicalConversion.canonicalSize t ≤ src.length →
      (LECanonicalConversion.toLocal le be gnu t src).map Prod.fst
        = some (LECanonicalConversion.canonicalSize t)) ∧
    [LECanonicalConversion.LocalType.char, .uChar, .short, .uShort, .int, .uInt, .int64,
        .uInt64, .float, .double].map LECanonicalConversion.canonicalSize
      = [1, 1, 2, 2, 4, 4, 8, 8, 4, 8] := by
  refine ⟨by decide, by decide, by decide, ?_, ?_, ?_, by decide⟩
  · intro le be gnu v
    rw [LECanonicalConversion.fromLocal_size, if_pos rfl]
    rfl
  · intro le be gnu t v ht
    rw [LECanonicalConversion.fromLocal_size, if_neg ht]
  · intro le be gnu t src h
    exact LECanonicalConversion.toLocal_size le be gnu t src h


namespace MSAntennaParse

theorem addBaselineLoop_true (ant1 ant2 : Int) (baselist : List (Int × Int))
    (h : addBaselineLoop ant1 ant2 baselist = true) :
    ∀ row ∈ baselist, samePair row (ant1, ant2) = false := by
  induction baselist with
  | nil => intro row hrow; cases hrow
  | cons r rest ih =>
    unfold addBaselineLoop at h
    split at h
    · cases h
    · rename_i hne
      intro row hrow
      rcases List.mem_cons.mp hrow with rfl | hmem
      · simpa [samePair] using hne
      · exact ih h row hmem

theorem addBaseline_loop (baselist : List (Int × Int)) (ant1 ant2 : Int)
    (autoCorr : BaselineListType) (h : addBaseline baselist ant1 ant2 autoCorr = true) :
    addBaselineLoop ant1 ant2 baselist = true := by
  unfold addBaseline at h
  simp only at h
  split at h
  · cases h
  · split at h
    · cases h
    · exact h

theorem uniqueBaselines_append (baselist : List (Int × Int)) (ant1 ant2 : Int)
    (autoCorr : BaselineListType) (hu : uniqueBaselines baselist)
    (h : addBaseline baselist ant1 ant2 autoCorr = true) :
    uniqueBaselines (baselist ++ [(ant1, ant2)]) := by
  unfold uniqueBaselines at *
  rw [List.pairwise_append]
  refine ⟨hu, List.pairwise_singleton _ _, ?_⟩
  intro row hrow q hq
  rw [List.mem_singleton] at hq
  subst hq
  exact addBaselineLoop_true ant1 ant2 baselist (addBaseline_loop baselist ant1 ant2 autoCorr h)
    row hrow

theorem admittedRows_append (a1 a2 : List Int) (autoCorr : BaselineListType)
    (baselist x y : List (Int × Int)) (hx : admittedRows a1 a2 autoCorr baselist x)
    (hy : admittedRows a1 a2 autoCorr (baselist ++ x) y) :
    admittedRows a1 a2 autoCorr baselist (x ++ y) := by
  induction x generalizing baselist with
  | nil => simpa using hy
  | cons p rest ih =>
    obtain ⟨h1, h2, h3, h4⟩ := hx
    refine ⟨h1, h2, h3, ih (baselist ++ [p]) h4 ?_⟩
    simpa [List.append_assoc] using hy

theorem makeBaselineListInner_spec (a1 a2 : List Int) (autoCorr : BaselineListType)
    (ant1 : Int) (h1 : ant1 ∈ a1) (rest : List Int) (hrest : ∀ x ∈ rest, x ∈ a2)
    (baselist : List (Int × Int)) (hu : uniqueBaselines baselist) :
    ∃ added, makeBaselineListInner ant1 autoCorr rest baselist = baselist ++ added ∧
      admittedRows a1 a2 autoCorr baselist added ∧ uniqueBaselines (baselist ++ added) := by
  induction rest generalizing baselist with
  | nil => exact ⟨[], by simp [makeBaselineListInner], trivial, by simpa using hu⟩
  | cons ant2 rest ih =>
    have hrest' : ∀ x ∈ rest, x ∈ a2 := fun x hx => hrest x (List.mem_cons_of_mem _ hx)
    unfold makeBaselineListInner
    by_cases hadd : addBaseline baselist ant1 ant2 autoCorr = true
    · rw [if_pos hadd]
      obtain ⟨added, e, ha, hu'⟩ := ih hrest' (baselist ++ [(ant1, ant2)])
        (uniqueBaselines_append baselist ant1 ant2 autoCorr hu hadd)
      refine ⟨(ant1, ant2) :: added, ?_, ⟨h1, hrest ant2 (List.mem_cons_self _ _), hadd, ha⟩, ?_⟩
      · rw [e, List.append_assoc]; rfl
      · rw [List.append_assoc] at hu'; exact hu'
    · rw [if_neg hadd]
      exact ih hrest' baselist hu

theorem makeBaselineListOuter_spec (a1 a2 : List Int) (autoCorr : BaselineListType)
    (rest : List Int) (hrest : ∀ x ∈ rest, x ∈ a1)
    (baselist : List (Int × Int)) (hu : uniqueBaselines baselist) :
    ∃ added, makeBaselineListOuter a2 autoCorr rest baselist = baselist ++ added ∧
      admittedRows a1 a2 autoCorr baselist added ∧ uniqueBaselines (baselist ++ added) := by
  induction rest generalizing baselist with
  | nil => exact ⟨[], by simp [makeBaselineListOuter], trivial, by simpa using hu⟩
  | cons ant1 rest ih =>
    have hrest' : ∀ x ∈ rest, x ∈ a1 := fun x hx => hrest x (List.mem_cons_of_mem _ hx)
    obtain ⟨x, ex, hax, hux⟩ := makeBaselineListInner_spec a1 a2 autoCorr ant1
      (hrest ant1 (List.mem_cons_self _ _)) a2 (fun _ h => h) baselist hu
    obtain ⟨y, ey, hay, huy⟩ := ih hrest' (baselist ++ x) hux
    unfold makeBaselineListOuter
    rw [ex, ey]
    refine ⟨x ++ y, by rw [List.append_assoc],
      admittedRows_append a1 a2 autoCorr baselist x y hax hay, ?_⟩
    rw [← List.append_assoc]; exact huy

theorem admittedRows_getElem? (a1 a2 : List Int) (autoCorr : BaselineListType)
    (baselist added : List (Int × Int)) (h : admittedRows a1 a2 autoCorr baselist added)
    (k : Nat) (p : Int × Int) (hk : added[k]? = some p) :
    p.1 ∈ a1 ∧ p.2 ∈ a2 ∧ addBaseline (baselist ++ added.take k) p.1 p.2 autoCorr = true := by
  induction added generalizing baselist k with
  | nil => simp at hk
  | cons q rest ih =>
    obtain ⟨h1, h2, h3, h4⟩ := h
    cases k with
    | zero =>
      simp only [List.getElem?_cons_zero, Option.some.injEq] at hk
      subst hk
      simpa using ⟨h1, h2, h3⟩
    | succ k =>
      simp only [List.getElem?_cons_succ] at hk
      have := ih (baselist ++ [q]) h4 k hk
      simpa [List.append_assoc] using this

end MSAntennaParse

/-- C28: for every baseline list with no two rows the same unordered antenna pair and all
antenna lists `a1` and `a2`, `makeBaselineList` leaves the existing rows unchanged as a prefix;
each appended row is a pair of an element of `a1` and an element of `a2` that `addBaseline`
admitted, for the given auto-correlation setting, to the list as it stood before that row; and
the resulting list again has no two rows that are the same unordered pair. -/
theorem makeBaselineList_unique (a1 a2 : List Int) (baselist : List (Int × Int))
    (autoCorr : MSAntennaParse.BaselineListType) (negate : Bool)
    (hu : MSAntennaParse.uniqueBaselines baselist) :
    ∃ added, MSAntennaParse.makeBaselineList a1 a2 baselist autoCorr negate = baselist ++ added ∧
      (∀ (k : Nat) (p : Int × Int), added[k]? = some p →
        p.1 ∈ a1 ∧ p.2 ∈ a2 ∧
          MSAntennaParse.addBaseline (baselist ++ added.take k) p.1 p.2 autoCorr = true) ∧
      MSAntennaParse.uniqueBaselines
        (MSAntennaParse.makeBaselineList a1 a2 baselist autoCorr negate) := by
  obtain ⟨added, e, ha, hu'⟩ := MSAntennaParse.makeBaselineListOuter_spec a1 a2 autoCorr a1
    (fun _ h => h) baselist hu
  refine ⟨added, e, fun k p hk =>
    MSAntennaParse.admittedRows_getElem? a1 a2 autoCorr baselist added ha k p hk, ?_⟩
  unfold MSAntennaParse.makeBaselineList
  rw [e]
  exact hu'

/-- Witness of C28: the antennas 0, 1, 2 against 1, 2 with auto-correlations also, added to the
baselines (0, 1) and (2, 0). -/
theorem makeBaselineList_unique_witness :
    MSAntennaParse.uniqueBaselines MSAntennaParse.exampleBaselist ∧
    MSAntennaParse.makeBaselineList [0, 1, 2] [1, 2] MSAntennaParse.exampleBaselist
        MSAntennaParse.BaselineListType.AutoCorrAlso false
      = MSAntennaParse.exampleBaselist ++ [(1, 1), (1, 2), (2, 2)] ∧
    ∃ added, MSAntennaParse.makeBaselineList [0, 1, 2] [1, 2] MSAntennaParse.exampleBaselist
        MSAntennaParse.BaselineListType.AutoCorrAlso false
        = MSAntennaParse.exampleBaselist ++ added ∧
      (∀ (k : Nat) (p : Int × Int), added[k]? = some p →
        p.1 ∈ [0, 1, 2] ∧ p.2 ∈ [1, 2] ∧
          MSAntennaParse.addBaseline (MSAntennaParse.exampleBaselist ++ added.take k) p.1 p.2
            MSAntennaParse.BaselineListType.AutoCorrAlso = true) ∧
      MSAntennaParse.uniqueBaselines
        (MSAntennaParse.makeBaselineList [0, 1, 2] [1, 2] MSAntennaParse.exampleBaselist
          MSAntennaParse.BaselineListType.AutoCorrAlso false) :=
  ⟨by decide, by decide,
    makeBaselineList_unique [0, 1, 2] [1, 2] MSAntennaParse.exampleBaselist
      MSAntennaParse.BaselineListType.AutoCorrAlso false (by decide)⟩


/-! ## The empty accumulator of the array aggregates -/

theorem checkShapeBody_empty {α : Type} (fill : α) (itsValue : MArray α) (arr : MArrayBase)
    (func : String) (h : itsValue.empty = true) :
    checkShapeBody fill itsValue arr func
      = (.ok true, itsValue.resize fill arr.shape arr.hasMask) := by
  simp [checkShapeBody, h]

theorem checkShapeBody_nonempty {α : Type} (fill : α) (itsValue : MArray α) (arr : MArrayBase)
    (func : String) (h : itsValue.empty = false) :
    (checkShapeBody fill itsValue arr func).1 ≠ .ok true ∧
    (checkShapeBody fill itsValue arr func).2 = itsValue ∧
    (itsValue.shape = arr.shape → arr.hasMask = itsValue.hasMask →
      checkShapeBody fill itsValue arr func = (.ok false, itsValue)) := by
  unfold checkShapeBody
  rw [h]
  simp only [Bool.false_eq_true, if_false]
  by_cases hs : itsValue.shape = arr.shape
  · by_cases hm : arr.hasMask = itsValue.hasMask
    · simp [IPosition.isEqual, hs, hm]
    · simp [IPosition.isEqual, hs, hm]
  · simp [IPosition.isEqual, hs]

theorem MArray.resize_shape_hasMask {α : Type} (a : MArray α) (fill : α) (shape : IPosition)
    (useMask : Bool) :
    (a.resize fill shape useMask).shape = shape ∧
    (a.resize fill shape useMask).hasMask = useMask := by
  cases useMask <;> simp [MArray.resize, MArrayBase.hasMask]

/-- C31.  The body shared by the `checkShape` functions of the array aggregates returns True
exactly when the accumulated value has no elements before the call; it then resizes the
accumulator to the shape and the mask flag of the incoming array, whatever the shapes are.  When
the accumulator has elements the accumulator stays as it is, and when moreover the shapes and the
mask flags agree the call returns False.  The `checkShape` of each of the six classes is that
body applied to its `itsValue`. -/
theorem checkShape_true_iff_accumulator_empty {α : Type} (fill : α) (itsValue : MArray α)
    (arr : MArrayBase) (func : String) (fb : TableExprGroupFuncArrayBool)
    (fi : TableExprGroupFuncArrayInt) (fd : TableExprGroupFuncArrayDouble)
    (fc : TableExprGroupFuncArrayDComplex) (ft : TableExprGroupFuncArrayDate)
    (fs : TableExprGroupFuncArrayString) :
    ((checkShapeBody fill itsValue arr func).1 = .ok true ↔ itsValue.empty = true) ∧
    (itsValue.empty = true →
      (checkShapeBody fill itsValue arr func).2 = itsValue.resize fill arr.shape arr.hasMask ∧
      (checkShapeBody fill itsValue arr func).2.shape = arr.shape ∧
      (checkShapeBody fill itsValue arr func).2.hasMask = arr.hasMask) ∧
    (itsValue.empty = false → (checkShapeBody fill itsValue arr func).2 = itsValue) ∧
    (itsValue.empty = false → itsValue.shape = arr.shape →
      arr.hasMask = itsValue.hasMask →
      checkShapeBody fill itsValue arr func = (.ok false, itsValue)) ∧
    fb.checkShape arr func = ((checkShapeBody false fb.itsValue arr func).1,
      { fb with itsValue := (checkShapeBody false fb.itsValue arr func).2 }) ∧
    fi.checkShape arr func = ((checkShapeBody 0 fi.itsValue arr func).1,
      { fi with itsValue := (checkShapeBody 0 fi.itsValue arr func).2 }) ∧
    fd.checkShape arr func = ((checkShapeBody Double.zero fd.itsValue arr func).1,
      { fd with itsValue := (checkShapeBody Double.zero fd.itsValue arr func).2 }) ∧
    fc.checkShape arr func
      = ((checkShapeBody ⟨Double.zero, Double.zero⟩ fc.itsValue arr func).1,
        { fc with
          itsValue := (checkShapeBody ⟨Double.zero, Double.zero⟩ fc.itsValue arr func).2 }) ∧
    ft.checkShape arr func = ((checkShapeBody ⟨Double.zero⟩ ft.itsValue arr func).1,
      { ft with itsValue := (checkShapeBody ⟨Double.zero⟩ ft.itsValue arr func).2 }) ∧
    fs.checkShape arr func = ((checkShapeBody [] fs.itsValue arr func).1,
      { fs with itsValue := (checkShapeBody [] fs.itsValue arr func).2 }) := by
  refine ⟨?_, ?_, ?_, ?_, rfl, rfl, rfl, rfl, rfl, rfl⟩
  · constructor
    · intro h
      cases he : itsValue.empty with
      | true => rfl
      | false => exact absurd h (checkShapeBody_nonempty fill itsValue arr func he).1
    · intro h
      rw [checkShapeBody_empty fill itsValue arr func h]
  · intro h
    rw [checkShapeBody_empty fill itsValue arr func h]
    exact ⟨rfl, MArray.resize_shape_hasMask itsValue fill arr.shape arr.hasMask⟩
  · intro h
    exact (checkShapeBody_nonempty fill itsValue arr func h).2.1
  · intro h hs hm
    exact (checkShapeBody_nonempty fill itsValue arr func h).2.2 hs hm


/-! ## Round trip of the canonical conversion -/

namespace LECanonicalConversion

theorem load_store (b : Bool) (n x : Nat) : load b (store b n x) = x % 2 ^ (8 * n) := by
  cases b
  · simp [load, store, leValue_leBytes]
  · simp [load, store, leValue_leBytes]

theorem store_length (b : Bool) (n x : Nat) : (store b n x).length = n := by
  cases b <;> simp [store, leBytes_length]

theorem valueOf_objectOf (t : LocalType) (b : Bool) (v : Int) (hv : t.inRange v) :
    t.valueOf b (t.objectOf b v) = v := by
  unfold LocalType.valueOf LocalType.objectOf
  simp only [load_store]
  cases t <;> simp [LocalType.inRange, LocalType.isSigned, LocalType.sizeof] at hv ⊢ <;> omega

theorem take_of_length {α : Type} (l : List α) (n : Nat) (h : l.length = n) : l.take n = l := by
  rw [← h, List.take_length]

end LECanonicalConversion


namespace LECanonicalConversion

theorem fromLocal_bytes (le be gnu : Bool) (t : LocalType) (v : Int)
    (ht : t.isMultiByteInteger = true) :
    fromLocal le be gnu t v
      = some (canonicalSize t,
          if le then t.objectOf be v else (t.objectOf be v).reverse) := by
  have h2 : ∀ t : LocalType, t.sizeof = 2 → ((t.objectOf be v).take 2) = t.objectOf be v :=
    fun t h => take_of_length _ 2 (by rw [objectOf_length, h])
  have h4 : ∀ t : LocalType, t.sizeof = 4 → ((t.objectOf be v).take 4) = t.objectOf be v :=
    fun t h => take_of_length _ 4 (by rw [objectOf_length, h])
  have h8 : ∀ t : LocalType, t.sizeof = 8 → ((t.objectOf be v).take 8) = t.objectOf be v :=
    fun t h => take_of_length _ 8 (by rw [objectOf_length, h])
  cases t <;> simp [LocalType.isMultiByteInteger] at ht <;> cases le <;>
    simp [fromLocal, canonicalSize, reverse2_eq, reverse4_eq, reverse8_eq, move2, move4, move8,
      objectOf_length, LocalType.sizeof, h2, h4, h8]

theorem toLocal_bytes (le be gnu : Bool) (t : LocalType) (obj : List (Fin 256))
    (ht : t.isMultiByteInteger = true) (hl : obj.length = t.sizeof) :
    toLocal le be gnu t (if le then obj else obj.reverse)
      = some (canonicalSize t, t.valueOf be obj) := by
  cases t <;> simp [LocalType.isMultiByteInteger] at ht <;> cases le <;>
    simp only [LocalType.sizeof] at hl <;>
    simp [toLocal, canonicalSize, reverse2_eq, reverse4_eq, reverse8_eq, move2, move4, move8, hl,
      take_of_length]

end LECanonicalConversion

/-- C32.  For each of the integer types short, unsigned short, int, unsigned int, Int64 and
uInt64 and every value of the type, `fromLocal` writes as many bytes as the canonical size of the
type and `toLocal` applied to these bytes returns the original value.  This holds in the
little-endian build, where the bytes of the object are copied, and in the big-endian build, where
they are reversed, on a host of either byte order. -/
theorem toLocal_fromLocal_round_trip (aipsLittleEndian hostBigEndian gnuBuiltin : Bool)
    (t : LECanonicalConversion.LocalType) (v : Int) (ht : t.isMultiByteInteger = true)
    (hv : t.inRange v) :
    ∃ bytes,
      LECanonicalConversion.fromLocal aipsLittleEndian hostBigEndian gnuBuiltin t v
        = some (LECanonicalConversion.canonicalSize t, bytes) ∧
      bytes.length = LECanonicalConversion.canonicalSize t ∧
      LECanonicalConversion.toLocal aipsLittleEndian hostBigEndian gnuBuiltin t bytes
        = some (LECanonicalConversion.canonicalSize t, v) ∧
      (aipsLittleEndian = true → bytes = t.objectOf hostBigEndian v) ∧
      (aipsLittleEndian = false → bytes = (t.objectOf hostBigEndian v).reverse) := by
  have hl := LECanonicalConversion.objectOf_length t hostBigEndian v
  have hsz : t.sizeof = LECanonicalConversion.canonicalSize t := by
    cases t <;> rfl
  refine ⟨_, LECanonicalConversion.fromLocal_bytes aipsLittleEndian hostBigEndian gnuBuiltin t v
    ht, ?_, ?_, ?_, ?_⟩
  · cases aipsLittleEndian <;> simp [hl, hsz]
  · rw [LECanonicalConversion.toLocal_bytes aipsLittleEndian hostBigEndian gnuBuiltin t _ ht hl,
      LECanonicalConversion.valueOf_objectOf t hostBigEndian v hv]
  · intro h; simp [h]
  · intro h; simp [h]

/-- Witness of C32: the `short` -2 in the big-endian build on a big-endian host, whose
canonical bytes are fe ff. -/
theorem toLocal_fromLocal_round_trip_witness :
    LECanonicalConversion.fromLocal false true false LECanonicalConversion.LocalType.short (-2)
      = some (2, [0xfe, 0xff]) ∧
    ∃ bytes,
      LECanonicalConversion.fromLocal false true false LECanonicalConversion.LocalType.short (-2)
        = some (LECanonicalConversion.canonicalSize LECanonicalConversion.LocalType.short,
            bytes) ∧
      bytes.length = LECanonicalConversion.canonicalSize LECanonicalConversion.LocalType.short ∧
      LECanonicalConversion.toLocal false true false LECanonicalConversion.LocalType.short bytes
        = some (LECanonicalConversion.canonicalSize LECanonicalConversion.LocalType.short, -2) ∧
      (false = true →
        bytes = LECanonicalConversion.LocalType.short.objectOf true (-2)) ∧
      (false = false →
        bytes = (LECanonicalConversion.LocalType.short.objectOf true (-2)).reverse) :=
  ⟨by decide,
    toLocal_fromLocal_round_trip false true false LECanonicalConversion.LocalType.short (-2)
      rfl (by decide)⟩


/-! ## Quantum records -/

namespace RecordInterface

theorem get_eq_none_iff (r : RecordInterface) (name : String) :
    r.get name = none ↔ r.isDefined name = false := by
  induction r with
  | nil => simp [get, isDefined]
  | cons f rest ih =>
    by_cases h : (f.1 == name) = true
    · simp [get, isDefined, List.find?, h]
    · have h' : (f.1 == name) = false := by simpa using h
      simp only [get, isDefined, List.find?, h', List.any_cons, Bool.false_or] at ih ⊢
      exact ih

theorem type_idToNumber (r : RecordInterface) (name : String) :
    r.type (r.idToNumber name) = (r.get name).map FieldValue.type := by
  induction r with
  | nil => simp [type, idToNumber, get]
  | cons f rest ih =>
    by_cases h : (f.1 == name) = true
    · simp [type, idToNumber, get, List.findIdx_cons, List.find?, h]
    · have h' : (f.1 == name) = false := by simpa using h
      simp only [type, idToNumber, get, List.findIdx_cons, List.find?, h', cond_false,
        List.length_cons, Nat.add_lt_add_iff_right] at ih ⊢
      by_cases hl : List.findIdx (fun f => f.1 == name) rest < rest.length
      · simp only [hl, if_true] at ih ⊢
        simpa using ih
      · simp only [hl, if_false] at ih ⊢
        exact ih

end RecordInterface

namespace RecordInterface

theorem isDefined_eq (r : RecordInterface) (name : String) :
    r.isDefined name = (r.get name).isSome := by
  cases hg : r.get name with
  | none => simpa using (get_eq_none_iff r name).mp hg
  | some v =>
    cases hd : r.isDefined name with
    | true => rfl
    | false =>
      rw [(get_eq_none_iff r name).mpr hd] at hg
      cases hg

end RecordInterface

namespace QuantumHolder

theorem fromRecord_eq {Q : Type} (newQuantum : FieldValue → String → Except Error Q)
    (h : QuantumHolder Q) (error : String) (rec : RecordInterface) :
    h.fromRecord newQuantum error rec =
      match rec.get "value", rec.get "unit" with
      | some vl, some (.string un) =>
        if supportedValueType vl.type then h.resetTo error (newQuantum vl un)
        else (.ok false, error ++ "Illegal Quantum record in QuantumHolder::fromRecord\n", h)
      | _, _ => (.ok false, error ++ "Illegal Quantum record in QuantumHolder::fromRecord\n", h) := by
  unfold fromRecord
  simp only [RecordInterface.isDefined_eq, RecordInterface.type_idToNumber]
  cases hv : rec.get "value" with
  | none => simp
  | some vl =>
    cases hu : rec.get "unit" with
    | none => simp
    | some u =>
      cases u <;> cases vl <;> simp [FieldValue.type, supportedValueType]

end QuantumHolder

/-- C38.  Provided the constructor of the quantum, which is outside the sources, returns for the
value and the unit of the record: `fromRecord` returns True exactly when the record defines a
field `value` and a field `unit`, the field `unit` is a string and the field `value` has one of
the ten supported types, and it then holds the quantum made of that value and unit.  Otherwise it
returns False, appends the message "Illegal Quantum record in QuantumHolder::fromRecord" to the
error string and leaves the held quantum as it is. -/
theorem fromRecord_true_iff_legal_record {Q : Type}
    (newQuantum : FieldValue → String → Except Error Q) (h : QuantumHolder Q) (error : String)
    (rec : RecordInterface)
    (hnew : ∀ vl un, rec.get "value" = some vl → rec.get "unit" = some (.string un) →
      ∃ q, newQuantum vl un = .ok q) :
    ((h.fromRecord newQuantum error rec).1 = .ok true ↔ QuantumHolder.legalRecord rec = true) ∧
    (QuantumHolder.legalRecord rec = true ↔
      rec.isDefined "value" = true ∧ rec.isDefined "unit" = true ∧
      rec.type (rec.idToNumber "unit") = some DataType.TpString ∧
      ∃ t, rec.type (rec.idToNumber "value") = some t ∧
        QuantumHolder.supportedValueType t = true) ∧
    (QuantumHolder.legalRecord rec = false →
      h.fromRecord newQuantum error rec =
        (.ok false, error ++ "Illegal Quantum record in QuantumHolder::fromRecord\n", h)) ∧
    (QuantumHolder.legalRecord rec = true →
      ∃ vl un q, rec.get "value" = some vl ∧ rec.get "unit" = some (.string un) ∧
        newQuantum vl un = .ok q ∧
        h.fromRecord newQuantum error rec = (.ok true, error, { h with hold_p := some q })) := by
  rw [QuantumHolder.fromRecord_eq]
  simp only [RecordInterface.isDefined_eq, RecordInterface.type_idToNumber,
    QuantumHolder.legalRecord]
  cases hv : rec.get "value" with
  | none => simp
  | some vl =>
    cases hu : rec.get "unit" with
    | none => simp
    | some u =>
      cases u with
      | string un =>
        obtain ⟨q, hq⟩ := hnew vl un hv hu
        have ht : (FieldValue.string un).type = DataType.TpString := rfl
        cases hs : QuantumHolder.supportedValueType vl.type with
        | true => simp [hs, hq, ht, QuantumHolder.resetTo]
        | false => simp [hs, ht]
      | _ => simp [FieldValue.type]

/-- Witness of C38: the record with the Int value 3 and the unit "m" read into an empty
holder, with a constructor that stores the value and the unit. -/
theorem fromRecord_true_iff_legal_record_witness :
    ({} : QuantumHolder (FieldValue × String)).fromRecord exampleNewQuantum "" exampleQuantumRecord
      = (.ok true, "", { hold_p := some (.int 3, "m") }) ∧
    ((({} : QuantumHolder (FieldValue × String)).fromRecord exampleNewQuantum ""
        exampleQuantumRecord).1 = .ok true ↔
      QuantumHolder.legalRecord exampleQuantumRecord = true) :=
  ⟨rfl,
    (fromRecord_true_iff_legal_record exampleNewQuantum {} "" exampleQuantumRecord
      (fun vl un _ _ => ⟨(vl, un), rfl⟩)).1⟩


/-! ## Assignment to masked arrays -/

namespace MaskedArray

theorem assignLoop_spec {α : Type} (n : Nat) (mask : List Bool) (arr inarr : List α)
    (hm : mask.length = n) (ha : arr.length = n) (hi : inarr.length = n) :
    ∃ d, assignLoop n mask arr inarr = some d ∧ d.length = n ∧
      ∀ i, i < n → d[i]? = if mask[i]? = some true then inarr[i]? else arr[i]? := by
  induction n generalizing mask arr inarr with
  | zero =>
    have : arr = [] := List.length_eq_zero.mp ha
    subst this
    exact ⟨[], by simp [assignLoop], rfl, fun i hi => absurd hi (Nat.not_lt_zero i)⟩
  | succ n ih =>
    match mask, arr, inarr, hm, ha, hi with
    | b :: mask, a :: arr, x :: inarr, hm, ha, hi =>
      simp only [List.length_cons, Nat.add_right_cancel_iff] at hm ha hi
      obtain ⟨d, hd, hl, hget⟩ := ih mask arr inarr hm ha hi
      cases b with
      | true =>
        refine ⟨x :: d, by simp [assignLoop, hd], by simp [hl], ?_⟩
        intro i hi'
        cases i with
        | zero => simp
        | succ i => simpa using hget i (by omega)
      | false =>
        refine ⟨a :: d, by simp [assignLoop, hd], by simp [hl], ?_⟩
        intro i hi'
        cases i with
        | zero => simp
        | succ i => simpa using hget i (by omega)

theorem assignValueLoop_spec {α : Type} (val : α) (n : Nat) (mask : List Bool) (arr : List α)
    (hm : mask.length = n) (ha : arr.length = n) :
    ∃ d, assignValueLoop val n mask arr = some d ∧ d.length = n ∧
      ∀ i, i < n → d[i]? = if mask[i]? = some true then some val else arr[i]? := by
  induction n generalizing mask arr with
  | zero =>
    have : arr = [] := List.length_eq_zero.mp ha
    subst this
    exact ⟨[], by simp [assignValueLoop], rfl, fun i hi => absurd hi (Nat.not_lt_zero i)⟩
  | succ n ih =>
    match mask, arr, hm, ha with
    | b :: mask, a :: arr, hm, ha =>
      simp only [List.length_cons, Nat.add_right_cancel_iff] at hm ha
      obtain ⟨d, hd, hl, hget⟩ := ih mask arr hm ha
      cases b with
      | true =>
        refine ⟨val :: d, by simp [assignValueLoop, hd], by simp [hl], ?_⟩
        intro i hi'
        cases i with
        | zero => simp
        | succ i => simpa using hget i (by omega)
      | false =>
        refine ⟨a :: d, by simp [assignValueLoop, hd], by simp [hl], ?_⟩
        intro i hi'
        cases i with
        | zero => simp
        | succ i => simpa using hget i (by omega)

theorem assignMaskedLoop_spec {α : Type} (n : Nat) (mask omask : List Bool) (arr oarr : List α)
    (hm : mask.length = n) (hom : omask.length = n) (ha : arr.length = n)
    (hoa : oarr.length = n) :
    ∃ d, assignMaskedLoop n mask omask arr oarr = some d ∧ d.length = n ∧
      ∀ i, i < n → d[i]? =
        if mask[i]? = some true ∧ omask[i]? = some true then oarr[i]? else arr[i]? := by
  induction n generalizing mask omask arr oarr with
  | zero =>
    have : arr = [] := List.length_eq_zero.mp ha
    subst this
    exact ⟨[], by simp [assignMaskedLoop], rfl, fun i hi => absurd hi (Nat.not_lt_zero i)⟩
  | succ n ih =>
    match mask, omask, arr, oarr, hm, hom, ha, hoa with
    | b :: mask, c :: omask, a :: arr, x :: oarr, hm, hom, ha, hoa =>
      simp only [List.length_cons, Nat.add_right_cancel_iff] at hm hom ha hoa
      obtain ⟨d, hd, hl, hget⟩ := ih mask omask arr oarr hm hom ha hoa
      cases b <;> cases c
      · refine ⟨a :: d, by simp [assignMaskedLoop, hd], by simp [hl], ?_⟩
        intro i hi'
        cases i with
        | zero => simp
        | succ i => simpa using hget i (by omega)
      · refine ⟨a :: d, by simp [assignMaskedLoop, hd], by simp [hl], ?_⟩
        intro i hi'
        cases i with
        | zero => simp
        | succ i => simpa using hget i (by omega)
      · refine ⟨a :: d, by simp [assignMaskedLoop, hd], by simp [hl], ?_⟩
        intro i hi'
        cases i with
        | zero => simp
        | succ i => simpa using hget i (by omega)
      · refine ⟨x :: d, by simp [assignMaskedLoop, hd], by simp [hl], ?_⟩
        intro i hi'
        cases i with
        | zero => simp
        | succ i => simpa using hget i (by omega)

theorem setLoop_frame {α : Type} (mask : List Bool) (arr inarr : List α) (ntotal : Nat)
    (d : List α) (h : setLoop mask arr inarr ntotal = some d) :
    d.length = arr.length ∧ ∀ i : Nat, mask[i]? ≠ some true → d[i]? = arr[i]? := by
  induction mask generalizing arr inarr ntotal d with
  | nil =>
    cases ntotal with
    | zero =>
      simp only [setLoop, Option.some.injEq] at h
      subst h
      exact ⟨rfl, fun _ _ => rfl⟩
    | succ k => simp [setLoop] at h
  | cons b mask ih =>
    cases ntotal with
    | zero =>
      simp only [setLoop, Option.some.injEq] at h
      subst h
      exact ⟨rfl, fun _ _ => rfl⟩
    | succ k =>
      cases b with
      | true =>
        match arr, inarr, h with
        | [], _, h => simp [setLoop] at h
        | _ :: _, [], h => simp [setLoop] at h
        | a :: arr, x :: inarr, h =>
          simp only [setLoop, Option.map_eq_some'] at h
          obtain ⟨rest, hr, hd⟩ := h
          subst hd
          obtain ⟨hl, hf⟩ := ih arr inarr k rest hr
          refine ⟨by simp [hl], ?_⟩
          intro i hi
          cases i with
          | zero => simp at hi
          | succ i => simpa using hf i (by simpa using hi)
      | false =>
        match arr, h with
        | [], h =>
          simp only [setLoop] at h
          obtain ⟨hl, hf⟩ := ih [] inarr (k + 1) d h
          refine ⟨hl, ?_⟩
          intro i _
          have hd : d = [] := List.length_eq_zero.mp (by simpa using hl)
          subst hd
          rfl
        | a :: arr, h =>
          simp only [setLoop, Option.map_eq_some'] at h
          obtain ⟨rest, hr, hd⟩ := h
          subst hd
          obtain ⟨hl, hf⟩ := ih arr inarr (k + 1) rest hr
          refine ⟨by simp [hl], ?_⟩
          intro i hi
          cases i with
          | zero => simp
          | succ i => simpa using hf i (by simpa using hi)

theorem validElements_of_no_true {α : Type} (mask : List Bool) (arr : List α)
    (h : countTrue mask = 0) : validElements arr mask = [] := by
  induction mask generalizing arr with
  | nil => cases arr <;> rfl
  | cons b mask ih =>
    cases b with
    | true => simp [countTrue] at h
    | false =>
      cases arr with
      | nil => rfl
      | cons a arr =>
        simp only [validElements]
        exact ih arr (by simpa [countTrue] using h)

theorem setLoop_spec {α : Type} (mask : List Bool) (arr inarr : List α)
    (hm : mask.length = arr.length) (hi : inarr.length = countTrue mask) :
    ∃ d, setLoop mask arr inarr (countTrue mask) = some d ∧ validElements d mask = inarr := by
  induction mask generalizing arr inarr with
  | nil =>
    have : inarr = [] := List.length_eq_zero.mp (by simpa [countTrue] using hi)
    subst this
    refine ⟨arr, by simp [setLoop, countTrue], ?_⟩
    cases arr <;> rfl
  | cons b mask ih =>
    cases arr with
    | nil => simp at hm
    | cons a arr =>
      simp only [List.length_cons, Nat.add_right_cancel_iff] at hm
      cases b with
      | true =>
        have hc : countTrue (true :: mask) = countTrue mask + 1 := by simp [countTrue]
        rw [hc] at hi ⊢
        match inarr, hi with
        | x :: inarr, hi =>
          simp only [List.length_cons, Nat.add_right_cancel_iff] at hi
          obtain ⟨d, hd, hv⟩ := ih arr inarr hm hi
          exact ⟨x :: d, by simp [setLoop, hd], by simp [validElements, hv]⟩
      | false =>
        have hc : countTrue (false :: mask) = countTrue mask := by simp [countTrue]
        rw [hc] at hi ⊢
        obtain ⟨d, hd, hv⟩ := ih arr inarr hm hi
        cases hk : countTrue mask with
        | zero =>
          rw [hk] at hi
          have : inarr = [] := List.length_eq_zero.mp hi
          subst this
          refine ⟨a :: arr, by simp [setLoop], ?_⟩
          simp only [validElements]
          exact validElements_of_no_true mask arr hk
        | succ k =>
          rw [hk] at hd
          exact ⟨a :: d, by simp [setLoop, hd], by simp [validElements, hv]⟩

end MaskedArray

namespace MaskedArray

theorem holds_lengths {α : Type} (m : MaskedArray α) (arr : CasaArray α)
    (mask : CasaArray Bool) (h : m.holds arr mask) : mask.data.length = arr.data.length := by
  obtain ⟨_, _, h3, _, h5, _⟩ := h
  rw [h3, h5]

theorem nelementsValid_holds {α : Type} (m : MaskedArray α) (arr : CasaArray α)
    (mask : CasaArray Bool) (h : m.holds arr mask) :
    m.nelementsValid = some (countTrue mask.data,
        { m with nelemValid := countTrue mask.data, nelemValidIsOK := true }) ∧
      ({ m with nelemValid := countTrue mask.data, nelemValidIsOK := true } :
        MaskedArray α).holds arr mask := by
  obtain ⟨h1, h2, h3, h4, h5, h6⟩ := h
  exact ⟨nelementsValid_eq m arr mask h1 h2 h5 h6, h1, h2, h3, h4, h5, fun _ => rfl⟩

theorem getCompressedArray_of_holds {α : Type} (m : MaskedArray α) (arr : CasaArray α)
    (mask : CasaArray Bool) (h : m.holds arr mask) :
    m.getCompressedArray =
      some ({ shape := [countTrue mask.data], data := validElements arr.data mask.data },
        { m with nelemValid := countTrue mask.data, nelemValidIsOK := true }) := by
  have hml := holds_lengths m arr mask h
  obtain ⟨stop, hs1, _⟩ := compressLoop_eq mask.data arr.data [] 0 hml
  obtain ⟨hn, _⟩ := nelementsValid_holds m arr mask h
  obtain ⟨h1, h2, _⟩ := h
  obtain ⟨pA, pM, nv, nok, ro⟩ := m
  simp only at h1 h2
  subst h1 h2
  simp only [getCompressedArray, hn]
  simp [nelementsValid, hs1]

theorem setCompressedArray_ok {α : Type} (m : MaskedArray α) (arr : CasaArray α)
    (mask : CasaArray Bool) (h : m.holds arr mask) (hrw : m.isRO = false)
    (inarr : CasaArray α) (hok : inarr.data.length = inarr.nelements)
    (hn : inarr.nelements = countTrue mask.data) :
    ∃ d, m.setCompressedArray inarr =
        some (.ok (), { pArray := some { arr with data := d }, pMask := some mask
                        nelemValid := countTrue mask.data, nelemValidIsOK := true
                        isRO := false }) ∧
      validElements d mask.data = inarr.data ∧ d.length = arr.data.length := by
  have hml := holds_lengths m arr mask h
  obtain ⟨d, hd, hv⟩ := setLoop_spec mask.data arr.data inarr.data hml (by rw [hok, hn])
  obtain ⟨hnv, _⟩ := nelementsValid_holds m arr mask h
  obtain ⟨h1, h2, _⟩ := h
  obtain ⟨pA, pM, nv, nok, ro⟩ := m
  simp only at h1 h2 hrw
  subst h1 h2 hrw
  refine ⟨d, ?_, hv, (setLoop_frame _ _ _ _ d hd).1⟩
  simp only [setCompressedArray, hnv]
  simp [nelementsValid, getRWArrayStorage, putArrayStorage, hn, hd]

theorem setCompressedArray_frame {α : Type} (m : MaskedArray α) (arr : CasaArray α)
    (mask : CasaArray Bool) (h : m.holds arr mask) (inarr : CasaArray α)
    (r : Except ArrayException Unit) (m1 : MaskedArray α)
    (hs : m.setCompressedArray inarr = some (r, m1)) :
    ∃ arr1, m1.holds arr1 mask ∧ arr1.shape = arr.shape ∧ m1.isRO = m.isRO ∧
      arr1.data.length = arr.data.length ∧
      (∀ i : Nat, mask.data[i]? ≠ some true → arr1.data[i]? = arr.data[i]?) ∧
      (r ≠ .ok () → arr1 = arr) := by
  obtain ⟨hnv, hh⟩ := nelementsValid_holds m arr mask h
  obtain ⟨h1, h2, h3, h4, h5, h6⟩ := h
  obtain ⟨pA, pM, nv, nok, ro⟩ := m
  simp only at h1 h2
  subst h1 h2
  simp only [setCompressedArray, hnv] at hs
  by_cases hne : countTrue mask.data = inarr.nelements
  · cases ro with
    | true =>
      simp [hne, getRWArrayStorage] at hs
      obtain ⟨hr, hm1⟩ := hs
      subst hm1
      exact ⟨arr, by simpa [hne] using hh, rfl, rfl, rfl, fun _ _ => rfl, fun _ => rfl⟩
    | false =>
      simp only [hne, ne_eq, not_true_eq_false, if_false, getRWArrayStorage,
        Bool.false_eq_true, Option.map_some', nelementsValid, if_true] at hs
      cases hl : setLoop mask.data arr.data inarr.data inarr.nelements with
      | none => simp [hl] at hs
      | some d =>
        simp [hl, putArrayStorage] at hs
        obtain ⟨hr, hm1⟩ := hs
        subst hm1
        obtain ⟨hlen, hf⟩ := setLoop_frame _ _ _ _ d hl
        refine ⟨{ arr with data := d }, ?_, rfl, rfl, hlen, hf, ?_⟩
        · refine ⟨rfl, rfl, ?_, h4, h5, fun _ => hne.symm⟩
          show d.length = arr.nelements
          rw [hlen, h3]
        · intro hnr
          exact absurd hr.symm hnr
  · simp [hne] at hs
    obtain ⟨hr, hm1⟩ := hs
    subst hm1
    exact ⟨arr, hh, rfl, rfl, rfl, fun _ _ => rfl, fun _ => rfl⟩

end MaskedArray

namespace MaskedArray

theorem ok_length {α : Type} (a : CasaArray α) (h : a.ok = true) :
    a.data.length = a.nelements := by
  simpa [CasaArray.ok] using h

theorem invariant_of_holds {α : Type} (m : MaskedArray α) (arr : CasaArray α)
    (mask : CasaArray Bool) (h : m.holds arr mask) : m.invariant :=
  Or.inl ⟨arr, mask, h⟩

theorem new_invariant {α : Type} (inarray : CasaArray α) (inmask : CasaArray Bool)
    (isreadonly : Bool) (m : MaskedArray α) (ha : inarray.ok = true) (hm : inmask.ok = true)
    (h : MaskedArray.new inarray inmask isreadonly = .ok m) : m.invariant := by
  have ha' := ok_length inarray ha
  have hm' := ok_length inmask hm
  unfold MaskedArray.new at h
  by_cases hs : inarray.shape = inmask.shape
  · simp only [hs, ne_eq, not_true_eq_false, if_false, Except.ok.injEq] at h
    subst h
    refine Or.inl ⟨inarray, _, rfl, rfl, ha', hs.symm, ?_, fun hc => by simp at hc⟩
    simp only [CasaArray.nelements] at hm' ⊢
    rw [hm', hs]
  · simp [hs] at h

theorem newWritable_invariant {α : Type} (inarray : CasaArray α) (inmask : CasaArray Bool)
    (m : MaskedArray α) (ha : inarray.ok = true) (hm : inmask.ok = true)
    (h : MaskedArray.newWritable inarray inmask = .ok m) : m.invariant := by
  have ha' := ok_length inarray ha
  have hm' := ok_length inmask hm
  unfold MaskedArray.newWritable at h
  by_cases hs : inarray.shape = inmask.shape
  · simp only [hs, ne_eq, not_true_eq_false, if_false, Except.ok.injEq] at h
    subst h
    refine Or.inl ⟨inarray, _, rfl, rfl, ha', hs.symm, ?_, fun hc => by simp at hc⟩
    simp only [CasaArray.nelements] at hm' ⊢
    rw [hm', hs]
  · simp [hs] at h

theorem setData_invariant {α : Type} (m : MaskedArray α) (data : CasaArray α)
    (mask : CasaArray Bool) (isReadOnly : Bool) (m1 : MaskedArray α) (ha : data.ok = true)
    (hm : mask.ok = true) (h : m.setData data mask isReadOnly = .ok m1) : m1.invariant := by
  have ha' := ok_length data ha
  have hm' := ok_length mask hm
  unfold MaskedArray.setData at h
  by_cases hs : data.shape = mask.shape
  · simp only [hs, ne_eq, not_true_eq_false, if_false, Except.ok.injEq] at h
    subst h
    refine Or.inl ⟨data, _, rfl, rfl, ha', hs.symm, ?_, fun hc => by simp at hc⟩
    simp only [CasaArray.nelements] at hm' ⊢
    rw [hm', hs]
  · simp [hs] at h

theorem logicalAnd_ok (l r : CasaArray Bool) (hs : l.shape = r.shape) (n : Nat)
    (hl : l.data.length = n) (hr : r.data.length = n) :
    ∃ anded, l.logicalAnd r = .ok anded ∧ anded.shape = l.shape ∧
      anded.data = List.zipWith (fun a b => a && b) l.data r.data ∧ anded.data.length = n := by
  refine ⟨{ shape := l.shape, data := List.zipWith (fun a b => a && b) l.data r.data },
    by simp [CasaArray.logicalAnd, hs], rfl, rfl, ?_⟩
  simp [hl, hr]

theorem newFromMaskedBody_holds {α : Type} (inarray : MaskedArray α) (arr : CasaArray α)
    (mask : CasaArray Bool) (hh : inarray.holds arr mask) (inmask : CasaArray Bool)
    (ro : Bool) (msg : String) :
    (arr.shape = inmask.shape →
      inarray.newFromMaskedBody inmask ro msg =
        some (.ok { pArray := some arr
                    pMask := some { shape := inmask.shape
                                    data := List.zipWith (fun a b => a && b) inmask.data
                                      mask.data }
                    nelemValid := 0, nelemValidIsOK := false, isRO := ro })) ∧
    (arr.shape ≠ inmask.shape →
      inarray.newFromMaskedBody inmask ro msg = some (.error (.ArrayConformanceError msg))) := by
  obtain ⟨h1, h2, h3, h4, h5, h6⟩ := hh
  constructor
  · intro hs
    simp [newFromMaskedBody, shape, getArray, getMask, h1, h2, hs, CasaArray.logicalAnd, h4]
  · intro hs
    simp [newFromMaskedBody, shape, h1, hs]

theorem newFromMaskedBody_invariant {α : Type} (inarray : MaskedArray α)
    (inmask : CasaArray Bool) (ro : Bool) (msg : String) (m : MaskedArray α)
    (hi : inarray.invariant) (hm : inmask.ok = true)
    (h : inarray.newFromMaskedBody inmask ro msg = some (.ok m)) : m.invariant := by
  have hm' := ok_length inmask hm
  rcases hi with ⟨arr, mask, hh⟩ | ⟨hn, _, _⟩
  · by_cases hs : arr.shape = inmask.shape
    · rw [(newFromMaskedBody_holds inarray arr mask hh inmask ro msg).1 hs] at h
      simp only [Option.some.injEq, Except.ok.injEq] at h
      subst h
      obtain ⟨h1, h2, h3, h4, h5, h6⟩ := hh
      refine Or.inl ⟨arr, _, rfl, rfl, h3, hs.symm, ?_, fun hc => by simp at hc⟩
      simp only [CasaArray.nelements] at hm' h5 ⊢
      simp [hm', h5, hs]
    · rw [(newFromMaskedBody_holds inarray arr mask hh inmask ro msg).2 hs] at h
      simp at h
  · simp [newFromMaskedBody, shape, hn] at h

theorem newWithMaskedMaskBody_invariant {α : Type} (inarray : CasaArray α)
    (inmask : MaskedArray Bool) (ro : Bool) (msg : String) (m : MaskedArray α)
    (ha : inarray.ok = true) (hi : inmask.invariant)
    (h : newWithMaskedMaskBody inarray inmask ro msg = some (.ok m)) : m.invariant := by
  have ha' := ok_length inarray ha
  rcases hi with ⟨marr, mmask, h1, h2, h3, h4, h5, h6⟩ | ⟨hn, _, _⟩
  · by_cases hs : inarray.shape = marr.shape
    · simp [newWithMaskedMaskBody, shape, getArray, getMask, h1, h2, hs, CasaArray.logicalAnd,
        h4] at h
      subst h
      refine Or.inl ⟨inarray, _, rfl, rfl, ha', hs.symm, ?_, fun hc => by simp at hc⟩
      simp only [CasaArray.nelements] at h3 h5 ⊢
      simp [h3, h5, hs]
    · simp [newWithMaskedMaskBody, shape, h1, hs] at h
  · simp [newWithMaskedMaskBody, shape, hn] at h

theorem newFromMaskedWithMaskedMaskBody_invariant {α : Type} (inarray : MaskedArray α)
    (inmask : MaskedArray Bool) (ro : Bool) (msg : String) (m : MaskedArray α)
    (hia : inarray.invariant) (hi : inmask.invariant)
    (h : inarray.newFromMaskedWithMaskedMaskBody inmask ro msg = some (.ok m)) :
    m.invariant := by
  rcases hia with ⟨arr, mask, a1, a2, a3, a4, a5, a6⟩ | ⟨hn, _, _⟩
  · rcases hi with ⟨marr, mmask, h1, h2, h3, h4, h5, h6⟩ | ⟨hn, _, _⟩
    · by_cases hs : arr.shape = marr.shape
      · simp [newFromMaskedWithMaskedMaskBody, shape, getArray, getMask, h1, h2, a1, a2, hs,
          CasaArray.logicalAnd, h4, a4] at h
        subst h
        refine Or.inl ⟨arr, _, rfl, rfl, a3, hs.symm, ?_, fun hc => by simp at hc⟩
        simp only [CasaArray.nelements] at h3 h5 a5 ⊢
        simp [h3, h5, a5, hs]
      · simp [newFromMaskedWithMaskedMaskBody, shape, h1, a1, hs] at h
    · simp [newFromMaskedWithMaskedMaskBody, shape, a1, hn] at h
  · simp [newFromMaskedWithMaskedMaskBody, shape, hn] at h

theorem newCopy_invariant {α : Type} (other : MaskedArray α) (isreadonly : Bool)
    (m : MaskedArray α) (hi : other.invariant)
    (h : MaskedArray.newCopy other isreadonly = some m) : m.invariant := by
  rcases hi with ⟨arr, mask, a1, a2, a3, a4, a5, a6⟩ | ⟨hn, _, _⟩
  · simp [newCopy, a1, a2] at h
    subst h
    exact Or.inl ⟨arr, mask, rfl, rfl, a3, a4, a5, a6⟩
  · simp [newCopy, hn] at h

theorem newCopyKeepRO_invariant {α : Type} (other : MaskedArray α)
    (m : MaskedArray α) (hi : other.invariant)
    (h : MaskedArray.newCopyKeepRO other = some m) : m.invariant := by
  rcases hi with ⟨arr, mask, a1, a2, a3, a4, a5, a6⟩ | ⟨hn, _, _⟩
  · simp [newCopyKeepRO, a1, a2] at h
    subst h
    exact Or.inl ⟨arr, mask, rfl, rfl, a3, a4, a5, a6⟩
  · simp [newCopyKeepRO, hn] at h

theorem newMove_invariant {α : Type} (source : MaskedArray α) (hi : source.invariant) :
    (MaskedArray.newMove source).1.invariant ∧ (MaskedArray.newMove source).2.invariant := by
  refine ⟨?_, Or.inr ⟨rfl, rfl, rfl⟩⟩
  rcases hi with ⟨arr, mask, a1, a2, a3, a4, a5, a6⟩ | ⟨hn, hm, hc⟩
  · exact Or.inl ⟨arr, mask, a1, a2, a3, a4, a5, a6⟩
  · exact Or.inr ⟨hn, hm, hc⟩

theorem setDataFromMasked_invariant {α : Type} (m array : MaskedArray α) (isReadOnly : Bool)
    (m1 : MaskedArray α) (hi : array.invariant)
    (h : m.setDataFromMasked array isReadOnly = some m1) : m1.invariant := by
  rcases hi with ⟨arr, mask, a1, a2, a3, a4, a5, a6⟩ | ⟨hn, _, _⟩
  · simp [setDataFromMasked, getArray, getMask, a1, a2] at h
    subst h
    exact Or.inl ⟨arr, _, rfl, rfl, a3, a4, a5, fun hc => by simp at hc⟩
  · simp [setDataFromMasked, getArray, hn] at h

theorem copy_invariant {α : Type} (m : MaskedArray α) (isreadonly : Bool)
    (m1 : MaskedArray α) (hi : m.invariant) (h : m.copy isreadonly = some (.ok m1)) :
    m1.invariant := by
  rcases hi with ⟨arr, mask, a1, a2, a3, a4, a5, a6⟩ | ⟨hn, _, _⟩
  · simp [copy, MaskedArray.new, a1, a2, a4] at h
    subst h
    exact Or.inl ⟨_, _, rfl, rfl, a3, rfl, a5, a6⟩
  · simp [copy, hn] at h

theorem copyWritable_eq {α : Type} (m : MaskedArray α) (arr : CasaArray α)
    (mask : CasaArray Bool) (h : m.holds arr mask) :
    m.copyWritable = some (.ok { pArray := some arr, pMask := some mask
                                 nelemValid := m.nelemValid
                                 nelemValidIsOK := m.nelemValidIsOK, isRO := false }) := by
  obtain ⟨a1, a2, a3, a4, a5, a6⟩ := h
  have hs : ¬ (arr.shape ≠ mask.shape) := by simp [a4]
  simp only [copyWritable, MaskedArray.newWritable, a1, a2, if_neg hs]

theorem copyWritable_invariant {α : Type} (m m1 : MaskedArray α) (hi : m.invariant)
    (h : m.copyWritable = some (.ok m1)) : m1.invariant := by
  rcases hi with ⟨arr, mask, hh⟩ | ⟨hn, _, _⟩
  · rw [copyWritable_eq m arr mask hh] at h
    simp only [Option.some.injEq, Except.ok.injEq] at h
    subst h
    obtain ⟨a1, a2, a3, a4, a5, a6⟩ := hh
    exact Or.inl ⟨_, _, rfl, rfl, a3, a4, a5, a6⟩
  · simp [copyWritable, hn] at h

theorem nelementsValid_invariant {α : Type} (m : MaskedArray α) (n : Nat)
    (m1 : MaskedArray α) (hi : m.invariant) (h : m.nelementsValid = some (n, m1)) :
    m1.invariant := by
  rcases hi with ⟨arr, mask, hh⟩ | ⟨hn, hm, hc⟩
  · obtain ⟨hnv, hh'⟩ := nelementsValid_holds m arr mask hh
    rw [hnv] at h
    simp only [Option.some.injEq, Prod.mk.injEq] at h
    obtain ⟨_, h⟩ := h
    subst h
    exact Or.inl ⟨arr, mask, hh'⟩
  · simp [nelementsValid, hn, hm, hc] at h

theorem setCompressedArray_invariant {α : Type} (m : MaskedArray α) (inarr : CasaArray α)
    (r : Except ArrayException Unit) (m1 : MaskedArray α) (hi : m.invariant)
    (h : m.setCompressedArray inarr = some (r, m1)) : m1.invariant := by
  rcases hi with ⟨arr, mask, hh⟩ | ⟨hn, hm, hc⟩
  · obtain ⟨arr1, h1, _⟩ := setCompressedArray_frame m arr mask hh inarr r m1 h
    exact Or.inl ⟨arr1, mask, h1⟩
  · simp [setCompressedArray, nelementsValid, hn, hm, hc] at h

end MaskedArray

namespace MaskedArray

theorem assignArray_ok {α : Type} (m : MaskedArray α) (arr : CasaArray α)
    (mask : CasaArray Bool) (h : m.holds arr mask) (hrw : m.isRO = false)
    (inarray : CasaArray α) (hok : inarray.data.length = inarray.nelements)
    (hc : arr.shape = inarray.shape) :
    ∃ d, m.assignArray inarray = some (.ok (), { m with pArray := some { arr with data := d } }) ∧
      d.length = arr.nelements ∧
      ∀ i, i < arr.nelements →
        d[i]? = if mask.data[i]? = some true then inarray.data[i]? else arr.data[i]? := by
  obtain ⟨h1, h2, h3, h4, h5, h6⟩ := h
  have hin : inarray.data.length = arr.nelements := by
    rw [hok]; simp only [CasaArray.nelements, hc]
  obtain ⟨d, hd, hl, hget⟩ := assignLoop_spec arr.nelements mask.data arr.data inarray.data h5 h3
    hin
  refine ⟨d, ?_, hl, hget⟩
  simp [assignArray, h1, h2, hrw, CasaArray.conform, hc, getRWArrayStorage, putArrayStorage, hd]

theorem assignValue_ok {α : Type} (m : MaskedArray α) (arr : CasaArray α)
    (mask : CasaArray Bool) (h : m.holds arr mask) (hrw : m.isRO = false) (val : α) :
    ∃ d, m.assignValue val = some (.ok (), { m with pArray := some { arr with data := d } }) ∧
      d.length = arr.nelements ∧
      ∀ i, i < arr.nelements →
        d[i]? = if mask.data[i]? = some true then some val else arr.data[i]? := by
  obtain ⟨h1, h2, h3, h4, h5, h6⟩ := h
  obtain ⟨d, hd, hl, hget⟩ := assignValueLoop_spec val arr.nelements mask.data arr.data h5 h3
  refine ⟨d, ?_, hl, hget⟩
  simp [assignValue, h1, h2, hrw, getRWArrayStorage, putArrayStorage, hd]

theorem holds_setData {α : Type} (m : MaskedArray α) (arr : CasaArray α)
    (mask : CasaArray Bool) (h : m.holds arr mask) (d : List α) (hl : d.length = arr.nelements) :
    ({ m with pArray := some { arr with data := d } } : MaskedArray α).holds
      { arr with data := d } mask := by
  obtain ⟨h1, h2, h3, h4, h5, h6⟩ := h
  exact ⟨rfl, h2, hl, h4, h5, h6⟩

theorem ofArray_invariant {α : Type} (inarray : CasaArray α) (hok : inarray.ok = true) :
    (ofArray inarray).invariant :=
  Or.inl ⟨inarray, _, rfl, rfl, ok_length inarray hok, rfl, by simp,
    fun hc => by simp [ofArray] at hc⟩

theorem assignArray_invariant {α : Type} (m : MaskedArray α) (inarray : CasaArray α)
    (r : Except ArrayException Unit) (m1 : MaskedArray α) (hi : m.invariant)
    (hok : inarray.ok = true) (h : m.assignArray inarray = some (r, m1)) : m1.invariant := by
  rcases hi with ⟨arr, mask, hh⟩ | ⟨hn, hm, hc⟩
  · by_cases hcf : arr.shape = inarray.shape
    · cases hro : m.isRO with
      | true =>
        simp [assignArray, hh.1, hro, CasaArray.conform, hcf] at h
        rw [← h.2]
        exact Or.inl ⟨arr, mask, hh⟩
      | false =>
        obtain ⟨d, hd, hl, _⟩ := assignArray_ok m arr mask hh hro inarray
          (ok_length inarray hok) hcf
        rw [hd] at h
        simp only [Option.some.injEq, Prod.mk.injEq] at h
        rw [← h.2]
        exact Or.inl ⟨_, mask, holds_setData m arr mask hh d hl⟩
    · simp [assignArray, hh.1, CasaArray.conform, hcf] at h
      rw [← h.2]
      exact Or.inl ⟨arr, mask, hh⟩
  · simp [assignArray, hn] at h
    rw [← h.2]
    exact ofArray_invariant inarray hok

theorem assignArrayMove_invariant {α : Type} (m : MaskedArray α) (inarray : CasaArray α)
    (r : Except ArrayException Unit) (m1 : MaskedArray α) (hi : m.invariant)
    (hok : inarray.ok = true) (h : m.assignArrayMove inarray = some (r, m1)) :
    m1.invariant := by
  cases hp : m.pArray with
  | none =>
    simp [assignArrayMove, hp] at h
    rw [← h.2]
    exact ofArray_invariant inarray hok
  | some arr =>
    simp only [assignArrayMove, hp] at h
    exact assignArray_invariant m inarray r m1 hi hok h

theorem assignValue_invariant {α : Type} (m : MaskedArray α) (val : α)
    (r : Except ArrayException Unit) (m1 : MaskedArray α) (hi : m.invariant)
    (h : m.assignValue val = some (r, m1)) : m1.invariant := by
  rcases hi with ⟨arr, mask, hh⟩ | ⟨hn, hm, hc⟩
  · cases hro : m.isRO with
    | true =>
      simp [assignValue, hh.1, hro] at h
      rw [← h.2]
      exact Or.inl ⟨arr, mask, hh⟩
    | false =>
      obtain ⟨d, hd, hl, _⟩ := assignValue_ok m arr mask hh hro val
      rw [hd] at h
      simp only [Option.some.injEq, Prod.mk.injEq] at h
      rw [← h.2]
      exact Or.inl ⟨_, mask, holds_setData m arr mask hh d hl⟩
  · simp [assignValue, hn] at h
    rw [← h.2]
    exact Or.inr ⟨hn, hm, hc⟩

theorem assignMasked_invariant {α : Type} (m other : MaskedArray α) (sameObject : Bool)
    (r : Except ArrayException Unit) (m1 : MaskedArray α) (hi : m.invariant)
    (ho : other.invariant) (h : m.assignMasked other sameObject = some (r, m1)) :
    m1.invariant := by
  cases sameObject with
  | true =>
    simp [assignMasked] at h
    rw [← h.2]
    exact hi
  | false =>
    rcases hi with ⟨arr, mask, hh⟩ | ⟨hn, hm, hc⟩
    · rcases ho with ⟨oarr, omask, oh⟩ | ⟨ohn, _, _⟩
      · by_cases hcf : arr.shape = oarr.shape
        · cases hro : m.isRO with
          | true =>
            simp [assignMasked, hh.1, oh.1, hro, CasaArray.conform, hcf] at h
            rw [← h.2]
            exact Or.inl ⟨arr, mask, hh⟩
          | false =>
            obtain ⟨h1, h2, h3, h4, h5, h6⟩ := hh
            obtain ⟨o1, o2, o3, o4, o5, o6⟩ := oh
            have e : oarr.nelements = arr.nelements := by
              simp only [CasaArray.nelements, hcf]
            obtain ⟨d, hd, hl, _⟩ := assignMaskedLoop_spec arr.nelements mask.data omask.data
              arr.data oarr.data h5 (by rw [o5, e]) h3 (by rw [o3, e])
            have hconf : arr.conform oarr = true := by simp [CasaArray.conform, hcf]
            simp [assignMasked, h1, h2, o1, o2, hro, hconf, getRWArrayStorage,
              putArrayStorage, hd] at h
            rw [← h.2]
            exact Or.inl ⟨_, mask, rfl, rfl, hl, h4, h5, h6⟩
        · simp [assignMasked, hh.1, oh.1, CasaArray.conform, hcf] at h
          rw [← h.2]
          exact Or.inl ⟨arr, mask, hh⟩
      · simp [assignMasked, hh.1, ohn] at h
    · rcases ho with ⟨oarr, omask, oh⟩ | ⟨ohn, _, _⟩
      · simp [assignMasked, hn, copyWritable_eq other oarr omask oh, setDataFromMasked, getArray,
          getMask] at h
        rw [← h.2]
        obtain ⟨o1, o2, o3, o4, o5, o6⟩ := oh
        exact Or.inl ⟨oarr, _, rfl, rfl, o3, o4, o5, fun hc => by simp at hc⟩
      · simp [assignMasked, hn, copyWritable, ohn] at h

theorem assignMaskedMove_invariant {α : Type} (m other : MaskedArray α) (sameObject : Bool)
    (r : Except ArrayException Unit) (m1 other1 : MaskedArray α) (hi : m.invariant)
    (ho : other.invariant) (h : m.assignMaskedMove other sameObject = some (r, m1, other1)) :
    m1.invariant ∧ other1.invariant := by
  unfold assignMaskedMove at h
  by_cases hro : other.isRO = true
  · rw [if_pos hro] at h
    simp only [Option.map_eq_some'] at h
    obtain ⟨⟨r', m'⟩, hm', he⟩ := h
    simp only [Prod.mk.injEq] at he
    obtain ⟨_, he2, he3⟩ := he
    subst he2 he3
    exact ⟨assignMasked_invariant m other sameObject r' m' hi ho hm', ho⟩
  · rw [if_neg hro] at h
    by_cases hs : sameObject = true
    · rw [if_pos hs] at h
      simp only [Option.some.injEq, Prod.mk.injEq] at h
      obtain ⟨_, he2, he3⟩ := h
      subst he2 he3
      exact ⟨hi, hi⟩
    · rw [if_neg hs] at h
      cases hp : m.pArray with
      | none =>
        simp only [hp, Option.some.injEq, Prod.mk.injEq] at h
        obtain ⟨_, he2, he3⟩ := h
        subst he2 he3
        refine ⟨?_, Or.inr ⟨rfl, rfl, rfl⟩⟩
        rcases ho with ⟨oarr, omask, o1, o2, o3, o4, o5, o6⟩ | ⟨ohn, ohm, _⟩
        · exact Or.inl ⟨oarr, omask, o1, o2, o3, o4, o5, fun hc => by simp at hc⟩
        · exact Or.inr ⟨ohn, ohm, rfl⟩
      | some arr =>
        simp only [hp, Option.map_eq_some'] at h
        obtain ⟨⟨r', m'⟩, hm', he⟩ := h
        simp only [Prod.mk.injEq] at he
        obtain ⟨_, he2, he3⟩ := he
        subst he2 he3
        exact ⟨assignMasked_invariant m other sameObject r' m' hi ho hm', ho⟩

/-- Every reachable object satisfies the invariant. -/
theorem reachable_invariant {α : Type} (m : MaskedArray α) (h : Reachable α m) :
    m.invariant := by
  induction h with
  | empty α => exact Or.inr ⟨rfl, rfl, rfl⟩
  | new α inarray inmask isreadonly m ha hm h => exact new_invariant _ _ _ _ ha hm h
  | newWritable α inarray inmask m ha hm h => exact newWritable_invariant _ _ _ ha hm h
  | newFromMasked α inarray inmask isreadonly m _ hm h ih =>
    exact newFromMaskedBody_invariant _ _ _ _ _ ih hm h
  | newFromMaskedKeepRO α inarray inmask m _ hm h ih =>
    exact newFromMaskedBody_invariant _ _ _ _ _ ih hm h
  | newWithMaskedMask α inarray inmask isreadonly m ha _ h ih =>
    exact newWithMaskedMaskBody_invariant _ _ _ _ _ ha ih h
  | newWithMaskedMaskWritable α inarray inmask m ha _ h ih =>
    exact newWithMaskedMaskBody_invariant _ _ _ _ _ ha ih h
  | newFromMaskedWithMaskedMask α inarray inmask isreadonly m _ _ h ih1 ih2 =>
    exact newFromMaskedWithMaskedMaskBody_invariant _ _ _ _ _ ih1 ih2 h
  | newFromMaskedWithMaskedMaskKeepRO α inarray inmask m _ _ h ih1 ih2 =>
    exact newFromMaskedWithMaskedMaskBody_invariant _ _ _ _ _ ih1 ih2 h
  | newCopy α other isreadonly m _ h ih => exact newCopy_invariant _ _ _ ih h
  | newCopyKeepRO α other m _ h ih => exact newCopyKeepRO_invariant _ _ ih h
  | newMove α source _ ih => exact (newMove_invariant source ih).1
  | newMoveSource α source _ ih => exact (newMove_invariant source ih).2
  | setData α m data mask isReadOnly m1 _ ha hm h _ => exact setData_invariant _ _ _ _ _ ha hm h
  | setDataFromMasked α m array isReadOnly m1 _ _ h _ ih2 =>
    exact setDataFromMasked_invariant _ _ _ _ ih2 h
  | copy α m isreadonly m1 _ h ih => exact copy_invariant _ _ _ ih h
  | copyWritable α m m1 _ h ih => exact copyWritable_invariant _ _ ih h
  | nelementsValid α m n m1 _ h ih => exact nelementsValid_invariant _ _ _ ih h
  | setCompressedArray α m inarr r m1 _ _ h ih => exact setCompressedArray_invariant _ _ _ _ ih h
  | assignArray α m inarray r m1 _ hok h ih => exact assignArray_invariant _ _ _ _ ih hok h
  | assignArrayMove α m inarray r m1 _ hok h ih =>
    exact assignArrayMove_invariant _ _ _ _ ih hok h
  | assignMasked α m other sameObject r m1 _ _ h ih1 ih2 =>
    exact assignMasked_invariant _ _ _ _ _ ih1 ih2 h
  | assignMaskedMove α m other sameObject r m1 other1 _ _ _ h ih1 ih2 =>
    exact (assignMaskedMove_invariant _ _ _ _ _ _ ih1 ih2 h).1
  | assignMaskedMoveSource α m other sameObject r m1 other1 _ _ _ h ih1 ih2 =>
    exact (assignMaskedMove_invariant _ _ _ _ _ _ ih1 ih2 h).2
  | assignValue α m val r m1 _ h ih => exact assignValue_invariant _ _ _ _ ih h

end MaskedArray

theorem exampleMaskedArray_holds :
    exampleMaskedArray.holds { shape := [5], data := [10, 20, 30, 40, 50] }
      { shape := [5], data := [true, false, true, true, false] } :=
  ⟨rfl, rfl, rfl, rfl, rfl, fun h => by simp [exampleMaskedArray] at h⟩

theorem exampleReadOnlyMaskedArray_holds :
    exampleReadOnlyMaskedArray.holds { shape := [5], data := [10, 20, 30, 40, 50] }
      { shape := [5], data := [true, false, true, true, false] } :=
  ⟨rfl, rfl, rfl, rfl, rfl, fun h => by simp [exampleReadOnlyMaskedArray] at h⟩

/-- C33.  For every writable `MaskedArray` that holds data and every array `v` with exactly
`nelementsValid ()` elements, `setCompressedArray (v)` returns, and `getCompressedArray ()` of
the object it leaves returns a one-dimensional array with the elements of `v` in the same
order. -/
theorem setCompressedArray_then_getCompressedArray {α : Type} (m : MaskedArray α)
    (arr : CasaArray α) (mask : CasaArray Bool) (h : m.holds arr mask) (hrw : m.isRO = false)
    (v : CasaArray α) (hok : v.data.length = v.nelements) (m0 : MaskedArray α)
    (hn : m.nelementsValid = some (v.nelements, m0)) :
    ∃ m1 m2, m.setCompressedArray v = some (.ok (), m1) ∧
      m1.getCompressedArray = some ({ shape := [v.nelements], data := v.data }, m2) := by
  have hc : v.nelements = MaskedArray.countTrue mask.data := by
    rw [(MaskedArray.nelementsValid_holds m arr mask h).1] at hn
    simp only [Option.some.injEq, Prod.mk.injEq] at hn
    exact hn.1.symm
  obtain ⟨d, hd, hv, hl⟩ := MaskedArray.setCompressedArray_ok m arr mask h hrw v hok hc
  obtain ⟨h1, h2, h3, h4, h5, h6⟩ := h
  refine ⟨_, { pArray := some { arr with data := d }, pMask := some mask
               nelemValid := MaskedArray.countTrue mask.data, nelemValidIsOK := true
               isRO := false }, hd, ?_⟩
  rw [MaskedArray.getCompressedArray_of_holds _ { arr with data := d } mask
    ⟨rfl, rfl, by show d.length = arr.nelements; rw [hl, h3], h4, h5, fun _ => rfl⟩]
  simp only [hv, hc]

/-- Witness of C33: the three valid elements of the example vector are set to 1, 2, 3 and read
back. -/
theorem setCompressedArray_then_getCompressedArray_witness :
    ∃ m1 m2, exampleMaskedArray.setCompressedArray { shape := [3], data := [1, 2, 3] }
        = some (.ok (), m1) ∧
      m1.pArray = some { shape := [5], data := [1, 20, 2, 3, 50] } ∧
      m1.getCompressedArray = some ({ shape := [3], data := [1, 2, 3] }, m2) :=
  match setCompressedArray_then_getCompressedArray exampleMaskedArray _ _
      exampleMaskedArray_holds rfl { shape := [3], data := [1, 2, 3] } rfl
      { exampleMaskedArray with nelemValid := 3, nelemValidIsOK := true } rfl with
  | ⟨m1, m2, h1, h2⟩ =>
    ⟨m1, m2, h1, by
      have e : exampleMaskedArray.setCompressedArray { shape := [3], data := [1, 2, 3] }
          = some (.ok (), { pArray := some { shape := [5], data := [1, 20, 2, 3, 50] }
                            pMask := some { shape := [5]
                                            data := [true, false, true, true, false] }
                            nelemValid := 3, nelemValidIsOK := true, isRO := false }) := rfl
      rw [e] at h1
      simp only [Option.some.injEq, Prod.mk.injEq, true_and] at h1
      rw [← h1], h2⟩

/-- C34.  For a writable `MaskedArray` that holds data, `operator= (array)` with a conforming
array and `operator= (value)` return and leave the mask and the shape as they are; every element
whose mask value is false keeps its value and every element whose mask value is true is the
corresponding element of the array, or the value.  `setCompressedArray`, whatever it is given
and whether it returns or throws, leaves the mask and the shape as they are and every element
whose mask value is false keeps its value; it returns when the array has `nelementsValid ()`
elements. -/
theorem assignment_changes_only_valid_elements {α : Type} (m : MaskedArray α)
    (arr : CasaArray α) (mask : CasaArray Bool) (h : m.holds arr mask)
    (hrw : m.isRO = false) :
    (∀ inarray : CasaArray α, inarray.data.length = inarray.nelements →
      arr.shape = inarray.shape →
      ∃ m1 arr1, m.assignArray inarray = some (.ok (), m1) ∧ m1.pArray = some arr1 ∧
        m1.pMask = some mask ∧ arr1.shape = arr.shape ∧ arr1.data.length = arr.data.length ∧
        ∀ i, i < arr.nelements →
          arr1.data[i]? = if mask.data[i]? = some true then inarray.data[i]?
            else arr.data[i]?) ∧
    (∀ val : α,
      ∃ m1 arr1, m.assignValue val = some (.ok (), m1) ∧ m1.pArray = some arr1 ∧
        m1.pMask = some mask ∧ arr1.shape = arr.shape ∧ arr1.data.length = arr.data.length ∧
        ∀ i, i < arr.nelements →
          arr1.data[i]? = if mask.data[i]? = some true then some val else arr.data[i]?) ∧
    (∀ (inarr : CasaArray α) (r : Except ArrayException Unit) (m1 : MaskedArray α),
      m.setCompressedArray inarr = some (r, m1) →
      ∃ arr1, m1.pArray = some arr1 ∧ m1.pMask = some mask ∧ arr1.shape = arr.shape ∧
        arr1.data.length = arr.data.length ∧
        ∀ i : Nat, mask.data[i]? = some false → arr1.data[i]? = arr.data[i]?) ∧
    (∀ inarr : CasaArray α, inarr.data.length = inarr.nelements →
      inarr.nelements = MaskedArray.countTrue mask.data →
      ∃ m1, m.setCompressedArray inarr = some (.ok (), m1)) := by
  have h3 := h.2.2.1
  have h2 := h.2.1
  refine ⟨?_, ?_, ?_, ?_⟩
  · intro inarray hok hc
    obtain ⟨d, hd, hl, hget⟩ := MaskedArray.assignArray_ok m arr mask h hrw inarray hok hc
    exact ⟨_, _, hd, rfl, h2, rfl, by show d.length = arr.data.length; rw [hl, h3], hget⟩
  · intro val
    obtain ⟨d, hd, hl, hget⟩ := MaskedArray.assignValue_ok m arr mask h hrw val
    exact ⟨_, _, hd, rfl, h2, rfl, by show d.length = arr.data.length; rw [hl, h3], hget⟩
  · intro inarr r m1 hs
    obtain ⟨arr1, hh, hshape, _, hlen, hf, _⟩ :=
      MaskedArray.setCompressedArray_frame m arr mask h inarr r m1 hs
    refine ⟨arr1, hh.1, hh.2.1, hshape, hlen, ?_⟩
    intro i hi
    exact hf i (by rw [hi]; simp)
  · intro inarr hok hn
    obtain ⟨d, hd, _⟩ := MaskedArray.setCompressedArray_ok m arr mask h hrw inarr hok hn
    exact ⟨_, hd⟩

/-- Witness of C34: the value 7 assigned to the example vector. -/
theorem assignment_changes_only_valid_elements_witness :
    exampleMaskedArray.assignValue 7
      = some (.ok (), { exampleMaskedArray with
          pArray := some { shape := [5], data := [7, 20, 7, 7, 50] } }) ∧
    ∃ m1 arr1, exampleMaskedArray.assignValue 7 = some (.ok (), m1) ∧ m1.pArray = some arr1 ∧
      m1.pMask = some { shape := [5], data := [true, false, true, true, false] } ∧
      arr1.shape = [5] ∧ arr1.data.length = 5 :=
  ⟨rfl,
    match (assignment_changes_only_valid_elements exampleMaskedArray _ _
      exampleMaskedArray_holds rfl).2.1 7 with
    | ⟨m1, arr1, h1, h2, h3, h4, h5, _⟩ => ⟨m1, arr1, h1, h2, h3, h4, h5⟩⟩

/-- C35, as amended.  For a `MaskedArray` that holds data and is read-only, `operator=` with
a conforming array, `operator=` with a conforming `MaskedArray` that is another object (also
when it is moved from), `operator=` with a value, `getRWArray` and `getRWArrayStorage` throw
`ArrayError` and leave the object as it is; `setCompressedArray` with `nelementsValid ()`
elements throws `ArrayError` and leaves the array and the mask as they are. -/
theorem readonly_write_access_throws {α : Type} (m : MaskedArray α) (arr : CasaArray α)
    (mask : CasaArray Bool) (h : m.holds arr mask) (hro : m.isRO = true) :
    (∀ inarray : CasaArray α, arr.shape = inarray.shape →
      ∃ msg, m.assignArray inarray = some (.error (.ArrayError msg), m)) ∧
    (∀ (other : MaskedArray α) (oarr : CasaArray α), other.pArray = some oarr →
      arr.shape = oarr.shape →
      (∃ msg, m.assignMasked other false = some (.error (.ArrayError msg), m)) ∧
      (∃ msg, m.assignMaskedMove other false = some (.error (.ArrayError msg), m, other))) ∧
    (∀ val : α, ∃ msg, m.assignValue val = some (.error (.ArrayError msg), m)) ∧
    (∀ inarr : CasaArray α, inarr.nelements = MaskedArray.countTrue mask.data →
      ∃ msg m1, m.setCompressedArray inarr = some (.error (.ArrayError msg), m1) ∧
        m1.pArray = m.pArray ∧ m1.pMask = m.pMask) ∧
    (∃ msg, m.getRWArray = some (.error (.ArrayError msg))) ∧
    (∃ msg, m.getRWArrayStorage = some (.error (.ArrayError msg))) := by
  obtain ⟨hnv, _⟩ := MaskedArray.nelementsValid_holds m arr mask h
  obtain ⟨h1, h2, h3, h4, h5, h6⟩ := h
  refine ⟨?_, ?_, ?_, ?_, ?_, ?_⟩
  · intro inarray hc
    simp [MaskedArray.assignArray, h1, hro, CasaArray.conform, hc]
  · intro other oarr ho hc
    have e : ∃ msg, m.assignMasked other false = some (.error (.ArrayError msg), m) := by
      simp [MaskedArray.assignMasked, h1, ho, hro, CasaArray.conform, hc]
    refine ⟨e, ?_⟩
    obtain ⟨msg, e⟩ := e
    refine ⟨msg, ?_⟩
    cases hor : other.isRO <;> simp [MaskedArray.assignMaskedMove, hor, h1, e]
  · intro val
    simp [MaskedArray.assignValue, h1, hro]
  · intro inarr hn
    simp only [MaskedArray.setCompressedArray, hnv]
    simp [hn, MaskedArray.getRWArrayStorage, hro]
    exact ⟨_, _, ⟨rfl, rfl⟩, rfl, rfl⟩
  · simp [MaskedArray.getRWArray, hro]
  · simp [MaskedArray.getRWArrayStorage, hro]

/-- Witness of C35 as amended: the read-only example vector. -/
theorem readonly_write_access_throws_witness :
    exampleReadOnlyMaskedArray.isRO = true ∧
    (∃ msg, exampleReadOnlyMaskedArray.assignValue 7
      = some (.error (.ArrayError msg), exampleReadOnlyMaskedArray)) ∧
    (∃ msg, exampleReadOnlyMaskedArray.getRWArray = some (.error (.ArrayError msg))) :=
  have h := readonly_write_access_throws exampleReadOnlyMaskedArray _ _
    exampleReadOnlyMaskedArray_holds rfl
  ⟨rfl, h.2.2.1 7, h.2.2.2.2.1⟩

/-- C35, as stated, fails.  The read-only example vector assigned to itself: `operator=` with a
`MaskedArray` returns at the test `this == &other`, before the test of the read-only flag, and
throws nothing. -/
theorem readonly_self_assignment_counterexample :
    exampleReadOnlyMaskedArray.isRO = true ∧
    exampleReadOnlyMaskedArray.shape = exampleReadOnlyMaskedArray.shape ∧
    exampleReadOnlyMaskedArray.assignMasked exampleReadOnlyMaskedArray true
      = some (.ok (), exampleReadOnlyMaskedArray) :=
  ⟨rfl, rfl, rfl⟩

/-- C36.  In every `MaskedArray` reached through the constructors, `setData`, `copy`, the
assignment operators, `nelementsValid` and `setCompressedArray`: an object without mask has no
cached number; whenever the flag `nelemValidIsOK` is set, the cached `nelemValid` is the number
of true elements of the mask; `nelementsValid ()` returns that number, and a second call on the
object it leaves, which holds the same array and mask, returns it again. -/
theorem nelementsValid_cache_sound {α : Type} (m : MaskedArray α)
    (h : MaskedArray.Reachable α m) :
    (m.pMask = none → m.nelemValidIsOK = false) ∧
    ∀ mask, m.pMask = some mask →
      (m.nelemValidIsOK = true → m.nelemValid = MaskedArray.countTrue mask.data) ∧
      ∃ m1, m.nelementsValid = some (MaskedArray.countTrue mask.data, m1) ∧
        m1.nelementsValid = some (MaskedArray.countTrue mask.data, m1) ∧
        m1.pMask = some mask ∧ m1.pArray = m.pArray ∧ MaskedArray.Reachable α m1 := by
  have hi := MaskedArray.reachable_invariant m h
  rcases hi with ⟨arr, mask, hh⟩ | ⟨hn, hm, hc⟩
  · refine ⟨fun hnone => ?_, ?_⟩
    · rw [hh.2.1] at hnone
      cases hnone
    · intro mask' hmask'
      have e : mask' = mask := by
        rw [hh.2.1] at hmask'
        exact (Option.some.inj hmask').symm
      subst e
      obtain ⟨hnv, hh'⟩ := MaskedArray.nelementsValid_holds m arr mask' hh
      refine ⟨hh.2.2.2.2.2, _, hnv, ?_, hh.2.1, rfl,
        MaskedArray.Reachable.nelementsValid α m _ _ h hnv⟩
      simp [MaskedArray.nelementsValid]
  · refine ⟨fun _ => hc, ?_⟩
    intro mask hmask
    rw [hm] at hmask
    cases hmask

/-- Witness of C36: the example vector, made by the constructor from an array and a mask. -/
theorem nelementsValid_cache_sound_witness :
    MaskedArray.Reachable Nat exampleMaskedArray ∧
    ∃ m1, exampleMaskedArray.nelementsValid = some (3, m1) ∧
      m1.nelementsValid = some (3, m1) :=
  have hr : MaskedArray.Reachable Nat exampleMaskedArray :=
    MaskedArray.Reachable.newWritable Nat { shape := [5], data := [10, 20, 30, 40, 50] }
      { shape := [5], data := [true, false, true, true, false] } exampleMaskedArray rfl rfl rfl
  match (nelementsValid_cache_sound exampleMaskedArray hr).2
      { shape := [5], data := [true, false, true, true, false] } rfl with
  | ⟨_, m1, h1, h2, _⟩ => ⟨hr, m1, h1, h2⟩

/-- C37.  A `MaskedArray` constructed from a `MaskedArray` that holds data and a logical mask of
the same shape holds the array of the former and a mask that is the element-wise AND of the
given mask and the mask of the former; with the argument `isreadonly` it is read-only exactly
when the former is read-only or the argument is true, without it exactly when the former is
read-only.  When the shapes differ both constructors throw `ArrayConformanceError`. -/
theorem newFromMasked_mask_is_and {α : Type} (m : MaskedArray α) (arr : CasaArray α)
    (mask : CasaArray Bool) (h : m.holds arr mask) (k : CasaArray Bool) (isreadonly : Bool) :
    (arr.shape = k.shape →
      m.newFromMasked k isreadonly =
        some (.ok { pArray := some arr
                    pMask := some { shape := k.shape
                                    data := List.zipWith (fun a b => a && b) k.data mask.data }
                    nelemValid := 0, nelemValidIsOK := false
                    isRO := m.isRO || isreadonly }) ∧
      m.newFromMaskedKeepRO k =
        some (.ok { pArray := some arr
                    pMask := some { shape := k.shape
                                    data := List.zipWith (fun a b => a && b) k.data mask.data }
                    nelemValid := 0, nelemValidIsOK := false, isRO := m.isRO })) ∧
    (arr.shape ≠ k.shape →
      (∃ msg, m.newFromMasked k isreadonly = some (.error (.ArrayConformanceError msg))) ∧
      (∃ msg, m.newFromMaskedKeepRO k = some (.error (.ArrayConformanceError msg)))) :=
  ⟨fun hs => ⟨(MaskedArray.newFromMaskedBody_holds m arr mask h k _ _).1 hs,
      (MaskedArray.newFromMaskedBody_holds m arr mask h k _ _).1 hs⟩,
    fun hs => ⟨⟨_, (MaskedArray.newFromMaskedBody_holds m arr mask h k _ _).2 hs⟩,
      ⟨_, (MaskedArray.newFromMaskedBody_holds m arr mask h k _ _).2 hs⟩⟩⟩

/-- Witness of C37: the read-only example vector with the mask that keeps the first two
elements. -/
theorem newFromMasked_mask_is_and_witness :
    exampleReadOnlyMaskedArray.newFromMasked
        { shape := [5], data := [true, true, false, false, false] } false =
      some (.ok { pArray := some { shape := [5], data := [10, 20, 30, 40, 50] }
                  pMask := some { shape := [5], data := [true, false, false, false, false] }
                  nelemValid := 0, nelemValidIsOK := false, isRO := true }) :=
  ((newFromMasked_mask_is_and exampleReadOnlyMaskedArray _ _ exampleReadOnlyMaskedArray_holds
    { shape := [5], data := [true, true, false, false, false] } false).1 rfl).1

end Casacore
